import Mathlib

/-! Calling-convention classification of `lib/CodeGen/CGCall.cpp`.

A shallow embedding of the x86-64 eightbyte classifier (`X86_64ABIInfo::merge`,
`X86_64ABIInfo::classify`), of the register assignment built on it
(`getCoerceResult`, `classifyReturnType`, `classifyArgumentType`) and of the
signature-level pass `X86_64ABIInfo::computeInfo`; of the 32-bit x86, ARM and default
classifiers; of the lowering of a signature to a physical function type
(`GetExpandedTypes`, `GetFunctionType`) and to an attribute list
(`ConstructAttributeList`); of the registry of signatures (`getFunctionInfo`); of the
coercion through memory (`CreateCoercedLoad`, `CreateCoercedStore`); of the variadic
readers (`EmitVAArg`, as the effect of the emitted code on the `va_list`); and of the
marshallers (`EmitCall`, `EmitFunctionProlog`, `EmitFunctionEpilog`).

Conventions of the embedding:

* sizes, alignments and offsets are in bits, as `ASTContext::getTypeSize`,
  `ASTContext::getTypeAlign` and `ASTRecordLayout::getFieldOffset` report them;
* `uint64_t` arithmetic is `Nat` arithmetic reduced modulo `2^64` (`u64`);
* a C `assert` that does not hold aborts the compilation: a function that contains
  one returns `Except AssertFail _`, the error naming the assertion that failed;
* an output parameter becomes a component of the returned tuple.
-/

namespace CGCall

/-! ## Semantic types -/

/-- Modelled from the spec: the enumeration `BuiltinType::Kind` (clang/AST/Type.h) is
not part of the sources. The kinds are listed in declaration order, so that the range
test `k >= BuiltinType::Bool && k <= BuiltinType::LongLong` of `classify` selects the
integer kinds ("bool through long long"). -/
inductive BuiltinKind
  | Void
  | Bool
  | Char_U
  | UChar
  | UShort
  | UInt
  | ULong
  | ULongLong
  | Char_S
  | SChar
  | WChar
  | Short
  | Int
  | Long
  | LongLong
  | Float
  | Double
  | LongDouble
  | Overload
  | Dependent
  deriving DecidableEq, Repr

/-- Modelled from the spec: the numeric value of an enumerator of `BuiltinType::Kind`
(its position in the declaration), used by the range test of `classify`. -/
def kindValue : BuiltinKind → Nat
  | .Void => 0
  | .Bool => 1
  | .Char_U => 2
  | .UChar => 3
  | .UShort => 4
  | .UInt => 5
  | .ULong => 6
  | .ULongLong => 7
  | .Char_S => 8
  | .SChar => 9
  | .WChar => 10
  | .Short => 11
  | .Int => 12
  | .Long => 13
  | .LongLong => 14
  | .Float => 15
  | .Double => 16
  | .LongDouble => 17
  | .Overload => 18
  | .Dependent => 19

mutual
/-- Modelled from the spec: the semantic type (`QualType`, clang/AST/Type.h) is owned by an
external collaborator and is not part of the sources. A type is its kind together with
the layout data the classifiers query: size and alignment in bits and, for a record, the
union flag, the flexible-array-member flag and the ordered field list. An enumeration
type has the size and alignment of its integer type. `pointer` is a type for which
`isPointerType` holds; `pointerLike` stands for the other kinds with a pointer
representation (block pointers, references, Objective-C object types); `other` stands
for the array types that are not constant arrays (incomplete and variable arrays), which
no classifier inspects. -/
inductive QualType
  | builtin (k : BuiltinKind) (size align : Nat)
  | enumTy (integerType : QualType)
  | pointer (size align : Nat)
  | pointerLike (size align : Nat)
  | vector (elementType : QualType) (size align : Nat)
  | complex (elementType : QualType) (size align : Nat)
  | constantArray (elementType : QualType) (arraySize : Nat) (size align : Nat)
  | record (isUnion hasFlexibleArrayMember : Bool) (fields : FieldList) (size align : Nat)
  | other (size align : Nat)
/-- Modelled from the spec: the fields of a `RecordDecl` in declaration order, each with
its type, its bit offset in the record (`ASTRecordLayout::getFieldOffset`) and, for a
bit-field, its declared width. -/
inductive FieldList
  | nil
  | cons (type : QualType) (fieldOffset : Nat) (bitWidth : Option Nat) (rest : FieldList)
end

deriving instance DecidableEq for QualType, FieldList

/-- Modelled from the spec: `ASTContext::getTypeSize`, the size of a type in bits. -/
def getTypeSize : QualType → Nat
  | .builtin _ size _ => size
  | .enumTy t => getTypeSize t
  | .pointer size _ => size
  | .pointerLike size _ => size
  | .vector _ size _ => size
  | .complex _ size _ => size
  | .constantArray _ _ size _ => size
  | .record _ _ _ size _ => size
  | .other size _ => size

/-- Modelled from the spec: `ASTContext::getTypeAlign`, the alignment of a type in bits. -/
def getTypeAlign : QualType → Nat
  | .builtin _ _ align => align
  | .enumTy t => getTypeAlign t
  | .pointer _ align => align
  | .pointerLike _ align => align
  | .vector _ _ align => align
  | .complex _ _ align => align
  | .constantArray _ _ _ align => align
  | .record _ _ _ _ align => align
  | .other _ align => align

/-- Modelled from the spec: `Type::isSpecificBuiltinType`. -/
def isSpecificBuiltinType (T : QualType) (K : BuiltinKind) : Bool :=
  match T with
  | .builtin k _ _ => k = K
  | _ => false

/-- Modelled from the spec: `Type::isIntegralType`: the builtin kinds from `Bool` to
`LongLong` and the (complete) enumeration types. -/
def isIntegralType : QualType → Bool
  | .builtin k _ _ => kindValue .Bool ≤ kindValue k ∧ kindValue k ≤ kindValue .LongLong
  | .enumTy _ => true
  | _ => false

/-- Modelled from the spec: `Type::isPointerType`. -/
def isPointerType : QualType → Bool
  | .pointer _ _ => true
  | _ => false

/-- Modelled from the spec: `Type::hasPointerRepresentation`. -/
def hasPointerRepresentation : QualType → Bool
  | .pointer _ _ => true
  | .pointerLike _ _ => true
  | _ => false

/-- Modelled from the spec: `Type::isVoidType`. -/
def isVoidType (T : QualType) : Bool :=
  isSpecificBuiltinType T .Void

/-- Modelled from the spec: `Type::isAnyComplexType`. -/
def isAnyComplexType : QualType → Bool
  | .complex _ _ _ => true
  | _ => false

/-- Modelled from the spec: `Type::isRealType`: the builtin kinds from `Bool` to
`LongDouble` and the (complete) enumeration types. -/
def isRealType : QualType → Bool
  | .builtin k _ _ => kindValue .Bool ≤ kindValue k ∧ kindValue k ≤ kindValue .LongDouble
  | .enumTy _ => true
  | _ => false

/-- Modelled from the spec: `Type::isVectorType`. -/
def isVectorType : QualType → Bool
  | .vector _ _ _ => true
  | _ => false

/-- Modelled from the spec: `CodeGenFunction::hasAggregateLLVMType` (CodeGenFunction.cpp):
a type is an aggregate unless it has a pointer representation, is a real type, is `void`
or is a vector type. Complex, array and record types are aggregates. -/
def hasAggregateLLVMType (T : QualType) : Bool :=
  !hasPointerRepresentation T && !isRealType T && !isVoidType T && !isVectorType T

/-- The `uint64_t` value of a natural number. -/
def u64 (n : Nat) : Nat := n % 18446744073709551616

/-! ## Physical types and dispositions -/

/-- Modelled from the spec: the physical (LLVM) types the classifiers build.
`IntegerTy 64` is `llvm::Type::Int64Ty`; `ConvertedTy T` is the physical type the
external type-lowering map `ConvertType` assigns to the semantic type `T`, and
`ConvertedForMemTy T` the one `ConvertTypeForMem` assigns to it. A pointer type does not
record its address space. -/
inductive LLVMType
  | VoidTy
  | IntegerTy (bits : Nat)
  | FloatTy
  | DoubleTy
  | X86_FP80Ty
  | PointerTy (pointee : LLVMType)
  | StructTy (elements : List LLVMType) (isPacked : Bool)
  | ArrayTy (element : LLVMType) (numElements : Nat)
  | VectorTy (element : LLVMType) (numElements : Nat)
  | ConvertedTy (T : QualType)
  | ConvertedForMemTy (T : QualType)

/-- Modelled from the spec: `ABIArgInfo` (ABIInfo.h), the disposition of one value. -/
inductive ABIArgInfo
  | Direct
  | Indirect (align : Nat)
  | Ignore
  | Expand
  | Coerce (coerceToType : LLVMType)

/-- The assertions of the classifiers, named after their messages. -/
inductive AssertFail
  /-- Message "Invalid accumulated classification during merge." -/
  | invalidAccumulated
  /-- Message "Invalid SSEUp array classification." -/
  | invalidSSEUpArray
  /-- Message "Invalid classification, type > 16 bytes." -/
  | typeOver16Bytes
  /-- Message "Invalid memory classification." -/
  | invalidMemory
  /-- Message "Invalid null classification." -/
  | invalidNull
  /-- Message "Invalid SSEUp classification." -/
  | invalidSSEUp
  /-- Message "Invalid classification for lo word." -/
  | invalidLoWord
  /-- Message "Invalid classification for hi word." -/
  | invalidHiWord
  /-- Message "Unexpected ComplexX87 classification." -/
  | unexpectedComplexX87
  /-- Message "Unexpected SSEUp classification." -/
  | unexpectedSSEUp
  /-- Message "Coercion is losing source bits!" -/
  | coercionLosingSourceBits
  /-- Message "Coercion is missing bits!" -/
  | coercionMissingBits
  /-- Message "Can only expand structure types." -/
  | canOnlyExpandStructureTypes
  /-- Message "Cannot expand structure with flexible array." -/
  | cannotExpandFlexibleArray
  /-- Message "Cannot expand structure with bit-field members." -/
  | cannotExpandBitField
  /-- Message "Invalid ABI kind for return argument" -/
  | invalidReturnKind
  /-- Message "Align unused on indirect return." -/
  | alignUnusedOnIndirectReturn
  /-- Message "Unexpected ABI info for mixed regs" -/
  | unexpectedMixedRegs
  /-- Message "Invalid number of needed registers!" -/
  | invalidNeededRegisters
  /-- Message "Mismatch between function signature & arguments." -/
  | signatureArgumentsMismatch
  /-- Message "Argument mismatch!" -/
  | argumentMismatch
  /-- Message "Unexpected rvalue during struct expansion" -/
  | unexpectedRValueExpansion
  deriving DecidableEq, Repr

/-- A C `assert`: continue when the condition holds, abort otherwise. -/
def assertThat (cond : Bool) (msg : AssertFail) : Except AssertFail Unit :=
  if cond then .ok () else .error msg

/-- Modelled from the spec: one entry of `CGFunctionInfo` (CGCall.h): a type of the
signature and the disposition computed for it. -/
structure ArgInfo where
  type : QualType
  info : ABIArgInfo

/-- Modelled from the spec: `CGFunctionInfo` (CGCall.h): the return entry and the
argument entries of a signature. -/
structure CGFunctionInfo where
  ret : ArgInfo
  args : List ArgInfo

namespace X86_64ABIInfo

/-- The register classes of `X86_64ABIInfo`. -/
inductive Class
  | Integer
  | SSE
  | SSEUp
  | X87
  | X87Up
  | ComplexX87
  | NoClass
  | Memory
  deriving DecidableEq, Repr

/-- `X86_64ABIInfo::merge`: merge an accumulating classification with a field
classification. -/
def merge (Accum Field : Class) : Except AssertFail Class := do
  assertThat (Accum ≠ .Memory ∧ Accum ≠ .ComplexX87) .invalidAccumulated
  if Accum = Field ∨ Field = .NoClass then
    pure Accum
  else if Field = .Memory then
    pure .Memory
  else if Accum = .NoClass then
    pure Field
  else if Accum = .Integer ∨ Field = .Integer then
    pure .Integer
  else if Field = .X87 ∨ Field = .X87Up ∨ Field = .ComplexX87 then
    pure .Memory
  else
    pure .SSE

/-- Assignment through the reference `Current` of `classify`, which is bound to `Lo`
when `OffsetBase < 64` and to `Hi` otherwise. -/
def setCurrent (OffsetBase : Nat) (LoHi : Class × Class) (c : Class) : Class × Class :=
  if OffsetBase < 64 then (c, LoHi.2) else (LoHi.1, c)

/-- The state of `classify` after `Lo = Hi = NoClass; Current = Memory;`. -/
def initial (OffsetBase : Nat) : Class × Class :=
  setCurrent OffsetBase (.NoClass, .NoClass) .Memory

/-- The builtin-type branch of `classify`. -/
def classifyBuiltin (k : BuiltinKind) (OffsetBase : Nat) : Class × Class :=
  if k = .Void then
    setCurrent OffsetBase (initial OffsetBase) .NoClass
  else if kindValue .Bool ≤ kindValue k ∧ kindValue k ≤ kindValue .LongLong then
    setCurrent OffsetBase (initial OffsetBase) .Integer
  else if k = .Float ∨ k = .Double then
    setCurrent OffsetBase (initial OffsetBase) .SSE
  else if k = .LongDouble then
    (.X87, .X87Up)
  else
    initial OffsetBase

/-- The vector-type branch of `classify`; `Size` is the size of the vector type. -/
def classifyVector (elementType : QualType) (Size OffsetBase : Nat) : Class × Class :=
  if Size = 32 then
    let cur := setCurrent OffsetBase (initial OffsetBase) .Integer
    let EB_Real := OffsetBase / 64
    let EB_Imag := u64 (u64 (OffsetBase + Size) + 18446744073709551615) / 64
    if EB_Real ≠ EB_Imag then (cur.1, cur.1) else cur
  else if Size = 64 then
    if isSpecificBuiltinType elementType .Double then
      initial OffsetBase
    else
      let cur :=
        if isSpecificBuiltinType elementType .LongLong then
          setCurrent OffsetBase (initial OffsetBase) .Integer
        else
          setCurrent OffsetBase (initial OffsetBase) .SSE
      if OffsetBase ≠ 0 ∧ OffsetBase ≠ 64 then (cur.1, cur.1) else cur
  else if Size = 128 then
    (.SSE, .SSEUp)
  else
    initial OffsetBase

/-- The complex-type branch of `classify`; `Size` is the size of the complex type and
`ET` its element type. -/
def classifyComplex (ET : QualType) (Size OffsetBase : Nat) : Class × Class :=
  let cur :=
    if isIntegralType ET then
      if Size ≤ 64 then
        setCurrent OffsetBase (initial OffsetBase) .Integer
      else if Size ≤ 128 then
        (.Integer, .Integer)
      else
        initial OffsetBase
    else if isSpecificBuiltinType ET .Float then
      setCurrent OffsetBase (initial OffsetBase) .SSE
    else if isSpecificBuiltinType ET .Double then
      (.SSE, .SSE)
    else if isSpecificBuiltinType ET .LongDouble then
      setCurrent OffsetBase (initial OffsetBase) .ComplexX87
    else
      initial OffsetBase
  let EB_Real := OffsetBase / 64
  let EB_Imag := u64 (OffsetBase + getTypeSize ET) / 64
  if cur.2 = .NoClass ∧ EB_Real ≠ EB_Imag then (cur.1, cur.1) else cur

/-- The element loop of the array branch of `classify`: `remaining` elements are still to
be classified, the next one at bit offset `Offset`. -/
def classifyArrayLoop (classifyElement : Nat → Except AssertFail (Class × Class))
    (EltSize : Nat) : (remaining : Nat) → (Offset : Nat) → Class → Class →
    Except AssertFail (Class × Class)
  | 0, _, Lo, Hi => pure (Lo, Hi)
  | remaining + 1, Offset, Lo, Hi => do
    let Field ← classifyElement Offset
    let Lo ← merge Lo Field.1
    let Hi ← merge Hi Field.2
    if Lo = .Memory ∨ Hi = .Memory then
      pure (Lo, Hi)
    else
      classifyArrayLoop classifyElement EltSize remaining (u64 (Offset + EltSize)) Lo Hi

/-- The classification of a bit-field of width `Size` at bit offset `Offset`, in the
record branch of `classify`. -/
def classifyBitField (Offset Size : Nat) : Except AssertFail (Class × Class) := do
  let EB_Lo := Offset / 64
  let EB_Hi := u64 (u64 (Offset + Size) + 18446744073709551615) / 64
  if EB_Lo ≠ 0 then
    assertThat (EB_Hi = EB_Lo) .typeOver16Bytes
    pure (.NoClass, .Integer)
  else
    pure (.Integer, if EB_Hi ≠ 0 then .Integer else .NoClass)

mutual
/-- `X86_64ABIInfo::classify`: the classes `(Lo, Hi)` of the two eightbytes of a type
placed at bit offset `OffsetBase` of the containing object. -/
def classify : QualType → Nat → Except AssertFail (Class × Class)
  | .builtin k _ _, OffsetBase => pure (classifyBuiltin k OffsetBase)
  | .enumTy integerType, OffsetBase => classify integerType OffsetBase
  | .pointer _ _, OffsetBase => pure (setCurrent OffsetBase (initial OffsetBase) .Integer)
  | .pointerLike _ _, OffsetBase => pure (setCurrent OffsetBase (initial OffsetBase) .Integer)
  | .vector elementType Size _, OffsetBase => pure (classifyVector elementType Size OffsetBase)
  | .complex ET Size _, OffsetBase => pure (classifyComplex ET Size OffsetBase)
  | .constantArray elementType ArraySize Size _, OffsetBase =>
    if Size > 128 then
      pure (initial OffsetBase)
    else if OffsetBase % getTypeAlign elementType ≠ 0 then
      pure (initial OffsetBase)
    else do
      let start := setCurrent OffsetBase (initial OffsetBase) .NoClass
      let r ← classifyArrayLoop (fun Offset => classify elementType Offset)
        (getTypeSize elementType) ArraySize OffsetBase start.1 start.2
      let Lo := if r.2 = .Memory then .Memory else r.1
      let Hi := r.2
      assertThat (Hi ≠ .SSEUp ∨ Lo = .SSE) .invalidSSEUpArray
      pure (Lo, Hi)
  | .record _ hasFlexibleArrayMember fields Size _, OffsetBase =>
    if Size > 128 then
      pure (initial OffsetBase)
    else if hasFlexibleArrayMember then
      pure (initial OffsetBase)
    else do
      let start := setCurrent OffsetBase (initial OffsetBase) .NoClass
      let r ← classifyFields fields OffsetBase start.1 start.2
      if r.1 then
        pure r.2
      else
        let Lo := if r.2.2 = .Memory then .Memory else r.2.1
        let Hi := if r.2.2 = .SSEUp ∧ Lo ≠ .SSE then .SSE else r.2.2
        pure (Lo, Hi)
  | .other _ _, OffsetBase => pure (initial OffsetBase)
/-- The field loop of the record branch of `classify`, from the field at the head of the
list on. The first component of the result tells whether the loop left `classify` through
the `return` of the misaligned-field test, which skips the post-merger cleanup. -/
def classifyFields : FieldList → Nat → Class → Class →
    Except AssertFail (Bool × Class × Class)
  | .nil, _, Lo, Hi => pure (false, Lo, Hi)
  | .cons type fieldOffset bitWidth rest, OffsetBase, Lo, Hi =>
    let Offset := u64 (OffsetBase + fieldOffset)
    if bitWidth.isNone ∧ Offset % getTypeAlign type ≠ 0 then
      pure (true, .Memory, Hi)
    else do
      let Field ← (match bitWidth with
        | some Size => classifyBitField Offset Size
        | none => classify type Offset)
      let Lo ← merge Lo Field.1
      let Hi ← merge Hi Field.2
      if Lo = .Memory ∨ Hi = .Memory then
        pure (false, Lo, Hi)
      else
        classifyFields rest OffsetBase Lo Hi
end

/-- `X86_64ABIInfo::getCoerceResult`: the way to pass `Ty` in the place where `CoerceTo`
would be passed, keeping the emitted code simple. -/
def getCoerceResult (Ty : QualType) (CoerceTo : LLVMType) : ABIArgInfo :=
  match CoerceTo with
  | .IntegerTy 64 =>
    if isIntegralType Ty ∨ isPointerType Ty then .Direct else .Coerce CoerceTo
  | .DoubleTy =>
    if isSpecificBuiltinType Ty .Float ∨ isSpecificBuiltinType Ty .Double then .Direct
    else .Coerce CoerceTo
  | _ => .Coerce CoerceTo

/-- `X86_64ABIInfo::classifyReturnType`. The first `switch` either returns a disposition
(`Sum.inl`) or chooses the physical type of the low eightbyte (`Sum.inr`), which the
second `switch` widens according to the high eightbyte. -/
def classifyReturnType (RetTy : QualType) : Except AssertFail ABIArgInfo := do
  let LoHi ← classify RetTy 0
  let Lo := LoHi.1
  let Hi := LoHi.2
  assertThat (Hi ≠ .Memory ∨ Lo = .Memory) .invalidMemory
  assertThat (Lo ≠ .NoClass ∨ Hi = .NoClass) .invalidNull
  assertThat (Hi ≠ .SSEUp ∨ Lo = .SSE) .invalidSSEUp
  let first : ABIArgInfo ⊕ LLVMType ← (match Lo with
    | .NoClass => pure (.inl .Ignore)
    | .SSEUp => throw .invalidLoWord
    | .X87Up => throw .invalidLoWord
    | .Memory => pure (.inl (.Indirect 0))
    | .Integer => pure (.inr (.IntegerTy 64))
    | .SSE => pure (.inr .DoubleTy)
    | .X87 => pure (.inr .X86_FP80Ty)
    | .ComplexX87 => do
      assertThat (Hi = .ComplexX87) .unexpectedComplexX87
      pure (.inr (.StructTy [.X86_FP80Ty, .X86_FP80Ty] false)))
  match first with
  | .inl result => pure result
  | .inr ResType => do
    let ResType ← (match Hi with
      | .Memory => throw .invalidHiWord
      | .X87 => throw .invalidHiWord
      | .ComplexX87 => pure ResType
      | .NoClass => pure ResType
      | .Integer => pure (.StructTy [ResType, .IntegerTy 64] false)
      | .SSE => pure (.StructTy [ResType, .DoubleTy] false)
      | .SSEUp => do
        assertThat (Lo = .SSE) .unexpectedSSEUp
        pure (.VectorTy .DoubleTy 2)
      | .X87Up =>
        if Lo ≠ .X87 then pure (.StructTy [ResType, .DoubleTy] false) else pure ResType)
    pure (getCoerceResult RetTy ResType)

/-- `X86_64ABIInfo::classifyArgumentType`: the disposition of an argument together with
the output parameters `neededInt` and `neededSSE`. The first `switch` either returns a
disposition (`Sum.inl`) or chooses the physical type and the register counts of the low
eightbyte (`Sum.inr`). -/
def classifyArgumentType (Ty : QualType) : Except AssertFail (ABIArgInfo × Nat × Nat) := do
  let LoHi ← classify Ty 0
  let Lo := LoHi.1
  let Hi := LoHi.2
  assertThat (Hi ≠ .Memory ∨ Lo = .Memory) .invalidMemory
  assertThat (Lo ≠ .NoClass ∨ Hi = .NoClass) .invalidNull
  assertThat (Hi ≠ .SSEUp ∨ Lo = .SSE) .invalidSSEUp
  let neededInt := 0
  let neededSSE := 0
  let first : ABIArgInfo ⊕ (LLVMType × Nat × Nat) ← (match Lo with
    | .NoClass => pure (.inl .Ignore)
    | .Memory => pure (.inl (.Indirect 0))
    | .X87 => pure (.inl (.Indirect 0))
    | .ComplexX87 => pure (.inl (.Indirect 0))
    | .SSEUp => throw .invalidLoWord
    | .X87Up => throw .invalidLoWord
    | .Integer => pure (.inr (.IntegerTy 64, neededInt + 1, neededSSE))
    | .SSE => pure (.inr (.DoubleTy, neededInt, neededSSE + 1)))
  match first with
  | .inl result => pure (result, neededInt, neededSSE)
  | .inr (ResType, neededInt, neededSSE) => do
    let second : LLVMType × Nat × Nat ← (match Hi with
      | .Memory => throw .invalidHiWord
      | .X87 => throw .invalidHiWord
      | .ComplexX87 => throw .invalidHiWord
      | .NoClass => pure (ResType, neededInt, neededSSE)
      | .Integer => pure (.StructTy [ResType, .IntegerTy 64] false, neededInt + 1, neededSSE)
      | .X87Up => pure (.StructTy [ResType, .DoubleTy] false, neededInt, neededSSE + 1)
      | .SSE => pure (.StructTy [ResType, .DoubleTy] false, neededInt, neededSSE + 1)
      | .SSEUp => do
        assertThat (Lo = .SSE) .unexpectedSSEUp
        pure (.VectorTy .DoubleTy 2, neededInt, neededSSE))
    pure (getCoerceResult Ty second.1, second.2.1, second.2.2)

/-- The argument loop of `X86_64ABIInfo::computeInfo`, from the argument at the head of
the list on, with the current values of the locals `freeIntRegs` and `freeSSERegs`. It
returns the entries with their dispositions and the final values of the two locals. -/
def computeInfoArgs : List ArgInfo → Nat → Nat → Except AssertFail (List ArgInfo × Nat × Nat)
  | [], freeIntRegs, freeSSERegs => pure ([], freeIntRegs, freeSSERegs)
  | it :: rest, freeIntRegs, freeSSERegs => do
    let r ← classifyArgumentType it.type
    let neededInt := r.2.1
    let neededSSE := r.2.2
    if freeIntRegs ≥ neededInt ∧ freeSSERegs ≥ neededSSE then
      let tail ← computeInfoArgs rest (freeIntRegs - neededInt) (freeSSERegs - neededSSE)
      pure ({ it with info := r.1 } :: tail.1, tail.2)
    else
      let tail ← computeInfoArgs rest freeIntRegs freeSSERegs
      pure ({ it with info := .Indirect 0 } :: tail.1, tail.2)

/-- `X86_64ABIInfo::computeInfo`, returning next to the updated signature the final values
of the locals `freeIntRegs` and `freeSSERegs`. -/
def computeInfoRegs (FI : CGFunctionInfo) : Except AssertFail (CGFunctionInfo × Nat × Nat) := do
  let retInfo ← classifyReturnType FI.ret.type
  let r ← computeInfoArgs FI.args 6 8
  pure ({ ret := { FI.ret with info := retInfo }, args := r.1 }, r.2)

/-- `X86_64ABIInfo::computeInfo`: fill in the dispositions of a signature. -/
def computeInfo (FI : CGFunctionInfo) : Except AssertFail CGFunctionInfo := do
  let r ← computeInfoRegs FI
  pure r.1

end X86_64ABIInfo

/-- The constructor `CGFunctionInfo::CGFunctionInfo(ResTy, ArgTys)`: it records the types
and leaves each `ABIArgInfo` as constructed. Modelled from the spec: a freshly constructed
`ABIArgInfo` has kind `Direct` (ABIInfo.h); `computeInfo` overwrites it. -/
def CGFunctionInfo.create (ResTy : QualType) (ArgTys : List QualType) : CGFunctionInfo :=
  { ret := { type := ResTy, info := .Direct },
    args := ArgTys.map fun T => { type := T, info := .Direct } }

/-! ## The 32-bit x86 return classifier -/

mutual
/-- `isEmptyStruct`: a structure has no non-empty members. A structure with a flexible
array member is not empty, and neither is a type that is not a structure. -/
def isEmptyStruct : QualType → Bool
  | .record isUnion hasFlexibleArrayMember fields _ _ =>
    if isUnion then false
    else if hasFlexibleArrayMember then false
    else isEmptyStructFields fields
  | _ => false
/-- The field loop of `isEmptyStruct`. -/
def isEmptyStructFields : FieldList → Bool
  | .nil => true
  | .cons type _ _ rest =>
    if !isEmptyStruct type then false else isEmptyStructFields rest
end

mutual
/-- `isSingleElementStruct`: the single non-empty field of a "single element struct", if
there is one. The result is the type of the field found, the only part of the field
declaration that the callers read. -/
def isSingleElementStruct : QualType → Option QualType
  | .record isUnion hasFlexibleArrayMember fields _ _ =>
    if isUnion then none
    else if hasFlexibleArrayMember then none
    else isSingleElementStructFields fields none
  | _ => none
/-- The field loop of `isSingleElementStruct`, with the current value of `Found`. -/
def isSingleElementStructFields : FieldList → Option QualType → Option QualType
  | .nil, Found => Found
  | .cons FT _ _ rest, Found =>
    if isEmptyStruct FT then
      isSingleElementStructFields rest Found
    else if Found.isSome then
      none
    else if !hasAggregateLLVMType FT then
      isSingleElementStructFields rest (some FT)
    else
      match isSingleElementStruct FT with
      | none => none
      | some inner => isSingleElementStructFields rest (some inner)
end

namespace X86_32ABIInfo

/-- `X86_32ABIInfo::classifyReturnType`, for the value `IsDarwin` of the class member. -/
def classifyReturnType (IsDarwin : Bool) (RetTy : QualType) : ABIArgInfo :=
  if isVoidType RetTy then
    .Ignore
  else if hasAggregateLLVMType RetTy then
    if !IsDarwin && !isAnyComplexType RetTy then
      .Indirect 0
    else
      let bySize : ABIArgInfo :=
        let Size := getTypeSize RetTy
        if Size = 8 then .Coerce (.IntegerTy 8)
        else if Size = 16 then .Coerce (.IntegerTy 16)
        else if Size = 32 then .Coerce (.IntegerTy 32)
        else if Size = 64 then .Coerce (.IntegerTy 64)
        else .Indirect 0
      match isSingleElementStruct RetTy with
      | some (.builtin k size align) =>
        if kindValue .Bool ≤ kindValue k ∧ kindValue k ≤ kindValue .LongLong then
          .Coerce (.IntegerTy (getTypeSize (.builtin k size align) % 4294967296))
        else if k = .Float then
          .Coerce .FloatTy
        else if k = .Double then
          .Coerce .DoubleTy
        else
          bySize
      | some (.pointer _ _) => .Coerce (.PointerTy (.IntegerTy 8))
      | _ => bySize
  else
    .Direct

end X86_32ABIInfo

/-! ## The 32-bit x86 argument classifier -/

/-- Modelled from the spec: `Type::getAsStructureType`: the record behind a structure
type (a record that is not a union), as its flexible-array-member flag and its fields;
`none` for every other type. `Type::isStructureType` holds exactly when it is not
`none`. -/
def getAsStructureType : QualType → Option (Bool × FieldList)
  | .record false hasFlexibleArrayMember fields _ _ => some (hasFlexibleArrayMember, fields)
  | _ => none

/-- Modelled from the spec: `Type::getAsBuiltinType` is not null. -/
def isBuiltinType : QualType → Bool
  | .builtin _ _ _ => true
  | _ => false

/-- `is32Or64BitBasicType`: a builtin or pointer type of 32 or 64 bits. -/
def is32Or64BitBasicType (Ty : QualType) : Bool :=
  if !isBuiltinType Ty && !isPointerType Ty then
    false
  else
    let Size := getTypeSize Ty
    Size = 32 || Size = 64

/-- `areAllFields32Or64BitBasicType`: the loop over the fields of the record. -/
def areAllFields32Or64BitBasicType : FieldList → Bool
  | .nil => true
  | .cons FT _ bitWidth rest =>
    if !is32Or64BitBasicType FT then
      false
    else if bitWidth.isSome then
      false
    else
      areAllFields32Or64BitBasicType rest

namespace X86_32ABIInfo

/-- `X86_32ABIInfo::classifyArgumentType`. -/
def classifyArgumentType (Ty : QualType) : ABIArgInfo :=
  if hasAggregateLLVMType Ty then
    if (match getAsStructureType Ty with
        | some RT => RT.1
        | none => false) then
      .Indirect 0
    else
      let Size := getTypeSize Ty
      if (getAsStructureType Ty).isSome && Size = 0 then
        .Ignore
      else if (match getAsStructureType Ty with
          | some RT => decide (getTypeSize Ty ≤ 4 * 32) && areAllFields32Or64BitBasicType RT.2
          | none => false) then
        .Expand
      else
        .Indirect 0
  else
    .Direct

/-- `X86_32ABIInfo::computeInfo`, for the value `IsDarwin` of the class member. -/
def computeInfo (IsDarwin : Bool) (FI : CGFunctionInfo) : CGFunctionInfo :=
  { ret := { type := FI.ret.type, info := classifyReturnType IsDarwin FI.ret.type },
    args := FI.args.map fun it => { type := it.type, info := classifyArgumentType it.type } }

end X86_32ABIInfo

/-! ## The ARM and the default classifiers -/

namespace ARMABIInfo

/-- `ARMABIInfo::classifyArgumentType`. The local `SizeRegs` is an `unsigned`: it holds
the `uint64_t` quotient reduced modulo `2^32`. The result is the packed structure type
whose one member is the array of `SizeRegs` elements of `ElemTy`. -/
def classifyArgumentType (Ty : QualType) : ABIArgInfo :=
  if !hasAggregateLLVMType Ty then
    .Direct
  else
    let ElemTySizeRegs : LLVMType × Nat :=
      if getTypeAlign Ty > 32 then
        (.IntegerTy 64, (u64 (getTypeSize Ty + 63) / 64) % 4294967296)
      else
        (.IntegerTy 32, (u64 (getTypeSize Ty + 31) / 32) % 4294967296)
    .Coerce (.StructTy [.ArrayTy ElemTySizeRegs.1 ElemTySizeRegs.2] true)

/-- `ARMABIInfo::classifyReturnType`. -/
def classifyReturnType (RetTy : QualType) : ABIArgInfo :=
  if isVoidType RetTy then
    .Ignore
  else if hasAggregateLLVMType RetTy then
    let Size := getTypeSize RetTy
    if Size ≤ 32 then
      .Coerce (.IntegerTy 32)
    else
      .Indirect 0
  else
    .Direct

/-- `ARMABIInfo::computeInfo`. -/
def computeInfo (FI : CGFunctionInfo) : CGFunctionInfo :=
  { ret := { type := FI.ret.type, info := classifyReturnType FI.ret.type },
    args := FI.args.map fun it => { type := it.type, info := classifyArgumentType it.type } }

end ARMABIInfo

namespace DefaultABIInfo

/-- `DefaultABIInfo::classifyReturnType`. -/
def classifyReturnType (RetTy : QualType) : ABIArgInfo :=
  if isVoidType RetTy then
    .Ignore
  else if hasAggregateLLVMType RetTy then
    .Indirect 0
  else
    .Direct

/-- `DefaultABIInfo::classifyArgumentType`. -/
def classifyArgumentType (Ty : QualType) : ABIArgInfo :=
  if hasAggregateLLVMType Ty then
    .Indirect 0
  else
    .Direct

/-- `DefaultABIInfo::computeInfo`. -/
def computeInfo (FI : CGFunctionInfo) : CGFunctionInfo :=
  { ret := { type := FI.ret.type, info := classifyReturnType FI.ret.type },
    args := FI.args.map fun it => { type := it.type, info := classifyArgumentType it.type } }

end DefaultABIInfo

/-- The implementations of the interface `ABIInfo`: the object `CodeGenTypes::getABIInfo`
caches in `TheABIInfo`. -/
inductive ABIInfo
  | Default
  | X86_32 (IsDarwin : Bool)
  | X86_64
  | ARM
  deriving DecidableEq, Repr

/-- The virtual call `getABIInfo().computeInfo(FI, Context)`. -/
def ABIInfo.computeInfo : ABIInfo → CGFunctionInfo → Except AssertFail CGFunctionInfo
  | .Default, FI => pure (DefaultABIInfo.computeInfo FI)
  | .X86_32 IsDarwin, FI => pure (X86_32ABIInfo.computeInfo IsDarwin FI)
  | .X86_64, FI => X86_64ABIInfo.computeInfo FI
  | .ARM, FI => pure (ARMABIInfo.computeInfo FI)

/-! ## Coercion through memory -/

/-- A byte of memory; `none` is a byte whose value is undefined. -/
abbrev Byte := Option Nat

/-- `CreateCoercedLoad`: load a value of the type `Ty`, of storage size `DstSize`, from a
location holding the bytes `Src` of a source type whose storage size
(`TargetData::getTypePaddedSize`) is `Src.length`. When the sizes differ the source is
copied into a fresh temporary of type `Ty`, whose remaining bytes are undefined. -/
def CreateCoercedLoad (Src : List Byte) (DstSize : Nat) : Except AssertFail (List Byte) :=
  if Src.length = DstSize then
    pure Src
  else do
    assertThat (Src.length < DstSize) .coercionLosingSourceBits
    pure (Src ++ List.replicate (DstSize - Src.length) none)

/-- `CreateCoercedStore`: store the value `Src`, of storage size `Src.length`, to a
location of a type of storage size `DstSize`; the result is the content of the
destination. When the sizes differ the value goes through a temporary of the source type,
of which the first `DstSize` bytes are copied. -/
def CreateCoercedStore (Src : List Byte) (DstSize : Nat) : Except AssertFail (List Byte) :=
  if Src.length = DstSize then
    pure Src
  else do
    assertThat (Src.length > DstSize) .coercionMissingBits
    pure (Src.take DstSize)

/-- Modelled from the spec: `TargetData::getTypePaddedSize`, the storage size in bytes of
a physical type, for the integer and floating-point types whose size is the same on every
target; `none` for the other types. -/
def getTypePaddedSize : LLVMType → Option Nat
  | .IntegerTy 8 => some 1
  | .IntegerTy 16 => some 2
  | .IntegerTy 32 => some 4
  | .IntegerTy 64 => some 8
  | .FloatTy => some 4
  | .DoubleTy => some 8
  | _ => none

/-- Modelled from the spec: the storage size in bytes of the physical type that the
external type-lowering map (`ConvertTypeForMem`) gives a semantic type; the lowered type
occupies the size of the semantic type. -/
def getTypeStorageSize (T : QualType) : Nat :=
  (getTypeSize T + 7) / 8

/-! ## Lowering a signature to a physical function type -/

mutual
/-- `CodeGenTypes::GetExpandedTypes`: append to `ArgTys` the physical types of the leaf
fields of the structure `Ty`. -/
def GetExpandedTypes : QualType → List LLVMType → Except AssertFail (List LLVMType)
  | .record isUnion hasFlexibleArrayMember fields _ _, ArgTys => do
    assertThat (!isUnion) .canOnlyExpandStructureTypes
    assertThat (!hasFlexibleArrayMember) .cannotExpandFlexibleArray
    GetExpandedTypesFields fields ArgTys
  | _, _ => .error .canOnlyExpandStructureTypes
/-- The loop of `GetExpandedTypes` over the fields, from the field at the head on. -/
def GetExpandedTypesFields : FieldList → List LLVMType → Except AssertFail (List LLVMType)
  | .nil, ArgTys => pure ArgTys
  | .cons FT _ bitWidth rest, ArgTys => do
    assertThat bitWidth.isNone .cannotExpandBitField
    if hasAggregateLLVMType FT then
      let ArgTys ← GetExpandedTypes FT ArgTys
      GetExpandedTypesFields rest ArgTys
    else
      GetExpandedTypesFields rest (ArgTys ++ [.ConvertedTy FT])
end

/-- Modelled from the spec: `llvm::FunctionType`, as `llvm::FunctionType::get` builds it
from a result type, the parameter types and the variadic flag. -/
structure FunctionType where
  ResultType : LLVMType
  ArgTys : List LLVMType
  IsVariadic : Bool

/-- The argument loop of `CodeGenTypes::GetFunctionType`, from the argument at the head
of the list on, with the current value of the local `ArgTys`. -/
def GetFunctionTypeArgs : List ArgInfo → List LLVMType → Except AssertFail (List LLVMType)
  | [], ArgTys => pure ArgTys
  | it :: rest, ArgTys =>
    match it.info with
    | .Ignore => GetFunctionTypeArgs rest ArgTys
    | .Coerce CoerceToType => GetFunctionTypeArgs rest (ArgTys ++ [CoerceToType])
    | .Indirect _ =>
      GetFunctionTypeArgs rest (ArgTys ++ [.PointerTy (.ConvertedForMemTy it.type)])
    | .Direct => GetFunctionTypeArgs rest (ArgTys ++ [.ConvertedTy it.type])
    | .Expand => do
      let ArgTys ← GetExpandedTypes it.type ArgTys
      GetFunctionTypeArgs rest ArgTys

/-- `CodeGenTypes::GetFunctionType`. -/
def GetFunctionType (FI : CGFunctionInfo) (IsVariadic : Bool) :
    Except AssertFail FunctionType := do
  let RetTy := FI.ret.type
  let first : LLVMType × List LLVMType ←
    match FI.ret.info with
    | .Expand => .error .invalidReturnKind
    | .Direct => pure (.ConvertedTy RetTy, [])
    | .Indirect align => do
      assertThat (align = 0) .alignUnusedOnIndirectReturn
      pure (.VoidTy, [.PointerTy (.ConvertedTy RetTy)])
    | .Ignore => pure (.VoidTy, [])
    | .Coerce CoerceToType => pure (CoerceToType, [])
  let ArgTys ← GetFunctionTypeArgs FI.args first.2
  pure { ResultType := first.1, ArgTys := ArgTys, IsVariadic := IsVariadic }

/-! ## Parameter attributes -/

/-- Modelled from the spec: `Type::isPromotableIntegerType` (AST/Type.cpp): the builtin
kinds `bool`, `char`, `signed char`, `unsigned char`, `short` and `unsigned short`. -/
def isPromotableIntegerType : QualType → Bool
  | .builtin k _ _ =>
    k = .Bool || k = .Char_S || k = .Char_U || k = .SChar || k = .UChar || k = .Short ||
      k = .UShort
  | _ => false

/-- Modelled from the spec: `Type::isSignedIntegerType`: the builtin kinds from `Char_S`
to `LongLong`, an enumeration whose integer type is signed and a vector of signed
elements. -/
def isSignedIntegerType : QualType → Bool
  | .builtin k _ _ => kindValue .Char_S ≤ kindValue k ∧ kindValue k ≤ kindValue .LongLong
  | .enumTy t => isSignedIntegerType t
  | .vector elementType _ _ => isSignedIntegerType elementType
  | _ => false

/-- Modelled from the spec: `Type::isUnsignedIntegerType`: the builtin kinds from `Bool`
to `ULongLong`, an enumeration whose integer type is unsigned and a vector of unsigned
elements. -/
def isUnsignedIntegerType : QualType → Bool
  | .builtin k _ _ => kindValue .Bool ≤ kindValue k ∧ kindValue k ≤ kindValue .ULongLong
  | .enumTy t => isUnsignedIntegerType t
  | .vector elementType _ _ => isUnsignedIntegerType elementType
  | _ => false

/-- Modelled from the spec: an attribute word (`llvm::Attributes`, an `unsigned` of which
every attribute is one bit and the alignment a bit field), as the flags
`ConstructAttributeList` sets and the value of the alignment field. -/
structure Attributes where
  ZExt : Bool
  SExt : Bool
  NoReturn : Bool
  NoUnwind : Bool
  StructRet : Bool
  NoAlias : Bool
  ByVal : Bool
  ReadNone : Bool
  ReadOnly : Bool
  Alignment : Nat
  deriving DecidableEq, Repr

/-- The attribute word `0` (`llvm::Attribute::None`). -/
def Attributes.None : Attributes :=
  { ZExt := false, SExt := false, NoReturn := false, NoUnwind := false, StructRet := false,
    NoAlias := false, ByVal := false, ReadNone := false, ReadOnly := false, Alignment := 0 }

/-- The test `if (Attributes)`: the attribute word is not zero. -/
def Attributes.isNonZero (A : Attributes) : Bool :=
  decide (A ≠ Attributes.None)

/-- Modelled from the spec: `llvm::Attribute::constructAlignmentFromInt`, the content of
the alignment field for an alignment `i`; it is zero exactly when `i` is zero. The field
is kept as the alignment itself instead of its encoding `log2(i) + 1`. -/
def constructAlignmentFromInt (i : Nat) : Nat := i

/-- Modelled from the spec: `llvm::AttributeWithIndex`: an attribute word and the index
of what it applies to: `0` for the return value, `1`, `2`, ... for the physical
parameters and `~0` for the function. -/
structure AttributeWithIndex where
  Index : Nat
  Attrs : Attributes
  deriving DecidableEq, Repr

/-- The index `~0` (an `unsigned`) of the function-level attributes. -/
def functionIndex : Nat := 4294967295

/-- Modelled from the spec: what `ConstructAttributeList` reads of the declaration
`TargetDecl`: the presence of the attributes `NoThrowAttr`, `NoReturnAttr`, `PureAttr` and
`ConstAttr`. -/
structure Decl where
  hasNoThrowAttr : Bool
  hasNoReturnAttr : Bool
  hasPureAttr : Bool
  hasConstAttr : Bool
  deriving DecidableEq, Repr

/-- The statement `if (Ty->isPromotableIntegerType()) ...` of the two `Direct` cases of
`ConstructAttributeList`, on the attribute word `Attrs`. -/
def setExtensionAttribute (Ty : QualType) (Attrs : Attributes) : Attributes :=
  if isPromotableIntegerType Ty then
    if isSignedIntegerType Ty then
      { Attrs with SExt := true }
    else if isUnsignedIntegerType Ty then
      { Attrs with ZExt := true }
    else
      Attrs
  else
    Attrs

/-- The statement `FuncAttrs &= ~(ReadOnly | ReadNone)` of `ConstructAttributeList`. -/
def clearReadAttributes (FuncAttrs : Attributes) : Attributes :=
  { FuncAttrs with ReadOnly := false, ReadNone := false }

/-- The end of an iteration of the argument loop of `ConstructAttributeList`:
`if (Attributes) PAL.push_back(AttributeWithIndex::get(Index, Attributes)); ++Index;`. -/
def pushAttributes (Index : Nat) (Attrs : Attributes) (PAL : List AttributeWithIndex) :
    Nat × List AttributeWithIndex :=
  (Index + 1, if Attrs.isNonZero then PAL ++ [{ Index := Index, Attrs := Attrs }] else PAL)

/-- One iteration of the argument loop of `ConstructAttributeList`, on the argument `it`
with the current values of `Index`, `FuncAttrs` and `PAL`; it returns their new values.
The counter `Index` is kept as a natural number. -/
def ConstructAttributeListArg (it : ArgInfo) (Index : Nat) (FuncAttrs : Attributes)
    (PAL : List AttributeWithIndex) :
    Except AssertFail (Nat × Attributes × List AttributeWithIndex) :=
  let ParamType := it.type
  let Attrs := Attributes.None
  match it.info with
  | .Coerce _ =>
    let r := pushAttributes Index Attrs PAL
    pure (r.1, FuncAttrs, r.2)
  | .Indirect align =>
    let Attrs := { Attrs with ByVal := true }
    let Attrs := { Attrs with Alignment := constructAlignmentFromInt align }
    let FuncAttrs := clearReadAttributes FuncAttrs
    let r := pushAttributes Index Attrs PAL
    pure (r.1, FuncAttrs, r.2)
  | .Direct =>
    let Attrs := setExtensionAttribute ParamType Attrs
    let r := pushAttributes Index Attrs PAL
    pure (r.1, FuncAttrs, r.2)
  | .Ignore => pure (Index, FuncAttrs, PAL)
  | .Expand => do
    let Tys ← GetExpandedTypes ParamType []
    pure (Index + Tys.length, FuncAttrs, PAL)

/-- The argument loop of `ConstructAttributeList`, from the argument at the head of the
list on. -/
def ConstructAttributeListArgs : List ArgInfo → Nat → Attributes → List AttributeWithIndex →
    Except AssertFail (Nat × Attributes × List AttributeWithIndex)
  | [], Index, FuncAttrs, PAL => pure (Index, FuncAttrs, PAL)
  | it :: rest, Index, FuncAttrs, PAL => do
    let r ← ConstructAttributeListArg it Index FuncAttrs PAL
    ConstructAttributeListArgs rest r.1 r.2.1 r.2.2

/-- The first part of `ConstructAttributeList`: the function attributes of the
declaration, `FuncAttrs` before the return disposition is looked at. A null `TargetDecl`
is `none`. -/
def declarationAttributes (TargetDecl : Option Decl) : Attributes :=
  match TargetDecl with
  | none => Attributes.None
  | some D =>
    let FuncAttrs := Attributes.None
    let FuncAttrs := if D.hasNoThrowAttr then { FuncAttrs with NoUnwind := true } else FuncAttrs
    let FuncAttrs := if D.hasNoReturnAttr then { FuncAttrs with NoReturn := true } else FuncAttrs
    let FuncAttrs := if D.hasPureAttr then { FuncAttrs with ReadOnly := true } else FuncAttrs
    let FuncAttrs := if D.hasConstAttr then { FuncAttrs with ReadNone := true } else FuncAttrs
    FuncAttrs

/-- `CodeGenModule::ConstructAttributeList`: the list `PAL` after the call. -/
def ConstructAttributeList (FI : CGFunctionInfo) (TargetDecl : Option Decl)
    (PAL : List AttributeWithIndex) : Except AssertFail (List AttributeWithIndex) := do
  let FuncAttrs := declarationAttributes TargetDecl
  let RetAttrs := Attributes.None
  let RetTy := FI.ret.type
  let Index := 1
  let afterRet : Attributes × Nat × Attributes × List AttributeWithIndex ←
    match FI.ret.info with
    | .Direct => pure (setExtensionAttribute RetTy RetAttrs, Index, FuncAttrs, PAL)
    | .Indirect _ =>
      pure (RetAttrs, Index + 1, clearReadAttributes FuncAttrs,
        PAL ++ [{ Index := Index,
                  Attrs := { Attributes.None with StructRet := true, NoAlias := true } }])
    | .Ignore => pure (RetAttrs, Index, FuncAttrs, PAL)
    | .Coerce _ => pure (RetAttrs, Index, FuncAttrs, PAL)
    | .Expand => .error .invalidReturnKind
  let RetAttrs := afterRet.1
  let PAL := afterRet.2.2.2
  let PAL := if RetAttrs.isNonZero then PAL ++ [{ Index := 0, Attrs := RetAttrs }] else PAL
  let r ← ConstructAttributeListArgs FI.args afterRet.2.1 afterRet.2.2.1 PAL
  let FuncAttrs := r.2.1
  let PAL := r.2.2
  pure (if FuncAttrs.isNonZero then PAL ++ [{ Index := functionIndex, Attrs := FuncAttrs }]
    else PAL)

/-! ## The registry of signatures -/

/-- Modelled from the spec: `CGFunctionInfo::Profile` (CGCall.h): the identifier of a
signature in the folding set is the sequence of its return type and its argument
types. -/
def CGFunctionInfo.Profile (ResTy : QualType) (ArgTys : List QualType) : List QualType :=
  ResTy :: ArgTys

/-- Modelled from the spec: the identifier the folding set computes for a stored entry. -/
def CGFunctionInfo.getProfile (FI : CGFunctionInfo) : List QualType :=
  CGFunctionInfo.Profile FI.ret.type (FI.args.map fun it => it.type)

/-- Modelled from the spec: `llvm::FoldingSet::FindNodeOrInsertPos` on the member
`FunctionInfos`: the stored entry whose identifier is `ID`, if there is one. The entries
are listed in the order of their insertion and an entry is referred to by its position,
which stands for its address. -/
def FindNodeOrInsertPos : List CGFunctionInfo → List QualType → Option Nat
  | [], _ => none
  | FI :: rest, ID =>
    if FI.getProfile = ID then some 0
    else (FindNodeOrInsertPos rest ID).map fun i => i + 1

/-- `CodeGenTypes::getFunctionInfo(ResTy, ArgTys)` with the ABI `TheABIInfo`, on the
registry `FunctionInfos`: the registry after the call and the entry returned. -/
def getFunctionInfo (TheABIInfo : ABIInfo) (FunctionInfos : List CGFunctionInfo)
    (ResTy : QualType) (ArgTys : List QualType) :
    Except AssertFail (List CGFunctionInfo × Nat) :=
  let ID := CGFunctionInfo.Profile ResTy ArgTys
  match FindNodeOrInsertPos FunctionInfos ID with
  | some FI => pure (FunctionInfos, FI)
  | none => do
    let FI := CGFunctionInfo.create ResTy ArgTys
    let FI ← TheABIInfo.computeInfo FI
    pure (FunctionInfos ++ [FI], FunctionInfos.length)

/-! ## The function epilogue -/

/-- `CodeGenFunction::EmitFunctionEpilog`, as the value given to the return instruction
(`none` for `ret void`) when the slot `ReturnValue` holds the bytes `V` of the logical
return value; a null `ReturnValue` is `none`. `paddedSize` is
`TargetData::getTypePaddedSize`. The copy through the hidden pointer of an `Indirect`
return is left out. -/
def EmitFunctionEpilog (paddedSize : LLVMType → Nat) (FI : CGFunctionInfo)
    (ReturnValue : Option (List Byte)) : Except AssertFail (Option (List Byte)) :=
  match ReturnValue with
  | none => pure none
  | some V =>
    match FI.ret.info with
    | .Indirect _ => pure none
    | .Direct => pure (some V)
    | .Ignore => pure none
    | .Coerce CoerceToType => do
      let RV ← CreateCoercedLoad V (paddedSize CoerceToType)
      pure (some RV)
    | .Expand => .error .invalidReturnKind

/-! ## The variadic readers

`EmitVAArg` emits the code that reads the next variadic argument. The embedding is the
effect of the emitted code on the `va_list` it is run on; an assertion of the emitter
that does not hold aborts the compilation, whatever the `va_list`. -/

/-- Modelled from the spec: `llvm::RoundUpToAlignment` (Support/MathExtras.h), on
`uint64_t`. -/
def RoundUpToAlignment (Value Align : Nat) : Nat :=
  u64 (u64 (u64 (Value + Align) + 18446744073709551615) / Align * Align)

/-- The value of a 64-bit word that holds the sign extension of the 32-bit word `n`. -/
def sext32 (n : Nat) : Nat :=
  if n % 4294967296 < 2147483648 then n % 4294967296
  else n % 4294967296 + 18446744069414584320

/-- Modelled from the spec: the address an emitted `getelementptr` computes from a
64-bit `i8*` and a 32-bit index: the index is sign-extended and the sum taken modulo
`2^64`. -/
def gep64 (Ptr Index : Nat) : Nat :=
  u64 (Ptr + sext32 Index)

/-- The code `X86_32ABIInfo::EmitVAArg` emits, run on a `va_list` whose cursor is
`ap_cur`, a 32-bit pointer: the address the value is read at and the new cursor. The
offset is made a 32-bit constant. -/
def X86_32ABIInfo.EmitVAArg (Ty : QualType) (ap_cur : Nat) : Nat × Nat :=
  let Addr := ap_cur
  let Offset := RoundUpToAlignment (getTypeSize Ty / 8) 4
  let NextAddr := (Addr + Offset % 4294967296) % 4294967296
  (Addr, NextAddr)

/-- The code `ARMABIInfo::EmitVAArg` emits, run on a `va_list` whose cursor is `ap_cur`,
a 32-bit pointer: the address the value is read at and the new cursor. -/
def ARMABIInfo.EmitVAArg (Ty : QualType) (ap_cur : Nat) : Nat × Nat :=
  let Addr := ap_cur
  let Offset := RoundUpToAlignment (getTypeSize Ty / 8) 4
  let NextAddr := (Addr + Offset % 4294967296) % 4294967296
  (Addr, NextAddr)

/-- The x86-64 `va_list` record: two 32-bit offsets and two 64-bit pointers. -/
structure VAList where
  gp_offset : Nat
  fp_offset : Nat
  overflow_arg_area : Nat
  reg_save_area : Nat
  deriving DecidableEq, Repr

/-- Where the code emitted by `X86_64ABIInfo::EmitVAArg` finds the value: at an address
of the overflow area (the memory path), at an address of the register save area, or in a
temporary assembled from two addresses of the register save area. -/
inductive VAArgAddr
  | overflowArea (addr : Nat)
  | regSaveArea (addr : Nat)
  | temporary (loAddr hiAddr : Nat)
  deriving DecidableEq, Repr

/-- The value was found through the register save area. -/
def VAArgAddr.inRegisters : VAArgAddr → Bool
  | .overflowArea _ => false
  | _ => true

/-- The code `EmitVAArgFromMemory` emits, run on the `va_list` `VA`. -/
def EmitVAArgFromMemory (Ty : QualType) (VA : VAList) : VAArgAddr × VAList :=
  let overflow_arg_area := VA.overflow_arg_area
  let Align := getTypeAlign Ty / 8
  let overflow_arg_area :=
    if Align > 8 then
      let AsInt := gep64 overflow_arg_area 15
      AsInt - AsInt % 16
    else overflow_arg_area
  let Res := overflow_arg_area
  let SizeInBytes := u64 (getTypeSize Ty + 7) / 8
  let Offset := (u64 (SizeInBytes + 7) - u64 (SizeInBytes + 7) % 8) % 4294967296
  let overflow_arg_area := gep64 overflow_arg_area Offset
  (.overflowArea Res, { VA with overflow_arg_area := overflow_arg_area })

/-- Modelled from the spec: `llvm::Type::isFloatingPoint`. -/
def isFloatingPoint : LLVMType → Bool
  | .FloatTy => true
  | .DoubleTy => true
  | .X86_FP80Ty => true
  | _ => false

namespace X86_64ABIInfo

/-- The part of `X86_64ABIInfo::EmitVAArg` that emits the block `vaarg.in_reg` up to the
address of the value, with its assertions. -/
def EmitVAArgInReg (AI : ABIArgInfo) (neededInt neededSSE : Nat) (VA : VAList) :
    Except AssertFail VAArgAddr :=
  let RegAddr := VA.reg_save_area
  if neededInt ≠ 0 ∧ neededSSE ≠ 0 then
    match AI with
    | .Coerce (.StructTy elements _) =>
      match elements with
      | [TyLo, TyHi] => do
        assertThat (xor (isFloatingPoint TyLo) (isFloatingPoint TyHi)) .unexpectedMixedRegs
        let GPAddr := gep64 RegAddr VA.gp_offset
        let FPAddr := gep64 RegAddr VA.fp_offset
        let RegLoAddr := if isFloatingPoint TyLo then FPAddr else GPAddr
        let RegHiAddr := if isFloatingPoint TyLo then GPAddr else FPAddr
        pure (.temporary RegLoAddr RegHiAddr)
      | _ => .error .unexpectedMixedRegs
    | _ => .error .unexpectedMixedRegs
  else if neededInt ≠ 0 then
    pure (.regSaveArea (gep64 RegAddr VA.gp_offset))
  else if neededSSE = 1 then
    pure (.regSaveArea (gep64 RegAddr VA.fp_offset))
  else do
    assertThat (neededSSE = 2) .invalidNeededRegisters
    let RegAddrLo := gep64 RegAddr VA.fp_offset
    let RegAddrHi := gep64 RegAddrLo 16
    pure (.temporary RegAddrLo RegAddrHi)

/-- The code `X86_64ABIInfo::EmitVAArg` emits, run on the `va_list` `VA`: where the value
is found and the `va_list` afterwards. The constants `48 - neededInt * 8` and
`176 - neededSSE * 16` are computed on `unsigned`, the offsets compared and added as
32-bit words. -/
def EmitVAArg (Ty : QualType) (VA : VAList) : Except AssertFail (VAArgAddr × VAList) := do
  let r ← classifyArgumentType Ty
  let AI := r.1
  let neededInt := r.2.1
  let neededSSE := r.2.2
  if neededInt = 0 ∧ neededSSE = 0 then
    pure (EmitVAArgFromMemory Ty VA)
  else
    let fits_in_gp : Bool :=
      VA.gp_offset ≤ (4294967296 + 48 - neededInt * 8 % 4294967296) % 4294967296
    let fits_in_fp : Bool :=
      VA.fp_offset ≤ (4294967296 + 176 - neededSSE * 16 % 4294967296) % 4294967296
    let InRegs : Bool :=
      if neededInt ≠ 0 then
        if neededSSE ≠ 0 then fits_in_gp && fits_in_fp else fits_in_gp
      else fits_in_fp
    let RegAddr ← EmitVAArgInReg AI neededInt neededSSE VA
    if InRegs then
      let gp_offset :=
        if neededInt ≠ 0 then (VA.gp_offset + neededInt * 8 % 4294967296) % 4294967296
        else VA.gp_offset
      let fp_offset :=
        if neededSSE ≠ 0 then (VA.fp_offset + neededSSE * 16 % 4294967296) % 4294967296
        else VA.fp_offset
      pure (RegAddr, { VA with gp_offset := gp_offset, fp_offset := fp_offset })
    else
      pure (EmitVAArgFromMemory Ty VA)

end X86_64ABIInfo

/-! ## The call and the function prologue -/

/-- `CodeGenModule::ReturnTypeUsesSret`. -/
def ReturnTypeUsesSret (FI : CGFunctionInfo) : Bool :=
  match FI.ret.info with
  | .Indirect _ => true
  | _ => false

/-- Modelled from the spec: the kinds of `RValue` (CGValue.h). -/
inductive RValueKind
  | Scalar
  | Complex
  | Aggregate
  deriving DecidableEq, Repr

/-- Modelled from the spec: an element of a `CallArgList`: the value of the argument, of
which the kind is kept, and its type. -/
structure CallArg where
  RV : RValueKind
  type : QualType

mutual
/-- `CodeGenFunction::ExpandTypeToArgs`: append to `Args` the leaf values of the
aggregate, each kept as its physical type. The load of a leaf field returns a scalar
(`EmitLoadOfLValue` on a type that is no aggregate). -/
def ExpandTypeToArgs : QualType → RValueKind → List LLVMType →
    Except AssertFail (List LLVMType)
  | .record isUnion _ fields _ _, RV, Args => do
    assertThat (!isUnion) .canOnlyExpandStructureTypes
    assertThat (RV = .Aggregate) .unexpectedRValueExpansion
    ExpandTypeToArgsFields fields Args
  | _, _, _ => .error .canOnlyExpandStructureTypes
/-- The loop of `ExpandTypeToArgs` over the fields, from the field at the head on. -/
def ExpandTypeToArgsFields : FieldList → List LLVMType → Except AssertFail (List LLVMType)
  | .nil, Args => pure Args
  | .cons FT _ _ rest, Args =>
    if hasAggregateLLVMType FT then do
      let Args ← ExpandTypeToArgs FT .Aggregate Args
      ExpandTypeToArgsFields rest Args
    else
      ExpandTypeToArgsFields rest (Args ++ [.ConvertedTy FT])
end

mutual
/-- `CodeGenFunction::ExpandTypeFromArgs`: the iterator `AI`, kept as the position of
the physical parameter it points to, after one parameter was consumed per leaf field. The
lvalue of the aggregate is simple at every call. -/
def ExpandTypeFromArgs : QualType → Nat → Except AssertFail Nat
  | .record isUnion _ fields _ _, AI => do
    assertThat (!isUnion) .canOnlyExpandStructureTypes
    ExpandTypeFromArgsFields fields AI
  | _, _ => .error .canOnlyExpandStructureTypes
/-- The loop of `ExpandTypeFromArgs` over the fields, from the field at the head on. -/
def ExpandTypeFromArgsFields : FieldList → Nat → Except AssertFail Nat
  | .nil, AI => pure AI
  | .cons FT _ _ rest, AI =>
    if hasAggregateLLVMType FT then do
      let AI ← ExpandTypeFromArgs FT AI
      ExpandTypeFromArgsFields rest AI
    else
      ExpandTypeFromArgsFields rest (AI + 1)
end

/-- The argument loop of `CodeGenFunction::EmitCall`, from the call argument at the head
of the list on, `info_it` advancing with it; `Args` holds the physical type of every value
pushed so far. `paddedSize` is `TargetData::getTypePaddedSize`; of the coerced load only
the sizes are followed. -/
def EmitCallArgs (paddedSize : LLVMType → Nat) :
    List ArgInfo → List CallArg → List LLVMType → Except AssertFail (List LLVMType)
  | _, [], Args => pure Args
  | [], _ :: _, _ => .error .signatureArgumentsMismatch
  | info_it :: infos, I :: rest, Args =>
    match info_it.info with
    | .Indirect _ =>
      EmitCallArgs paddedSize infos rest (Args ++ [.PointerTy (.ConvertedForMemTy I.type)])
    | .Direct =>
      if I.RV = .Scalar ∨ I.RV = .Complex then
        EmitCallArgs paddedSize infos rest (Args ++ [.ConvertedTy I.type])
      else
        EmitCallArgs paddedSize infos rest (Args ++ [.ConvertedForMemTy I.type])
    | .Ignore => EmitCallArgs paddedSize infos rest Args
    | .Coerce CoerceToType => do
      let _ ← CreateCoercedLoad
        (List.replicate (paddedSize (.ConvertedForMemTy I.type)) none)
        (paddedSize CoerceToType)
      EmitCallArgs paddedSize infos rest (Args ++ [CoerceToType])
    | .Expand => do
      let Args ← ExpandTypeToArgs I.type I.RV Args
      EmitCallArgs paddedSize infos rest Args

/-- `CodeGenFunction::EmitCall`, as the physical types of the arguments of the call
instruction it emits. `CalleeDoesNotReturn` is the no-return attribute of the callee; the
`RValue` returned is left out, the assertions on the way to it are kept. -/
def EmitCall (paddedSize : LLVMType → Nat) (CallInfo : CGFunctionInfo)
    (CalleeDoesNotReturn : Bool) (CallArgs : List CallArg) (TargetDecl : Option Decl) :
    Except AssertFail (List LLVMType) := do
  let RetTy := CallInfo.ret.type
  let Args : List LLVMType :=
    if ReturnTypeUsesSret CallInfo then [.PointerTy (.ConvertedForMemTy RetTy)] else []
  assertThat (CallInfo.args.length = CallArgs.length) .signatureArgumentsMismatch
  let Args ← EmitCallArgs paddedSize CallInfo.args CallArgs Args
  let AttributeList ← ConstructAttributeList CallInfo TargetDecl []
  let doesNotReturn : Bool :=
    CalleeDoesNotReturn ||
      AttributeList.any fun e => e.Index = functionIndex && e.Attrs.NoReturn
  if doesNotReturn then
    pure Args
  else
    match CallInfo.ret.info with
    | .Indirect _ => pure Args
    | .Direct => pure Args
    | .Ignore => pure Args
    | .Coerce CoerceToType => do
      let _ ← CreateCoercedStore (List.replicate (paddedSize CoerceToType) none)
        (paddedSize (.ConvertedForMemTy RetTy))
      pure Args
    | .Expand => .error .invalidReturnKind

/-- The argument loop of `CodeGenFunction::EmitFunctionProlog` on a function whose
parameters have the types `Fn`, from the argument at the head of the list on. The
iterator `AI` is kept as a position in `Fn` and `used` lists the positions the arguments
were bound to so far, in the order of their use. An iterator at or past the end where a
parameter is needed is the mismatch. -/
def EmitFunctionPrologArgs (paddedSize : LLVMType → Nat) (Fn : List LLVMType) :
    List ArgInfo → Nat → List Nat → Except AssertFail (Nat × List Nat)
  | [], AI, used => pure (AI, used)
  | info_it :: rest, AI, used =>
    let Ty := info_it.type
    match info_it.info with
    | .Indirect _ => EmitFunctionPrologArgs paddedSize Fn rest (AI + 1) (used ++ [AI])
    | .Direct =>
      match Fn[AI]? with
      | none => .error .argumentMismatch
      | some _ => EmitFunctionPrologArgs paddedSize Fn rest (AI + 1) (used ++ [AI])
    | .Expand => do
      let End ← ExpandTypeFromArgs Ty AI
      EmitFunctionPrologArgs paddedSize Fn rest End (used ++ List.range' AI (End - AI))
    | .Ignore => EmitFunctionPrologArgs paddedSize Fn rest AI used
    | .Coerce _ =>
      match Fn[AI]? with
      | none => .error .argumentMismatch
      | some SrcTy => do
        let _ ← CreateCoercedStore (List.replicate (paddedSize SrcTy) none)
          (paddedSize (.ConvertedForMemTy Ty))
        EmitFunctionPrologArgs paddedSize Fn rest (AI + 1) (used ++ [AI])

/-- `CodeGenFunction::EmitFunctionProlog` on a function whose parameters have the types
`Fn`, for the declared parameters `Args`: the positions of the physical parameters in the
order in which the prologue used them. -/
def EmitFunctionProlog (paddedSize : LLVMType → Nat) (FI : CGFunctionInfo)
    (Fn : List LLVMType) (Args : List QualType) : Except AssertFail (List Nat) := do
  let start : Nat × List Nat := if ReturnTypeUsesSret FI then (1, [0]) else (0, [])
  assertThat (FI.args.length = Args.length) .signatureArgumentsMismatch
  let r ← EmitFunctionPrologArgs paddedSize Fn FI.args start.1 start.2
  assertThat (r.1 = Fn.length) .argumentMismatch
  pure r.2

/-! ## Types used as concrete inputs -/

namespace Example

/-- The type `void`. -/
def VoidTy : QualType := .builtin .Void 0 8

/-- The type `int` (32 bits). -/
def IntTy : QualType := .builtin .Int 32 32

/-- The type `float`. -/
def FloatTy : QualType := .builtin .Float 32 32

/-- The type `long double` (80 bits stored in 128). -/
def LongDoubleTy : QualType := .builtin .LongDouble 128 128

/-- The type `struct { float a, b; }`: 64 bits, the floats at bit offsets 0 and 32. -/
def StructFloatFloat : QualType :=
  .record false false (.cons FloatTy 0 none (.cons FloatTy 32 none .nil)) 64 32

/-- The type `struct { int a, b, c, d, e; }`: 160 bits (20 bytes). -/
def StructFiveInt : QualType :=
  .record false false
    (.cons IntTy 0 none (.cons IntTy 32 none (.cons IntTy 64 none
      (.cons IntTy 96 none (.cons IntTy 128 none .nil))))) 160 32

/-- The type `union { long double ld; int i; }`: 128 bits, both members at offset 0. -/
def UnionLongDoubleInt : QualType :=
  .record true false (.cons LongDoubleTy 0 none (.cons IntTy 0 none .nil)) 128 128

/-- The vector type `float __attribute__((vector_size(16)))`: 128 bits. -/
def Float4Ty : QualType := .vector FloatTy 128 128

/-- The vector type `float __attribute__((vector_size(32)))`: 256 bits, aligned to 256. -/
def Float8Ty : QualType := .vector FloatTy 256 256

/-- The type `struct __attribute__((packed)) { float4 v; float8 w[0]; }`: 128 bits; the
packed layout places the zero-length array `w`, whose type is aligned to 256 bits, at bit
offset 128. -/
def PackedVectorRecord : QualType :=
  .record false false
    (.cons Float4Ty 0 none (.cons (.constantArray Float8Ty 0 0 256) 128 none .nil)) 128 8

/-- The type `_Complex long double`: two 128-bit parts. -/
def ComplexLongDoubleTy : QualType := .complex LongDoubleTy 256 128

/-- The type `long` (64 bits). -/
def LongTy : QualType := .builtin .Long 64 64

/-- The type `double`. -/
def DoubleTy : QualType := .builtin .Double 64 64

/-- The type `struct { long a; double b; }`: 128 bits. -/
def StructLongDouble : QualType :=
  .record false false (.cons LongTy 0 none (.cons DoubleTy 64 none .nil)) 128 64

/-- The type `struct { long a, b, c; }`: 192 bits. -/
def StructThreeLong : QualType :=
  .record false false
    (.cons LongTy 0 none (.cons LongTy 64 none (.cons LongTy 128 none .nil))) 192 64

/-- The type `struct { int n; int data[]; }`: 32 bits, with a flexible array member. -/
def StructFlexible : QualType :=
  .record false true (.cons IntTy 0 none (.cons (.other 0 32) 32 none .nil)) 32 32

/-- The type `char`. -/
def CharTy : QualType := .builtin .Char_S 8 8

/-- The type `short`. -/
def ShortTy : QualType := .builtin .Short 16 16

/-- The type `struct { char c; }`. -/
def StructChar : QualType := .record false false (.cons CharTy 0 none .nil) 8 8

/-- The type `struct { double a, b; }`: 128 bits. -/
def StructDoubleDouble : QualType :=
  .record false false (.cons DoubleTy 0 none (.cons DoubleTy 64 none .nil)) 128 64

/-- The type `struct { float f; int i; long p; }`: 128 bits, `f` and `i` in the low
eightbyte, `p` in the high one. -/
def StructFloatIntLong : QualType :=
  .record false false
    (.cons FloatTy 0 none (.cons IntTy 32 none (.cons LongTy 64 none .nil))) 128 64

/-- The type `union { long double ld; double d; }`: 128 bits. -/
def UnionLongDoubleDouble : QualType :=
  .record true false (.cons LongDoubleTy 0 none (.cons DoubleTy 0 none .nil)) 128 128

/-- The type `union { double d; long double ld; }`: the members of
`UnionLongDoubleDouble` in the other order. -/
def UnionDoubleLongDouble : QualType :=
  .record true false (.cons DoubleTy 0 none (.cons LongDoubleTy 0 none .nil)) 128 128

/-- The type `union { long double ld; struct { double a, b; } s; }`: 128 bits. -/
def UnionLongDoubleStruct : QualType :=
  .record true false
    (.cons LongDoubleTy 0 none (.cons StructDoubleDouble 0 none .nil)) 128 128

/-- The type `struct { long a; } __attribute__((aligned(16)))`: 128 bits, of which the
member fills the first 64. -/
def OverAlignedLong : QualType := .record false false (.cons LongTy 0 none .nil) 128 128

/-- The type `struct { char c; } __attribute__((aligned(4)))`: 32 bits, of which the
member fills the first 8. -/
def OverAlignedChar : QualType := .record false false (.cons CharTy 0 none .nil) 32 32

/-- The type `struct { int x; }`. -/
def StructInt : QualType := .record false false (.cons IntTy 0 none .nil) 32 32

/-- The type `struct { double d; }` of a 32-bit x86 target (alignment 32). -/
def StructDouble : QualType :=
  .record false false (.cons (.builtin .Double 64 32) 0 none .nil) 64 32

/-- The type `struct { char *p; }` of a 32-bit target. -/
def StructPointer : QualType := .record false false (.cons (.pointer 32 32) 0 none .nil) 32 32

/-- The type `struct { short a, b; }`. -/
def StructShortShort : QualType :=
  .record false false (.cons ShortTy 0 none (.cons ShortTy 16 none .nil)) 32 16

/-- The type `struct { char c[3]; }`: 24 bits. -/
def StructCharArray : QualType :=
  .record false false (.cons (.constantArray CharTy 3 24 8) 0 none .nil) 24 8

/-- The type `_Complex float`: 64 bits. -/
def ComplexFloatTy : QualType := .complex FloatTy 64 32

/-- The structure `struct { }` (a GNU extension of C): no member, size 0. -/
def EmptyStruct : QualType := .record false false .nil 0 8

/-- The union `union { }` (a GNU extension of C): no member, size 0. -/
def EmptyUnion : QualType := .record true false .nil 0 8

/-- The structure `struct { int a; int b; int c; int d; }`: four 32-bit fields. -/
def StructFourInt : QualType :=
  .record false false
    (.cons IntTy 0 none (.cons IntTy 32 none (.cons IntTy 64 none (.cons IntTy 96 none .nil))))
    128 32

/-- The structure `struct { int a; struct { } e; float b; }` of a 32-bit target. -/
def StructIntEmptyFloat : QualType :=
  .record false false
    (.cons IntTy 0 none (.cons EmptyStruct 32 none (.cons FloatTy 32 none .nil))) 64 32

/-- The structure `struct { char c[5]; }`: 40 bits, aligned on 8 bits. -/
def StructFiveChar : QualType :=
  .record false false (.cons (.constantArray CharTy 5 40 8) 0 none .nil) 40 8

/-- The type `unsigned char`. -/
def UnsignedCharTy : QualType := .builtin .UChar 8 8

/-- The signature `void f(struct { int a, b, c, d, e; })` as `X86_32ABIInfo::computeInfo`
fills it in: the argument is passed indirectly. -/
def IndirectArgumentSignature : CGFunctionInfo :=
  { ret := { type := VoidTy, info := .Ignore },
    args := [{ type := StructFiveInt, info := .Indirect 0 }] }

/-- The signature `short f(struct { }, struct { int a, b, c, d; }, unsigned char,
struct { int a, b, c, d, e; })` as `X86_32ABIInfo::computeInfo` fills it in. -/
def MixedSignature : CGFunctionInfo :=
  { ret := { type := ShortTy, info := .Direct },
    args := [{ type := EmptyStruct, info := .Ignore },
             { type := StructFourInt, info := .Expand },
             { type := UnsignedCharTy, info := .Direct },
             { type := StructFiveInt, info := .Indirect 0 }] }

/-- The structure `struct { long a; int : 0; long b; }`: the zero-width bit-field is at
bit offset 64. -/
def StructLongZeroWidthLong : QualType :=
  .record false false
    (.cons LongTy 0 none (.cons IntTy 64 (some 0) (.cons LongTy 64 none .nil))) 128 64

/-- The structure `struct { int : 0; long a; }`: the zero-width bit-field is at bit
offset 0. -/
def StructZeroWidthLong : QualType :=
  .record false false (.cons IntTy 0 (some 0) (.cons LongTy 0 none .nil)) 64 64

/-- The type `_Complex double`. -/
def ComplexDoubleTy : QualType := .complex DoubleTy 128 64

/-- The type `_Complex int`. -/
def ComplexIntTy : QualType := .complex IntTy 64 32

/-- The type `_Complex long`. -/
def ComplexLongTy : QualType := .complex LongTy 128 64

/-- The signature `void f(struct { long a; } __attribute__((aligned(16))))` as
`X86_64ABIInfo::computeInfo` fills it in: the 16-byte argument is coerced to a 64-bit
integer. -/
def OverAlignedArgumentSignature : CGFunctionInfo :=
  { ret := { type := VoidTy, info := .Ignore },
    args := [{ type := OverAlignedLong, info := .Coerce (.IntegerTy 64) }] }

/-- A storage size in bytes for the physical types of the examples: the size of the
semantic type for a lowered type, the size common to every target for the integer and
floating-point types. -/
def storageSize : LLVMType → Nat
  | .ConvertedTy T => getTypeStorageSize T
  | .ConvertedForMemTy T => getTypeStorageSize T
  | P => (getTypePaddedSize P).getD 0

/-- The type `struct { long double x; }`. -/
def StructLongDoubleOnly : QualType :=
  .record false false (.cons LongDoubleTy 0 none .nil) 128 128

/-- The type of a block pointer, `void (^)(void)`: a type with a pointer representation
that is no pointer type. -/
def BlockPointerTy : QualType := .pointerLike 64 64

/-- The type `struct { char a[2147483648]; }`, of 2 GiB. -/
def StructTwoGiB : QualType :=
  .record false false
    (.cons (.constantArray CharTy 2147483648 17179869184 8) 0 none .nil) 17179869184 8

/-- A declaration that carries the attribute `pure` only. -/
def PureDecl : Decl :=
  { hasNoThrowAttr := false, hasNoReturnAttr := false, hasPureAttr := true,
    hasConstAttr := false }

end Example

/-! ## Vocabulary of the stated properties

The definitions of this section are not translations of the code: they spell out the
words in which the properties of the classifier are stated, and the theorems compare the
code with them. -/

namespace X86_64ABIInfo

/-- The three invariants of an eightbyte pair that `classifyReturnType` and
`classifyArgumentType` assert. -/
def Invariants (Lo Hi : Class) : Prop :=
  (Hi = .Memory → Lo = .Memory) ∧ (Lo = .NoClass → Hi = .NoClass) ∧
    (Hi = .SSEUp → Lo = .SSE)

/-- The number of eightbytes of the pair classified `Integer`. -/
def integerEightbytes (Lo Hi : Class) : Nat :=
  (if Lo = .Integer then 1 else 0) + (if Hi = .Integer then 1 else 0)

/-- The number of eightbytes of the pair classified `SSE` (`SSEUp` counting zero). -/
def sseEightbytes (Lo Hi : Class) : Nat :=
  (if Lo = .SSE then 1 else 0) + (if Hi = .SSE then 1 else 0)

/-- The number of eightbytes of the pair that take an SSE register: those classified `SSE`,
and a high eightbyte classified `X87Up`. -/
def sseOrX87UpEightbytes (Lo Hi : Class) : Nat :=
  (if Lo = .SSE then 1 else 0) + (if Hi = .SSE ∨ Hi = .X87Up then 1 else 0)

/-- The register slots of one eightbyte: a 64-bit integer for `Integer`, a double for `SSE`
and for `X87Up`, nothing for the other classes. -/
def eightbyteSlots : Class → List LLVMType
  | .Integer => [.IntegerTy 64]
  | .SSE => [.DoubleTy]
  | .X87Up => [.DoubleTy]
  | _ => []

/-- The physical type of a register-class pair: the single 128-bit vector for
`(SSE, SSEUp)`, otherwise the slots of the two eightbytes, one slot standing for itself
and two slots forming a two-word aggregate. -/
def registerPhysicalType (Lo Hi : Class) : LLVMType :=
  if Lo = .SSE ∧ Hi = .SSEUp then .VectorTy .DoubleTy 2
  else match eightbyteSlots Lo ++ eightbyteSlots Hi with
    | [P] => P
    | Ps => .StructTy Ps false

/-- The condition of the Direct simplification: the slot is a single 64-bit integer and the
type is integral or a pointer, or the slot is a single double and the type is `float` or
`double`. -/
def directlyPassed (T : QualType) (P : LLVMType) : Bool :=
  match P with
  | .IntegerTy 64 => isIntegralType T || isPointerType T
  | .DoubleTy => isSpecificBuiltinType T .Float || isSpecificBuiltinType T .Double
  | _ => false

/-- An integer type (`bool` through `long long`), an enumeration type over such an integer
type, or a pointer type. -/
def isIntegerEnumOrPointer : QualType → Bool
  | .builtin k _ _ => kindValue .Bool ≤ kindValue k ∧ kindValue k ≤ kindValue .LongLong
  | .enumTy (.builtin k _ _) =>
    kindValue .Bool ≤ kindValue k ∧ kindValue k ≤ kindValue .LongLong
  | .pointer _ _ => true
  | _ => false

/-- The type `float` or the type `double`. -/
def isFloatOrDouble (T : QualType) : Bool :=
  isSpecificBuiltinType T .Float || isSpecificBuiltinType T .Double

/-- A constant array or record of more than 128 bits, or a record with a flexible array
member. -/
def isOversizedOrVariable : QualType → Bool
  | .constantArray _ _ Size _ => Size > 128
  | .record _ hasFlexibleArrayMember _ Size _ => Size > 128 ∨ hasFlexibleArrayMember
  | _ => false

/-- The budget test of `computeInfo` as the property states it: the argument fits when
`neededInt <= freeInt` and `neededSSE <= freeSSE`. -/
def fits (neededInt neededSSE freeInt freeSSE : Nat) : Bool :=
  neededInt ≤ freeInt ∧ neededSSE ≤ freeSSE

/-- The ABI priority rules of the merge read symmetrically over the two operands, for
operands that differ and are not `NoClass`: `Memory` if either is `Memory`; otherwise
`Integer` if either is `Integer`; otherwise `Memory` if either is `X87`, `X87Up` or
`ComplexX87`; otherwise `SSE`. -/
def symmetricMerge (a f : Class) : Class :=
  if a = .Memory ∨ f = .Memory then .Memory
  else if a = .Integer ∨ f = .Integer then .Integer
  else if a = .X87 ∨ a = .X87Up ∨ a = .ComplexX87 ∨
      f = .X87 ∨ f = .X87Up ∨ f = .ComplexX87 then .Memory
  else .SSE

/-- The classes of a scalar type: the class of the eightbyte the scalar starts in, and
the class it gives the following eightbyte. An integer, enumeration or pointer type, or
another type with a pointer representation, has `Integer`, `float` and `double` have
`SSE`, and these lie in one eightbyte; `long double` has `X87` followed by `X87Up`. No
other type is a scalar. -/
def scalarClasses : QualType → Option (Class × Class)
  | .builtin k _ _ =>
    if kindValue .Bool ≤ kindValue k ∧ kindValue k ≤ kindValue .LongLong then
      some (.Integer, .NoClass)
    else if k = .Float ∨ k = .Double then some (.SSE, .NoClass)
    else if k = .LongDouble then some (.X87, .X87Up)
    else none
  | .enumTy (.builtin k _ _) =>
    if kindValue .Bool ≤ kindValue k ∧ kindValue k ≤ kindValue .LongLong then
      some (.Integer, .NoClass)
    else none
  | .pointer _ _ => some (.Integer, .NoClass)
  | .pointerLike _ _ => some (.Integer, .NoClass)
  | _ => none

/-- Every member is a non-bit-field scalar that starts inside the first 128 bits at a
multiple of the alignment of its type. -/
def scalarMembers : FieldList → Bool
  | .nil => true
  | .cons type fieldOffset bitWidth rest =>
    bitWidth.isNone && (scalarClasses type).isSome && decide (fieldOffset < 128) &&
      decide (fieldOffset % getTypeAlign type = 0) && scalarMembers rest

/-- The record has a member of type `long double`. -/
def hasLongDoubleMember : FieldList → Bool
  | .nil => false
  | .cons type _ _ rest => isSpecificBuiltinType type .LongDouble || hasLongDoubleMember rest

/-- Every member starts at bit 0, as the members of a union do. -/
def membersAtZero : FieldList → Bool
  | .nil => true
  | .cons _ fieldOffset _ rest => decide (fieldOffset = 0) && membersAtZero rest

/-- The classes, in declaration order, that the scalar members lying in bits 0..63 give
the low eightbyte. -/
def lowClasses : FieldList → List Class
  | .nil => []
  | .cons type fieldOffset _ rest =>
    match scalarClasses type with
    | some c => if fieldOffset < 64 then c.1 :: lowClasses rest else lowClasses rest
    | none => lowClasses rest

/-- The classes, in declaration order, that the scalar members lying in bits 64..127
give the high eightbyte: the class of a member that starts there, and the second class
of a member that starts in the low eightbyte and reaches into the high one. -/
def highClasses : FieldList → List Class
  | .nil => []
  | .cons type fieldOffset _ rest =>
    match scalarClasses type with
    | some c =>
      if fieldOffset < 64 then
        if c.2 = .NoClass then highClasses rest else c.2 :: highClasses rest
      else c.1 :: highClasses rest
    | none => highClasses rest

/-- The merge of a list of classes into an accumulator, from left to right with
`X86_64ABIInfo::merge`; `Memory` is final. -/
def mergeFrom : Class → List Class → Except AssertFail Class
  | Accum, [] => pure Accum
  | Accum, Field :: rest =>
    if Accum = .Memory then pure .Memory
    else do
      let next ← merge Accum Field
      mergeFrom next rest

/-- The class is `NoClass`, `Integer` or `SSE`. -/
def isRegisterOrNoClass (c : Class) : Bool :=
  c = .NoClass ∨ c = .Integer ∨ c = .SSE

/-- The record has a non-bit-field member whose bit offset is not a multiple of the
alignment of the member's type. -/
def hasMisalignedMember : FieldList → Bool
  | .nil => false
  | .cons type fieldOffset bitWidth rest =>
    (bitWidth.isNone && decide (u64 fieldOffset % getTypeAlign type ≠ 0)) ||
      hasMisalignedMember rest

end X86_64ABIInfo

namespace X86_32ABIInfo

/-- The physical type standing for the single field of a structure: an integer of the
field's bit width for a builtin integer type, `float`, `double`, a byte pointer for a
pointer type; nothing for the other types. -/
def elementCoercion : QualType → Option LLVMType
  | .builtin k size _ =>
    if kindValue .Bool ≤ kindValue k ∧ kindValue k ≤ kindValue .LongLong then
      some (.IntegerTy size)
    else if k = .Float then some .FloatTy
    else if k = .Double then some .DoubleTy
    else none
  | .pointer _ _ => some (.PointerTy (.IntegerTy 8))
  | _ => none

/-- The disposition by size: `Coerce` to i8, i16, i32 or i64 for a size of exactly 8, 16,
32 or 64 bits, `Indirect` with alignment 0 for every other size. -/
def sizeCoercion (Size : Nat) : ABIArgInfo :=
  if Size = 8 then .Coerce (.IntegerTy 8)
  else if Size = 16 then .Coerce (.IntegerTy 16)
  else if Size = 32 then .Coerce (.IntegerTy 32)
  else if Size = 64 then .Coerce (.IntegerTy 64)
  else .Indirect 0

end X86_32ABIInfo

/-! ### Vocabulary of the lowering and of the attribute list -/

/-- A field list of which every field is a non-bit-field builtin or pointer type of 32
or 64 bits. -/
def fieldsAre32Or64BitScalars : FieldList → Bool
  | .nil => true
  | .cons FT _ bitWidth rest =>
    bitWidth.isNone && (isBuiltinType FT || isPointerType FT) &&
      (getTypeSize FT = 32 || getTypeSize FT = 64) && fieldsAre32Or64BitScalars rest

/-- A non-union structure without flexible array member, of non-zero size at most 128
bits, every field of which is a non-bit-field builtin or pointer type of 32 or 64 bits. -/
def isExpandableStructure : QualType → Bool
  | .record isUnion hasFlexibleArrayMember fields size _ =>
    !isUnion && !hasFlexibleArrayMember && size ≠ 0 && size ≤ 128 &&
      fieldsAre32Or64BitScalars fields
  | _ => false

/-- The fields of a record type; another type has none. -/
def recordFields : QualType → FieldList
  | .record _ _ fields _ _ => fields
  | _ => .nil

/-- A field list without field of a placeholder builtin kind (`Overload`, `Dependent`):
these kinds are no types of objects, and the only builtin kinds that are aggregates. -/
def noPlaceholderField : FieldList → Bool
  | .nil => true
  | .cons FT _ _ rest =>
    !isSpecificBuiltinType FT .Overload && !isSpecificBuiltinType FT .Dependent &&
      noPlaceholderField rest

mutual
/-- The preconditions `GetExpandedTypes` asserts, at every level: a structure type, no
flexible array member, no bit-field, and every aggregate field again such a structure. -/
def isExpandable : QualType → Bool
  | .record isUnion hasFlexibleArrayMember fields _ _ =>
    !isUnion && !hasFlexibleArrayMember && isExpandableFields fields
  | _ => false
/-- The preconditions `GetExpandedTypes` asserts on the fields of a structure. -/
def isExpandableFields : FieldList → Bool
  | .nil => true
  | .cons FT _ bitWidth rest =>
    bitWidth.isNone && (!hasAggregateLLVMType FT || isExpandable FT) &&
      isExpandableFields rest
end

mutual
/-- The non-aggregate leaf fields of a record in declaration order, as their types; a
nested record contributes its own leaf fields, an empty one nothing. -/
def leafFieldTypes : QualType → List QualType
  | .record _ _ fields _ _ => leafFieldTypesOfFields fields
  | _ => []
/-- The non-aggregate leaf fields of a field list in declaration order. -/
def leafFieldTypesOfFields : FieldList → List QualType
  | .nil => []
  | .cons FT _ _ rest =>
    (if hasAggregateLLVMType FT then leafFieldTypes FT else [FT]) ++ leafFieldTypesOfFields rest
end

/-- The physical parameters of one argument, by its disposition. -/
def parameterSlots (it : ArgInfo) : List LLVMType :=
  match it.info with
  | .Ignore => []
  | .Direct => [.ConvertedTy it.type]
  | .Coerce coerceToType => [coerceToType]
  | .Indirect _ => [.PointerTy (.ConvertedForMemTy it.type)]
  | .Expand => (leafFieldTypes it.type).map fun FT => .ConvertedTy FT

/-- The hidden return pointer: one physical parameter when the return disposition is
`Indirect`, none otherwise. -/
def hiddenReturnPointer (ret : ArgInfo) : List LLVMType :=
  match ret.info with
  | .Indirect _ => [.PointerTy (.ConvertedTy ret.type)]
  | _ => []

/-- The physical parameter list of a signature. -/
def parameterList (FI : CGFunctionInfo) : List LLVMType :=
  hiddenReturnPointer FI.ret ++ FI.args.flatMap parameterSlots

/-- A physical type is `void`; the type-lowering map sends the type `void`, and no other
type, to it. -/
def isVoidTy : LLVMType → Bool
  | .VoidTy => true
  | .ConvertedTy T => isVoidType T
  | _ => false

/-- The disposition is `Indirect`. -/
def ABIArgInfo.isIndirect : ABIArgInfo → Bool
  | .Indirect _ => true
  | _ => false

/-- The return value or an argument of the signature has the disposition `Indirect`. -/
def hasIndirect (FI : CGFunctionInfo) : Bool :=
  FI.ret.info.isIndirect || FI.args.any fun it => it.info.isIndirect

/-- The index (from 1) of the first physical parameter of the argument that follows the
arguments `pre` in the signature `FI`. -/
def parameterIndex (FI : CGFunctionInfo) (pre : List ArgInfo) : Nat :=
  1 + (hiddenReturnPointer FI.ret ++ pre.flatMap parameterSlots).length

/-- The attribute word of an argument passed indirectly: by-value and the alignment. -/
def byValAttributes (align : Nat) : Attributes :=
  { Attributes.None with ByVal := true, Alignment := align }

/-- The attribute word of one argument, by its disposition. -/
def argumentAttributes (it : ArgInfo) : Attributes :=
  match it.info with
  | .Indirect align => byValAttributes align
  | .Direct => setExtensionAttribute it.type Attributes.None
  | _ => Attributes.None

/-- The entry of the attribute list for one argument whose first physical parameter is
at `Index`: none when its attribute word is zero. -/
def argumentEntry (it : ArgInfo) (Index : Nat) : List AttributeWithIndex :=
  if (argumentAttributes it).isNonZero then
    [{ Index := Index, Attrs := argumentAttributes it }]
  else []

/-- The entries of the attribute list for the arguments `args`, the first of which has
its first physical parameter at `Index`. -/
def argumentEntries : List ArgInfo → Nat → List AttributeWithIndex
  | [], _ => []
  | it :: rest, Index =>
    argumentEntry it Index ++ argumentEntries rest (Index + (parameterSlots it).length)

/-- The entries of the attribute list for the return value: struct-return and no-alias
on the physical parameter 1 for an `Indirect` return, the extension attribute at index 0
for a `Direct` return of a promotable integer type. -/
def returnEntries (ret : ArgInfo) : List AttributeWithIndex :=
  match ret.info with
  | .Indirect _ =>
    [{ Index := 1, Attrs := { Attributes.None with StructRet := true, NoAlias := true } }]
  | .Direct =>
    if (setExtensionAttribute ret.type Attributes.None).isNonZero then
      [{ Index := 0, Attrs := setExtensionAttribute ret.type Attributes.None }]
    else []
  | _ => []

/-- The declaration carries the attribute that `f` reads; no declaration carries none. -/
def declares (TargetDecl : Option Decl) (f : Decl → Bool) : Bool :=
  match TargetDecl with
  | some D => f D
  | none => false

/-- The attribute word of the hidden return pointer: struct-return and no-alias. -/
def structRetAttributes : Attributes :=
  { Attributes.None with StructRet := true, NoAlias := true }

/-- The function-level attribute word of a signature and a declaration: the attributes
of the declaration, without read-only and read-none when the return value or an argument
is passed indirectly. -/
def functionAttributes (FI : CGFunctionInfo) (TargetDecl : Option Decl) : Attributes :=
  if hasIndirect FI then clearReadAttributes (declarationAttributes TargetDecl)
  else declarationAttributes TargetDecl

/-- The function-level entry of the attribute list: none when the word is zero. -/
def functionEntries (FI : CGFunctionInfo) (TargetDecl : Option Decl) :
    List AttributeWithIndex :=
  if (functionAttributes FI TargetDecl).isNonZero then
    [{ Index := functionIndex, Attrs := functionAttributes FI TargetDecl }]
  else []

/-- The attribute list of a signature and a declaration. -/
def attributeList (FI : CGFunctionInfo) (TargetDecl : Option Decl) :
    List AttributeWithIndex :=
  returnEntries FI.ret ++ argumentEntries FI.args (parameterIndex FI []) ++
    functionEntries FI TargetDecl

/-- Every argument of disposition `Expand` has a type `GetExpandedTypes` accepts. -/
def expandedArgumentsExpandable (args : List ArgInfo) : Prop :=
  ∀ it ∈ args, it.info = .Expand → isExpandable it.type = true

/-- The entry of an attribute list with the index `Index` has the property `p`. -/
def hasAttributeAt (PAL : List AttributeWithIndex) (Index : Nat) (p : Attributes → Bool) :
    Prop :=
  ∃ e ∈ PAL, e.Index = Index ∧ p e.Attrs = true

/-- The width of the words an ARM aggregate argument of alignment `A` is coerced to. -/
def wordWidth (A : Nat) : Nat :=
  if A > 32 then 64 else 32

/-- The number of words of width `W` that cover `S` bits: `S / W` rounded up. -/
def wordCount (S W : Nat) : Nat :=
  (S + W - 1) / W

/-! ### Vocabulary of the return dispositions, of the readers and of the marshallers -/

/-- A disposition the classifiers give a return value: `Direct`, `Ignore`, `Coerce` or
`Indirect` with alignment 0. -/
def isReturnDisposition : ABIArgInfo → Bool
  | .Direct => true
  | .Ignore => true
  | .Coerce _ => true
  | .Indirect align => align = 0
  | .Expand => false

/-- The computation did not stop on "Invalid ABI kind for return argument" nor on "Align
unused on indirect return.". -/
def notReturnError {α : Type} (x : Except AssertFail α) : Prop :=
  x ≠ .error .invalidReturnKind ∧ x ≠ .error .alignUnusedOnIndirectReturn

/-- A register disposition: `Direct` or `Coerce`. -/
def isRegisterDisposition : ABIArgInfo → Bool
  | .Direct => true
  | .Coerce _ => true
  | _ => false

/-- Reading values of the types `Tys` in order with the emitted x86-64 reader, from the
`va_list` `VA`: for each read whether it took the register path, and the `va_list` after
the last read. -/
def X86_64ABIInfo.readAll : List QualType → VAList → Except AssertFail (List Bool × VAList)
  | [], VA => pure ([], VA)
  | Ty :: rest, VA => do
    let r ← X86_64ABIInfo.EmitVAArg Ty VA
    let t ← X86_64ABIInfo.readAll rest r.2
    pure (r.1.inRegisters :: t.1, t.2)

/-- The assertion is one of the two of the coercion through memory: "Coercion is losing
source bits!" or "Coercion is missing bits!". -/
def isCoercionError : AssertFail → Bool
  | .coercionLosingSourceBits => true
  | .coercionMissingBits => true
  | _ => false

/-- The coerced type of the value, if its disposition is `Coerce`, has at least the
storage size of the type of the value as it lies in memory. -/
def coercionFits (paddedSize : LLVMType → Nat) (it : ArgInfo) : Bool :=
  match it.info with
  | .Coerce CoerceToType =>
    decide (paddedSize (.ConvertedForMemTy it.type) ≤ paddedSize CoerceToType)
  | _ => true

/-- Every coerced type of the signature has at least the storage size of the type it
stands for. -/
def coercionsFit (paddedSize : LLVMType → Nat) (FI : CGFunctionInfo) : Bool :=
  coercionFits paddedSize FI.ret && FI.args.all (coercionFits paddedSize)

/-! ## Auxiliary lemmas -/

namespace X86_64ABIInfo

theorem getCoerceResult_eq (T : QualType) (P : LLVMType) :
    getCoerceResult T P = if directlyPassed T P then .Direct else .Coerce P := by
  unfold getCoerceResult directlyPassed
  split <;> simp

theorem classify_memory_indirect (T : QualType)
    (h : classify T 0 = .ok (.Memory, .NoClass)) :
    classifyReturnType T = .ok (.Indirect 0) ∧
      classifyArgumentType T = .ok (.Indirect 0, 0, 0) := by
  constructor
  · unfold classifyReturnType; rw [h]; rfl
  · unfold classifyArgumentType; rw [h]; rfl

theorem classify_oversized (T : QualType) (h : isOversizedOrVariable T = true) :
    classify T 0 = .ok (.Memory, .NoClass) := by
  cases T <;> simp [isOversizedOrVariable] at h
  · rw [classify]; simp [h]; rfl
  · rw [classify]; split_ifs
    · rfl
    · rfl
    · simp_all

theorem classify_integerEnumOrPointer (T : QualType)
    (h : isIntegerEnumOrPointer T = true) :
    classify T 0 = .ok (.Integer, .NoClass) ∧ (isIntegralType T ∨ isPointerType T) := by
  match T, h with
  | .builtin k _ _, h =>
    cases k <;> first | exact ⟨rfl, Or.inl rfl⟩ | simp [isIntegerEnumOrPointer, kindValue] at h
  | .enumTy (.builtin k _ _), h =>
    cases k <;> first | exact ⟨rfl, Or.inl rfl⟩ | simp [isIntegerEnumOrPointer, kindValue] at h
  | .pointer _ _, _ => exact ⟨rfl, Or.inr rfl⟩

theorem classifyType_integerEnumOrPointer (T : QualType)
    (h : isIntegerEnumOrPointer T = true) :
    classifyReturnType T = .ok .Direct ∧ classifyArgumentType T = .ok (.Direct, 1, 0) := by
  obtain ⟨hc, ht⟩ := classify_integerEnumOrPointer T h
  constructor
  · unfold classifyReturnType; rw [hc]
    show Except.ok (getCoerceResult T (.IntegerTy 64)) = _
    simp [getCoerceResult, ht]
  · unfold classifyArgumentType; rw [hc]
    show Except.ok (getCoerceResult T (.IntegerTy 64), 1, 0) = _
    simp [getCoerceResult, ht]

theorem classifyArgumentType_integerClass (T : QualType)
    (h : classify T 0 = .ok (.Integer, .NoClass)) :
    classifyArgumentType T = .ok (getCoerceResult T (.IntegerTy 64), 1, 0) := by
  unfold classifyArgumentType
  rw [h]
  rfl

theorem computeInfoArgs_append (pre post : List ArgInfo) :
    ∀ (freeIntRegs freeSSERegs : Nat) (preInfos postInfos : List ArgInfo)
      (fi fs fi2 fs2 : Nat),
    computeInfoArgs pre freeIntRegs freeSSERegs = .ok (preInfos, fi, fs) →
    computeInfoArgs post fi fs = .ok (postInfos, fi2, fs2) →
    computeInfoArgs (pre ++ post) freeIntRegs freeSSERegs =
      .ok (preInfos ++ postInfos, fi2, fs2) := by
  induction pre with
  | nil =>
    intro a b preInfos postInfos fi fs fi2 fs2 hpre hpost
    simp only [computeInfoArgs, pure, Except.pure, Except.ok.injEq, Prod.mk.injEq] at hpre
    obtain ⟨h1, h2, h3⟩ := hpre
    subst h1 h2 h3
    simpa using hpost
  | cons it rest ih =>
    intro a b preInfos postInfos fi fs fi2 fs2 hpre hpost
    rw [List.cons_append, computeInfoArgs]
    rw [computeInfoArgs] at hpre
    cases hcl : classifyArgumentType it.type with
    | error e => rw [hcl] at hpre; cases hpre
    | ok r =>
      rw [hcl] at hpre
      simp only [bind, Except.bind] at hpre ⊢
      split_ifs at hpre ⊢ with hfit
      · cases htl : computeInfoArgs rest (a - r.2.1) (b - r.2.2) with
        | error e => rw [htl] at hpre; cases hpre
        | ok tl =>
          obtain ⟨tlInfos, tfi, tfs⟩ := tl
          rw [htl] at hpre
          simp only [pure, Except.pure, Except.ok.injEq, Prod.mk.injEq] at hpre
          obtain ⟨h1, h2, h3⟩ := hpre
          have := ih (a - r.2.1) (b - r.2.2) tlInfos postInfos fi fs fi2 fs2
            (by rw [htl, ← h2, ← h3]) hpost
          rw [this, ← h1]; rfl
      · cases htl : computeInfoArgs rest a b with
        | error e => rw [htl] at hpre; cases hpre
        | ok tl =>
          obtain ⟨tlInfos, tfi, tfs⟩ := tl
          rw [htl] at hpre
          simp only [pure, Except.pure, Except.ok.injEq, Prod.mk.injEq] at hpre
          obtain ⟨h1, h2, h3⟩ := hpre
          have := ih a b tlInfos postInfos fi fs fi2 fs2
            (by rw [htl, ← h2, ← h3]) hpost
          rw [this, ← h1]; rfl

theorem computeInfoArgs_cons (it : ArgInfo) (post postInfos : List ArgInfo)
    (d : ABIArgInfo) (neededInt neededSSE fi fs fi2 fs2 : Nat)
    (hit : classifyArgumentType it.type = .ok (d, neededInt, neededSSE))
    (hpost : computeInfoArgs post
        (if fits neededInt neededSSE fi fs then fi - neededInt else fi)
        (if fits neededInt neededSSE fi fs then fs - neededSSE else fs) =
      .ok (postInfos, fi2, fs2)) :
    computeInfoArgs (it :: post) fi fs =
      .ok ({ it with info := if fits neededInt neededSSE fi fs then d else .Indirect 0 }
            :: postInfos, fi2, fs2) := by
  rw [computeInfoArgs, hit]
  simp only [bind, Except.bind]
  by_cases hf : neededInt ≤ fi ∧ neededSSE ≤ fs
  · have hfit : fits neededInt neededSSE fi fs = true := by simp [fits, hf]
    rw [hfit] at hpost
    simp only [if_true] at hpost
    rw [if_pos (by exact ⟨hf.1, hf.2⟩), hpost, hfit]
    rfl
  · have hfit : fits neededInt neededSSE fi fs = false := by simp [fits, hf]
    rw [hfit] at hpost
    simp only [Bool.false_eq_true, if_false] at hpost
    rw [if_neg (by exact fun h => hf ⟨h.1, h.2⟩), hpost, hfit]
    rfl

end X86_64ABIInfo

/-! ## Properties of the x86-64 classifier -/

namespace X86_64ABIInfo

/-- C1 (x86-64 eightbyte invariants), evaluated at a type for which the code breaks its
own assertion: for `struct __attribute__((packed)) { float4 v; float8 w[0]; }` the
misaligned-member test of `classify` returns with `Lo = Memory` while `Hi` still holds
the `SSEUp` merged in from `v`, the post-merger cleanup being skipped; the pair
`(Memory, SSEUp)` breaks `Hi = SSEUp implies Lo = SSE`, and the assertion
"Invalid SSEUp classification." fails in `classifyArgumentType` and in
`classifyReturnType`. -/
theorem C1_classify_breaks_SSEUp_invariant :
    classify Example.PackedVectorRecord 0 = .ok (.Memory, .SSEUp) ∧
    ¬ Invariants .Memory .SSEUp ∧
    classifyArgumentType Example.PackedVectorRecord = .error .invalidSSEUp ∧
    classifyReturnType Example.PackedVectorRecord = .error .invalidSSEUp :=
  ⟨rfl, fun h => by simpa using h.2.2 rfl, rfl, rfl⟩

/-- C2 as stated fails: a block pointer is a scalar that `classify` puts in class
`Integer`, and `getCoerceResult`, which tests `isIntegralType` and `isPointerType`, leaves
it coerced to a 64-bit integer. In a signature of seven block pointers the first six
arguments are `Coerce`, not `Direct`; the seventh is `Indirect`. -/
theorem C2_counterexample :
    classify Example.BlockPointerTy 0 = .ok (.Integer, .NoClass) ∧
    hasAggregateLLVMType Example.BlockPointerTy = false ∧
    computeInfoRegs
        (CGFunctionInfo.create Example.VoidTy (List.replicate 7 Example.BlockPointerTy)) =
      .ok ({ ret := { type := Example.VoidTy, info := .Ignore },
             args :=
               List.replicate 6
                 { type := Example.BlockPointerTy, info := .Coerce (.IntegerTy 64) } ++
               [{ type := Example.BlockPointerTy, info := .Indirect 0 }] },
           0, 8) ∧
    classifyArgumentType Example.BlockPointerTy ≠ .ok (.Direct, 1, 0) := by
  refine ⟨rfl, rfl, rfl, ?_⟩
  rw [show classifyArgumentType Example.BlockPointerTy =
    .ok (.Coerce (.IntegerTy 64), 1, 0) from rfl]
  simp

/-- C2, amended (x86-64 register budget): `computeInfo` walks the arguments left to right
from 6 free integer and 8 free SSE registers, whatever the return disposition `retInfo`
is. For an argument `it` preceded by the arguments `pre` and followed by `post`, where the
walk over `pre` assigns `preInfos` and leaves `fi` and `fs` free registers and
`classifyArgumentType` gives `it` the disposition `d` needing `neededInt` and
`neededSSE` registers: when `neededInt <= fi` and `neededSSE <= fs` the argument keeps
`d` and the walk goes on with `fi - neededInt` and `fs - neededSSE`; otherwise the
argument becomes `Indirect` with alignment 0 and the walk goes on with `fi` and `fs`;
in both cases the entries `preInfos` of the earlier arguments stand unmodified in the
result. In particular seven integer, enumeration or pointer arguments come out as six
`Direct` and a seventh `Indirect`; and of seven arguments of any types of class
`(Integer, NoClass)` the first six keep the disposition `getCoerceResult` gives them for
a 64-bit integer slot, `Direct` for an integral or pointer type and `Coerce` to the
64-bit integer otherwise, as for every other type with a pointer representation, and
the seventh is `Indirect`. -/
theorem C2_register_budget (ret : ArgInfo) (retInfo : ABIArgInfo)
    (hret : classifyReturnType ret.type = .ok retInfo) :
    (∀ (it : ArgInfo) (pre post preInfos postInfos : List ArgInfo) (d : ABIArgInfo)
        (fi fs neededInt neededSSE fi2 fs2 : Nat),
      computeInfoArgs pre 6 8 = .ok (preInfos, fi, fs) →
      classifyArgumentType it.type = .ok (d, neededInt, neededSSE) →
      computeInfoArgs post
          (if fits neededInt neededSSE fi fs then fi - neededInt else fi)
          (if fits neededInt neededSSE fi fs then fs - neededSSE else fs) =
        .ok (postInfos, fi2, fs2) →
      computeInfoRegs { ret := ret, args := pre ++ [it] } =
        .ok ({ ret := { ret with info := retInfo },
               args := preInfos ++
                 [{ it with
                    info := if fits neededInt neededSSE fi fs then d else .Indirect 0 }] },
             if fits neededInt neededSSE fi fs then fi - neededInt else fi,
             if fits neededInt neededSSE fi fs then fs - neededSSE else fs) ∧
      computeInfoRegs { ret := ret, args := pre ++ it :: post } =
        .ok ({ ret := { ret with info := retInfo },
               args := preInfos ++
                 { it with
                   info := if fits neededInt neededSSE fi fs then d else .Indirect 0 }
                   :: postInfos },
             fi2, fs2)) ∧
    (∀ T1 T2 T3 T4 T5 T6 T7 : QualType,
      isIntegerEnumOrPointer T1 = true → isIntegerEnumOrPointer T2 = true →
      isIntegerEnumOrPointer T3 = true → isIntegerEnumOrPointer T4 = true →
      isIntegerEnumOrPointer T5 = true → isIntegerEnumOrPointer T6 = true →
      isIntegerEnumOrPointer T7 = true →
      computeInfoRegs (CGFunctionInfo.create ret.type [T1, T2, T3, T4, T5, T6, T7]) =
        .ok ({ ret := { type := ret.type, info := retInfo },
               args := [{ type := T1, info := .Direct }, { type := T2, info := .Direct },
                        { type := T3, info := .Direct }, { type := T4, info := .Direct },
                        { type := T5, info := .Direct }, { type := T6, info := .Direct },
                        { type := T7, info := .Indirect 0 }] },
             0, 8)) ∧
    (∀ T1 T2 T3 T4 T5 T6 T7 : QualType,
      classify T1 0 = .ok (.Integer, .NoClass) → classify T2 0 = .ok (.Integer, .NoClass) →
      classify T3 0 = .ok (.Integer, .NoClass) → classify T4 0 = .ok (.Integer, .NoClass) →
      classify T5 0 = .ok (.Integer, .NoClass) → classify T6 0 = .ok (.Integer, .NoClass) →
      classify T7 0 = .ok (.Integer, .NoClass) →
      computeInfoRegs (CGFunctionInfo.create ret.type [T1, T2, T3, T4, T5, T6, T7]) =
        .ok ({ ret := { type := ret.type, info := retInfo },
               args := [{ type := T1, info := getCoerceResult T1 (.IntegerTy 64) },
                        { type := T2, info := getCoerceResult T2 (.IntegerTy 64) },
                        { type := T3, info := getCoerceResult T3 (.IntegerTy 64) },
                        { type := T4, info := getCoerceResult T4 (.IntegerTy 64) },
                        { type := T5, info := getCoerceResult T5 (.IntegerTy 64) },
                        { type := T6, info := getCoerceResult T6 (.IntegerTy 64) },
                        { type := T7, info := .Indirect 0 }] },
             0, 8)) ∧
    (∀ T : QualType,
      getCoerceResult T (.IntegerTy 64) =
        if isIntegralType T ∨ isPointerType T then .Direct else .Coerce (.IntegerTy 64)) ∧
    (∀ T : QualType, hasPointerRepresentation T = true →
      classify T 0 = .ok (.Integer, .NoClass) ∧
      (isPointerType T = false →
        getCoerceResult T (.IntegerTy 64) = .Coerce (.IntegerTy 64))) := by
  refine ⟨?_, ?_, ?_, ?_, ?_⟩
  · intro it pre post preInfos postInfos d fi fs neededInt neededSSE fi2 fs2 hpre hit hpost
    constructor
    · have h := computeInfoArgs_append pre [it] 6 8 preInfos _ fi fs _ _ hpre
        (computeInfoArgs_cons it [] [] d neededInt neededSSE fi fs _ _ hit rfl)
      unfold computeInfoRegs
      rw [hret]
      simp only [bind, Except.bind]
      rw [h]
      rfl
    · have h := computeInfoArgs_append pre (it :: post) 6 8 preInfos _ fi fs fi2 fs2 hpre
        (computeInfoArgs_cons it post postInfos d neededInt neededSSE fi fs fi2 fs2 hit
          hpost)
      unfold computeInfoRegs
      rw [hret]
      simp only [bind, Except.bind]
      rw [h]
      rfl
  · intro T1 T2 T3 T4 T5 T6 T7 h1 h2 h3 h4 h5 h6 h7
    have e1 := (classifyType_integerEnumOrPointer T1 h1).2
    have e2 := (classifyType_integerEnumOrPointer T2 h2).2
    have e3 := (classifyType_integerEnumOrPointer T3 h3).2
    have e4 := (classifyType_integerEnumOrPointer T4 h4).2
    have e5 := (classifyType_integerEnumOrPointer T5 h5).2
    have e6 := (classifyType_integerEnumOrPointer T6 h6).2
    have e7 := (classifyType_integerEnumOrPointer T7 h7).2
    unfold computeInfoRegs
    simp only [CGFunctionInfo.create, List.map, computeInfoArgs, hret, e1, e2, e3, e4, e5,
      e6, e7, bind, Except.bind]
    rfl
  · intro T1 T2 T3 T4 T5 T6 T7 h1 h2 h3 h4 h5 h6 h7
    have e1 := classifyArgumentType_integerClass T1 h1
    have e2 := classifyArgumentType_integerClass T2 h2
    have e3 := classifyArgumentType_integerClass T3 h3
    have e4 := classifyArgumentType_integerClass T4 h4
    have e5 := classifyArgumentType_integerClass T5 h5
    have e6 := classifyArgumentType_integerClass T6 h6
    have e7 := classifyArgumentType_integerClass T7 h7
    unfold computeInfoRegs
    simp only [CGFunctionInfo.create, List.map, computeInfoArgs, hret, e1, e2, e3, e4, e5,
      e6, e7, bind, Except.bind]
    rfl
  · intro T
    rfl
  · intro T hT
    cases T with
    | pointer size align => exact ⟨rfl, fun h => by cases h⟩
    | pointerLike size align => exact ⟨rfl, fun _ => rfl⟩
    | _ => cases hT

/-- C2 at three signatures. In `long f(long, double, struct { float a, b; }, long)` the
third argument, preceded by two and followed by one, keeps its `Coerce` and takes one of
the 7 SSE registers left. In `void (int, int, int, int, int, int, int)` the walk over the
first six arguments leaves no free integer register, and the seventh is `Indirect`, the
six entries before it staying `Direct`. In a signature of seven block pointers the first
six arguments are coerced to a 64-bit integer and the seventh is `Indirect`. -/
theorem C2_register_budget_witness :
    (classifyReturnType Example.LongTy = .ok .Direct ∧
      fits 0 1 5 7 = true ∧
      computeInfoRegs (CGFunctionInfo.create Example.LongTy
          [Example.LongTy, Example.DoubleTy, Example.StructFloatFloat, Example.LongTy]) =
        .ok ({ ret := { type := Example.LongTy, info := .Direct },
               args := [{ type := Example.LongTy, info := .Direct },
                        { type := Example.DoubleTy, info := .Direct },
                        { type := Example.StructFloatFloat, info := .Coerce .DoubleTy },
                        { type := Example.LongTy, info := .Direct }] },
             4, 6)) ∧
    (classifyReturnType Example.VoidTy = .ok .Ignore ∧
      fits 1 0 0 8 = false ∧
      computeInfoRegs
          (CGFunctionInfo.create Example.VoidTy (List.replicate 7 Example.IntTy)) =
        .ok ({ ret := { type := Example.VoidTy, info := .Ignore },
               args := List.replicate 6 { type := Example.IntTy, info := .Direct } ++
                 [{ type := Example.IntTy, info := .Indirect 0 }] },
             0, 8)) ∧
    computeInfoRegs
        (CGFunctionInfo.create Example.VoidTy (List.replicate 7 Example.BlockPointerTy)) =
      .ok ({ ret := { type := Example.VoidTy, info := .Ignore },
             args :=
               List.replicate 6
                 { type := Example.BlockPointerTy, info := .Coerce (.IntegerTy 64) } ++
               [{ type := Example.BlockPointerTy, info := .Indirect 0 }] },
           0, 8) :=
  ⟨⟨rfl, rfl,
      ((C2_register_budget { type := Example.LongTy, info := .Direct } .Direct rfl).1
        { type := Example.StructFloatFloat, info := .Direct }
        [{ type := Example.LongTy, info := .Direct },
          { type := Example.DoubleTy, info := .Direct }]
        [{ type := Example.LongTy, info := .Direct }]
        [{ type := Example.LongTy, info := .Direct },
          { type := Example.DoubleTy, info := .Direct }]
        [{ type := Example.LongTy, info := .Direct }]
        (.Coerce .DoubleTy) 5 7 0 1 4 6 rfl rfl rfl).2⟩,
    ⟨rfl, rfl,
      ((C2_register_budget { type := Example.VoidTy, info := .Direct } .Ignore rfl).1
        { type := Example.IntTy, info := .Direct }
        (List.replicate 6 { type := Example.IntTy, info := .Direct }) []
        (List.replicate 6 { type := Example.IntTy, info := .Direct }) []
        .Direct 0 8 1 0 0 8 rfl rfl rfl).1⟩,
    (C2_register_budget { type := Example.VoidTy, info := .Direct } .Ignore rfl).2.2.1
      Example.BlockPointerTy Example.BlockPointerTy Example.BlockPointerTy
      Example.BlockPointerTy Example.BlockPointerTy Example.BlockPointerTy
      Example.BlockPointerTy rfl rfl rfl rfl rfl rfl rfl⟩

/-- C3 (end-to-end scenario, dispositions and register use): for the signature
`void (int, struct { float a, b; })`, `computeInfo` yields return disposition `Ignore`,
first argument `Direct` with `neededInt = 1` and `neededSSE = 0`, second argument
`Coerce` with `neededInt = 0` and `neededSSE = 1`, and leaves 5 free integer and 7 free
SSE registers. -/
theorem C3_end_to_end_dispositions :
    classifyArgumentType Example.IntTy = .ok (.Direct, 1, 0) ∧
    classifyArgumentType Example.StructFloatFloat = .ok (.Coerce .DoubleTy, 0, 1) ∧
    computeInfoRegs
        (CGFunctionInfo.create Example.VoidTy [Example.IntTy, Example.StructFloatFloat]) =
      .ok ({ ret := { type := Example.VoidTy, info := .Ignore },
             args := [{ type := Example.IntTy, info := .Direct },
                      { type := Example.StructFloatFloat, info := .Coerce .DoubleTy }] },
           5, 7) :=
  ⟨rfl, rfl, rfl⟩

/-- C4 as stated fails: `struct { float a, b; }` classifies `(SSE, NoClass)`, not
`(SSE, SSE)`, both floats lying in the low eightbyte, and `classifyArgumentType` coerces
it to a single double, not to an aggregate of two floats. -/
theorem C4_counterexample :
    classify Example.StructFloatFloat 0 ≠ .ok (.SSE, .SSE) ∧
    classifyArgumentType Example.StructFloatFloat ≠
      .ok (.Coerce (.StructTy [.FloatTy, .FloatTy] false), 0, 1) := by
  have hc : classify Example.StructFloatFloat 0 = .ok (.SSE, .NoClass) := rfl
  have ha : classifyArgumentType Example.StructFloatFloat = .ok (.Coerce .DoubleTy, 0, 1) :=
    rfl
  rw [hc, ha]
  simp

/-- C4, amended (end-to-end scenario, physical shape): a structure of two floats at bit
offsets 0 and 32 (64 bits, of any alignment) classifies `(SSE, NoClass)` at offset 0, and
`classifyArgumentType` returns `Coerce` to a single double slot, using one SSE
register. -/
theorem C4_struct_float_float (align : Nat) :
    classify (.record false false
        (.cons Example.FloatTy 0 none (.cons Example.FloatTy 32 none .nil)) 64 align) 0 =
      .ok (.SSE, .NoClass) ∧
    classifyArgumentType (.record false false
        (.cons Example.FloatTy 0 none (.cons Example.FloatTy 32 none .nil)) 64 align) =
      .ok (.Coerce .DoubleTy, 0, 1) :=
  ⟨rfl, rfl⟩

/-- C5 as stated fails: `union { long double ld; int i; }` classifies `(Integer, X87Up)`,
a pair without any `SSE` eightbyte, yet `classifyArgumentType` gives it a double slot next
to the integer slot and needs one SSE register. Moreover a pair that breaks an asserted
invariant gets no disposition at all: the packed record of C1 has `Lo = Memory` and is not
returned `Indirect`, the assertion aborting first. -/
theorem C5_counterexample :
    (classify Example.UnionLongDoubleInt 0 = .ok (.Integer, .X87Up) ∧
      sseEightbytes .Integer .X87Up = 0 ∧
      classifyArgumentType Example.UnionLongDoubleInt =
        .ok (.Coerce (.StructTy [.IntegerTy 64, .DoubleTy] false), 1, 1)) ∧
    (classify Example.PackedVectorRecord 0 = .ok (.Memory, .SSEUp) ∧
      classifyArgumentType Example.PackedVectorRecord = .error .invalidSSEUp) :=
  ⟨⟨rfl, rfl, rfl⟩, rfl, rfl⟩

/-- C5, amended (register assignment for arguments as a function of the eightbyte pair):
for every type whose pair `(Lo, Hi)` at offset 0 satisfies the three asserted invariants,
`classifyArgumentType` returns `Ignore` with 0/0 registers when `Lo = NoClass`;
`Indirect` with alignment 0 and 0/0 registers when `Lo` is `Memory`, `X87` or
`ComplexX87`; and when `Lo` is `Integer` or `SSE` and `Hi` is `NoClass`, `Integer`, `SSE`,
`SSEUp` or `X87Up`, a register disposition (`Direct`, or `Coerce` to the physical type)
whose physical type has one 64-bit integer slot per eightbyte classified `Integer` and one
double slot per eightbyte classified `SSE` or `X87Up` (a single 128-bit vector slot for
`(SSE, SSEUp)`), with `neededInt` the number of `Integer` eightbytes and `neededSSE` the
number of `SSE` or `X87Up` eightbytes, so that `neededInt + neededSSE` is 1 or 2. -/
theorem C5_argument_register_assignment (T : QualType) (Lo Hi : Class)
    (hc : classify T 0 = .ok (Lo, Hi)) (hinv : Invariants Lo Hi) :
    (Lo = .NoClass → classifyArgumentType T = .ok (.Ignore, 0, 0)) ∧
    (Lo = .Memory ∨ Lo = .X87 ∨ Lo = .ComplexX87 →
      classifyArgumentType T = .ok (.Indirect 0, 0, 0)) ∧
    (Lo = .Integer ∨ Lo = .SSE →
      Hi = .NoClass ∨ Hi = .Integer ∨ Hi = .SSE ∨ Hi = .SSEUp ∨ Hi = .X87Up →
      classifyArgumentType T =
        .ok (getCoerceResult T (registerPhysicalType Lo Hi),
             integerEightbytes Lo Hi, sseOrX87UpEightbytes Lo Hi) ∧
      (getCoerceResult T (registerPhysicalType Lo Hi) = .Direct ∨
        getCoerceResult T (registerPhysicalType Lo Hi) =
          .Coerce (registerPhysicalType Lo Hi)) ∧
      (integerEightbytes Lo Hi + sseOrX87UpEightbytes Lo Hi = 1 ∨
        integerEightbytes Lo Hi + sseOrX87UpEightbytes Lo Hi = 2)) := by
  obtain ⟨h1, h2, h3⟩ := hinv
  refine ⟨?_, ?_, ?_⟩
  · intro hLo
    have hHi := h2 hLo
    subst hLo hHi
    unfold classifyArgumentType; rw [hc]; rfl
  · intro hLo
    unfold classifyArgumentType; rw [hc]
    rcases hLo with hLo | hLo | hLo <;> subst hLo <;> cases Hi <;>
      first | rfl | simp at h1 h2 h3
  · intro hLo hHi
    refine ⟨?_, ?_, ?_⟩
    · unfold classifyArgumentType; rw [hc]
      rcases hLo with hLo | hLo <;> subst hLo <;>
        rcases hHi with hHi | hHi | hHi | hHi | hHi <;> subst hHi <;>
        first | rfl | simp at h3
    · rw [getCoerceResult_eq]; split <;> simp
    · rcases hLo with hLo | hLo <;> subst hLo <;>
        rcases hHi with hHi | hHi | hHi | hHi | hHi <;> subst hHi <;>
        simp [integerEightbytes, sseOrX87UpEightbytes]

/-- C5, amended, at three types: `void`, whose pair is `(NoClass, NoClass)`, is ignored;
`struct { int a, b, c, d, e; }`, whose pair is `(Memory, NoClass)`, is passed `Indirect`;
`struct { long a; double b; }`, whose pair is `(Integer, SSE)`, is coerced to a 64-bit
integer slot and a double slot, one register of each kind. -/
theorem C5_argument_register_assignment_witness :
    (classify Example.VoidTy 0 = .ok (.NoClass, .NoClass) ∧ Invariants .NoClass .NoClass ∧
      classifyArgumentType Example.VoidTy = .ok (.Ignore, 0, 0)) ∧
    (classify Example.StructFiveInt 0 = .ok (.Memory, .NoClass) ∧
      Invariants .Memory .NoClass ∧
      classifyArgumentType Example.StructFiveInt = .ok (.Indirect 0, 0, 0)) ∧
    (classify Example.StructLongDouble 0 = .ok (.Integer, .SSE) ∧
      Invariants .Integer .SSE ∧
      classifyArgumentType Example.StructLongDouble =
        .ok (.Coerce (.StructTy [.IntegerTy 64, .DoubleTy] false), 1, 1)) :=
  ⟨⟨rfl, ⟨by simp, by simp, by simp⟩,
      (C5_argument_register_assignment Example.VoidTy .NoClass .NoClass rfl
        ⟨by simp, by simp, by simp⟩).1 rfl⟩,
    ⟨rfl, ⟨by simp, by simp, by simp⟩,
      (C5_argument_register_assignment Example.StructFiveInt .Memory .NoClass rfl
        ⟨by simp, by simp, by simp⟩).2.1 (Or.inl rfl)⟩,
    ⟨rfl, ⟨by simp, by simp, by simp⟩,
      ((C5_argument_register_assignment Example.StructLongDouble .Integer .SSE rfl
        ⟨by simp, by simp, by simp⟩).2.2 (Or.inl rfl)
          (Or.inr (Or.inr (Or.inl rfl)))).1⟩⟩

/-- C7 as stated fails: `long double`, whose low eightbyte class is `X87`, and
`_Complex long double`, whose low eightbyte class is `ComplexX87`, are not returned
`Indirect`: `classifyReturnType` coerces them to the x87 extended type and to a pair of
x87 extended values. -/
theorem C7_counterexample :
    (classify Example.LongDoubleTy 0 = .ok (.X87, .X87Up) ∧
      ¬ ∃ align : Nat, classifyReturnType Example.LongDoubleTy = .ok (.Indirect align)) ∧
    (classify Example.ComplexLongDoubleTy 0 = .ok (.ComplexX87, .ComplexX87) ∧
      ¬ ∃ align : Nat,
        classifyReturnType Example.ComplexLongDoubleTy = .ok (.Indirect align)) := by
  have h1 : classifyReturnType Example.LongDoubleTy = .ok (.Coerce .X86_FP80Ty) := rfl
  have h2 : classifyReturnType Example.ComplexLongDoubleTy =
      .ok (.Coerce (.StructTy [.X86_FP80Ty, .X86_FP80Ty] false)) := rfl
  rw [h1, h2]
  exact ⟨⟨rfl, by simp⟩, ⟨rfl, by simp⟩⟩

/-- C7, amended (x86-64 return of memory-class and x87-class values): for every return
type whose pair `(Lo, Hi)` at offset 0 satisfies the three asserted invariants,
`classifyReturnType` yields `Indirect` with alignment 0 (hidden struct-return pointer)
when `Lo = Memory`, `Coerce` to the x87 extended type when the pair is `(X87, X87Up)`, and
`Coerce` to a pair of x87 extended values when the pair is `(ComplexX87, ComplexX87)`. -/
theorem C7_return_memory_and_x87 (RetTy : QualType) (Lo Hi : Class)
    (hc : classify RetTy 0 = .ok (Lo, Hi)) (hinv : Invariants Lo Hi) :
    (Lo = .Memory → classifyReturnType RetTy = .ok (.Indirect 0)) ∧
    (Lo = .X87 → Hi = .X87Up → classifyReturnType RetTy = .ok (.Coerce .X86_FP80Ty)) ∧
    (Lo = .ComplexX87 → Hi = .ComplexX87 →
      classifyReturnType RetTy =
        .ok (.Coerce (.StructTy [.X86_FP80Ty, .X86_FP80Ty] false))) := by
  obtain ⟨h1, h2, h3⟩ := hinv
  refine ⟨?_, ?_, ?_⟩
  · intro hLo
    subst hLo
    unfold classifyReturnType; rw [hc]
    cases Hi <;> first | rfl | simp at h3
  · intro hLo hHi
    subst hLo hHi
    unfold classifyReturnType; rw [hc]; rfl
  · intro hLo hHi
    subst hLo hHi
    unfold classifyReturnType; rw [hc]; rfl

/-- C7, amended, at three types: `struct { long a, b, c; }` (192 bits), whose pair is
`(Memory, NoClass)`, is returned through the hidden pointer; `long double` and
`_Complex long double` are returned on the x87 stack. -/
theorem C7_return_memory_and_x87_witness :
    (classify Example.StructThreeLong 0 = .ok (.Memory, .NoClass) ∧
      Invariants .Memory .NoClass ∧
      classifyReturnType Example.StructThreeLong = .ok (.Indirect 0)) ∧
    (classify Example.LongDoubleTy 0 = .ok (.X87, .X87Up) ∧ Invariants .X87 .X87Up ∧
      classifyReturnType Example.LongDoubleTy = .ok (.Coerce .X86_FP80Ty)) ∧
    (classify Example.ComplexLongDoubleTy 0 = .ok (.ComplexX87, .ComplexX87) ∧
      Invariants .ComplexX87 .ComplexX87 ∧
      classifyReturnType Example.ComplexLongDoubleTy =
        .ok (.Coerce (.StructTy [.X86_FP80Ty, .X86_FP80Ty] false))) :=
  ⟨⟨rfl, ⟨by simp, by simp, by simp⟩,
      (C7_return_memory_and_x87 Example.StructThreeLong .Memory .NoClass rfl
        ⟨by simp, by simp, by simp⟩).1 rfl⟩,
    ⟨rfl, ⟨by simp, by simp, by simp⟩,
      (C7_return_memory_and_x87 Example.LongDoubleTy .X87 .X87Up rfl
        ⟨by simp, by simp, by simp⟩).2.1 rfl rfl⟩,
    ⟨rfl, ⟨by simp, by simp, by simp⟩,
      (C7_return_memory_and_x87 Example.ComplexLongDoubleTy .ComplexX87 .ComplexX87 rfl
        ⟨by simp, by simp, by simp⟩).2.2 rfl rfl⟩⟩

/-- C8 (x86-64 long double): `long double` classifies `(X87, X87Up)` at offset 0; as a
return type it is coerced to the single 80-bit x87 extended type, the `X87Up` half adding
no second slot; as an argument it is `Indirect` with `neededInt = neededSSE = 0`. -/
theorem C8_long_double (size align : Nat) :
    classify (.builtin .LongDouble size align) 0 = .ok (.X87, .X87Up) ∧
    classifyReturnType (.builtin .LongDouble size align) = .ok (.Coerce .X86_FP80Ty) ∧
    classifyArgumentType (.builtin .LongDouble size align) = .ok (.Indirect 0, 0, 0) :=
  ⟨rfl, rfl, rfl⟩

/-- C9 (x86-64 oversized and variable-sized aggregates): for every constant array or
record type of more than 128 bits, and for every record with a flexible array member,
`classify` at offset 0 returns `Lo = Memory` (the pair `(Memory, NoClass)`), and both
`classifyReturnType` and `classifyArgumentType` return `Indirect` with alignment 0, the
argument needing 0 integer and 0 SSE registers. -/
theorem C9_oversized_or_variable (T : QualType) (h : isOversizedOrVariable T = true) :
    classify T 0 = .ok (.Memory, .NoClass) ∧
    classifyReturnType T = .ok (.Indirect 0) ∧
    classifyArgumentType T = .ok (.Indirect 0, 0, 0) :=
  ⟨classify_oversized T h, classify_memory_indirect T (classify_oversized T h)⟩

/-- C9 at `struct { int n; int data[]; }`, a record of 32 bits with a flexible array
member. -/
theorem C9_oversized_or_variable_witness :
    isOversizedOrVariable Example.StructFlexible = true ∧
    classify Example.StructFlexible 0 = .ok (.Memory, .NoClass) ∧
    classifyReturnType Example.StructFlexible = .ok (.Indirect 0) ∧
    classifyArgumentType Example.StructFlexible = .ok (.Indirect 0, 0, 0) :=
  ⟨rfl, C9_oversized_or_variable Example.StructFlexible rfl⟩

/-- C10 as stated fails: for `struct { int a, b, c, d, e; }` (20 bytes) `classify` at
offset 0 returns `Memory` for the low half only; the high half is `NoClass`. -/
theorem C10_counterexample :
    classify Example.StructFiveInt 0 = .ok (.Memory, .NoClass) ∧
    ¬ ∃ Lo : Class, classify Example.StructFiveInt 0 = .ok (Lo, .Memory) := by
  have h : classify Example.StructFiveInt 0 = .ok (.Memory, .NoClass) := rfl
  rw [h]
  exact ⟨rfl, by simp⟩

/-- C10, amended (x86-64 classification of a record larger than two eightbytes): for
every record type of more than 128 bits, `classify` at offset 0 returns `Lo = Memory`
and `Hi = NoClass`. -/
theorem C10_record_over_128_bits (isUnion hasFlexibleArrayMember : Bool)
    (fields : FieldList) (Size align : Nat) (h : 128 < Size) :
    classify (.record isUnion hasFlexibleArrayMember fields Size align) 0 =
      .ok (.Memory, .NoClass) :=
  classify_oversized _ (by simp [isOversizedOrVariable, h])

/-- C10, amended, at a structure of five `int` fields with the layout of
`struct { int a, b, c, d, e; }` (160 bits). -/
theorem C10_record_over_128_bits_witness :
    128 < 160 ∧ classify Example.StructFiveInt 0 = .ok (.Memory, .NoClass) :=
  ⟨by decide, C10_record_over_128_bits false false _ 160 32 (by decide)⟩

end X86_64ABIInfo

/-! ## Auxiliary lemmas on the merge and on the field loop -/

namespace X86_64ABIInfo

theorem merge_eq_symmetricMerge_iff (a f : Class) (ha : a ≠ .Memory ∧ a ≠ .ComplexX87)
    (hne : a ≠ f) (hna : a ≠ .NoClass) (hnf : f ≠ .NoClass) :
    merge a f = .ok (symmetricMerge a f) ↔
      ¬ ((a = .X87 ∨ a = .X87Up) ∧ (f = .SSE ∨ f = .SSEUp)) := by
  cases a <;> cases f <;>
    simp_all [merge, symmetricMerge, assertThat, bind, Except.bind, pure, Except.pure]

theorem merge_comm_iff (a b : Class) (ha : a ≠ .Memory ∧ a ≠ .ComplexX87)
    (hb : b ≠ .Memory ∧ b ≠ .ComplexX87) :
    merge a b = merge b a ↔
      ¬ (((a = .X87 ∨ a = .X87Up) ∧ (b = .SSE ∨ b = .SSEUp)) ∨
         ((b = .X87 ∨ b = .X87Up) ∧ (a = .SSE ∨ a = .SSEUp))) := by
  cases a <;> cases b <;>
    simp_all [merge, assertThat, bind, Except.bind, pure, Except.pure]

theorem setCurrent_initial (o : Nat) (c : Class) :
    setCurrent o (initial o) c = if o < 64 then (c, .NoClass) else (.NoClass, c) := by
  by_cases h : o < 64 <;> simp [setCurrent, initial, h]

theorem classify_integerEnumOrPointer_at (T : QualType) (o : Nat)
    (h : isIntegerEnumOrPointer T = true) :
    classify T o = .ok (setCurrent o (initial o) .Integer) := by
  match T, h with
  | .builtin k _ _, h =>
    cases k <;> first | rfl | simp [isIntegerEnumOrPointer, kindValue] at h
  | .enumTy (.builtin k _ _), h =>
    cases k <;> first | rfl | simp [isIntegerEnumOrPointer, kindValue] at h
  | .pointer _ _, _ => rfl

theorem classify_floatOrDouble_at (T : QualType) (o : Nat) (h : isFloatOrDouble T = true) :
    classify T o = .ok (setCurrent o (initial o) .SSE) := by
  match T, h with
  | .builtin k _ _, h =>
    cases k <;> first | rfl | simp [isFloatOrDouble, isSpecificBuiltinType] at h

theorem merge_register (a c : Class) (ha : isRegisterOrNoClass a = true)
    (hc : isRegisterOrNoClass c = true) :
    ∃ r : Class, merge a c = .ok r ∧ isRegisterOrNoClass r = true := by
  cases a <;> cases c <;> simp [isRegisterOrNoClass] at ha hc <;>
    first | exact ⟨_, rfl, rfl⟩

theorem classifyFields_cons_member (type : QualType) (fieldOffset : Nat)
    (rest : FieldList) (Lo Hi FieldLo FieldHi Lo1 Hi1 : Class)
    (hal : u64 fieldOffset % getTypeAlign type = 0)
    (hc : classify type (u64 fieldOffset) = .ok (FieldLo, FieldHi))
    (hLo : merge Lo FieldLo = .ok Lo1) (hHi : merge Hi FieldHi = .ok Hi1)
    (hm : Lo1 ≠ .Memory ∧ Hi1 ≠ .Memory) :
    classifyFields (.cons type fieldOffset none rest) 0 Lo Hi =
      classifyFields rest 0 Lo1 Hi1 := by
  rw [classifyFields]
  simp [hal, hc, hLo, hHi, hm, bind, Except.bind]

theorem ok_setCurrent_initial (x : Except AssertFail (Class × Class)) (o : Nat) (c : Class)
    (h : x = .ok (setCurrent o (initial o) c)) :
    x = .ok (if o < 64 then (c, .NoClass) else (.NoClass, c)) := by
  rw [h, setCurrent_initial]

theorem scalarClasses_cases (T : QualType) (c : Class × Class)
    (h : scalarClasses T = some c) :
    ((c = (.Integer, .NoClass) ∨ c = (.SSE, .NoClass)) ∧
      isSpecificBuiltinType T .LongDouble = false ∧
      ∀ o, classify T o = .ok (if o < 64 then (c.1, .NoClass) else (.NoClass, c.1))) ∨
    (c = (.X87, .X87Up) ∧ isSpecificBuiltinType T .LongDouble = true ∧
      ∀ o, classify T o = .ok (.X87, .X87Up)) := by
  match T, h with
  | .builtin k _ _, h =>
    cases k <;> simp [scalarClasses, kindValue] at h <;> subst h <;>
      first
      | exact Or.inr ⟨rfl, rfl, fun _ => rfl⟩
      | exact Or.inl ⟨Or.inl rfl, rfl, fun o => ok_setCurrent_initial _ o .Integer rfl⟩
      | exact Or.inl ⟨Or.inr rfl, rfl, fun o => ok_setCurrent_initial _ o .SSE rfl⟩
  | .enumTy (.builtin k _ _), h =>
    cases k <;> simp [scalarClasses, kindValue] at h <;> subst h <;>
      exact Or.inl ⟨Or.inl rfl, rfl, fun o => ok_setCurrent_initial _ o .Integer rfl⟩
  | .pointer _ _, h =>
    simp [scalarClasses] at h
    subst h
    exact Or.inl ⟨Or.inl rfl, rfl, fun o => ok_setCurrent_initial _ o .Integer rfl⟩
  | .pointerLike _ _, h =>
    simp [scalarClasses] at h
    subst h
    exact Or.inl ⟨Or.inl rfl, rfl, fun o => ok_setCurrent_initial _ o .Integer rfl⟩

theorem mergeFrom_cons (a f r : Class) (l : List Class) (ha : a ≠ .Memory)
    (hm : merge a f = .ok r) : mergeFrom a (f :: l) = mergeFrom r l := by
  rw [mergeFrom, if_neg ha, hm]
  rfl

theorem mergeFrom_Memory (l : List Class) : mergeFrom .Memory l = .ok .Memory := by
  cases l with
  | nil => rfl
  | cons f l => rfl

theorem classifyFields_cons_break (type : QualType) (fieldOffset : Nat)
    (rest : FieldList) (Lo Hi FieldLo FieldHi Lo1 Hi1 : Class)
    (hal : u64 fieldOffset % getTypeAlign type = 0)
    (hc : classify type (u64 fieldOffset) = .ok (FieldLo, FieldHi))
    (hLo : merge Lo FieldLo = .ok Lo1) (hHi : merge Hi FieldHi = .ok Hi1)
    (hm : Lo1 = .Memory ∨ Hi1 = .Memory) :
    classifyFields (.cons type fieldOffset none rest) 0 Lo Hi = .ok (false, Lo1, Hi1) := by
  rw [classifyFields]
  simp [hal, hc, hLo, hHi, hm, bind, Except.bind, pure, Except.pure]

theorem classifyFields_scalars :
    ∀ (fields : FieldList) (Lo Hi : Class), scalarMembers fields = true →
      hasLongDoubleMember fields = false →
      isRegisterOrNoClass Lo = true → isRegisterOrNoClass Hi = true →
      ∃ Lo1 Hi1 : Class, isRegisterOrNoClass Lo1 = true ∧ isRegisterOrNoClass Hi1 = true ∧
        mergeFrom Lo (lowClasses fields) = .ok Lo1 ∧
        mergeFrom Hi (highClasses fields) = .ok Hi1 ∧
        classifyFields fields 0 Lo Hi = .ok (false, Lo1, Hi1)
  | .nil, Lo, Hi, _, _, hLo, hHi => ⟨Lo, Hi, hLo, hHi, rfl, rfl, rfl⟩
  | .cons type fieldOffset bitWidth rest, Lo, Hi, hs, hl, hLo, hHi => by
    simp only [scalarMembers, Bool.and_eq_true, decide_eq_true_eq, Option.isNone_iff_eq_none,
      Option.isSome_iff_exists] at hs
    obtain ⟨⟨⟨⟨hbw, c, hcls⟩, hlt⟩, hal⟩, hrest⟩ := hs
    subst hbw
    simp only [hasLongDoubleMember, Bool.or_eq_false_iff] at hl
    obtain ⟨hnl, hlrest⟩ := hl
    have hu : u64 fieldOffset = fieldOffset := by
      simp only [u64]; omega
    have hLoM : Lo ≠ .Memory := by
      rintro rfl
      simp [isRegisterOrNoClass] at hLo
    have hHiM : Hi ≠ .Memory := by
      rintro rfl
      simp [isRegisterOrNoClass] at hHi
    rcases scalarClasses_cases type c hcls with ⟨hc, _, hclassify⟩ | ⟨_, hld, _⟩
    · have hcreg : isRegisterOrNoClass c.1 = true ∧ c.2 = .NoClass := by
        rcases hc with h | h <;> subst h <;> exact ⟨rfl, rfl⟩
      by_cases hlow : fieldOffset < 64
      · obtain ⟨Lo1, hm, hreg⟩ := merge_register Lo c.1 hLo hcreg.1
        obtain ⟨Lo2, Hi2, h1, h2, h3, h4, h5⟩ :=
          classifyFields_scalars rest Lo1 Hi hrest hlrest hreg hHi
        refine ⟨Lo2, Hi2, h1, h2, ?_, ?_, ?_⟩
        · have : lowClasses (.cons type fieldOffset none rest) = c.1 :: lowClasses rest := by
            simp [lowClasses, hcls, hlow]
          rw [this, mergeFrom_cons Lo c.1 Lo1 _ hLoM hm]; exact h3
        · have : highClasses (.cons type fieldOffset none rest) = highClasses rest := by
            simp [highClasses, hcls, hlow, hcreg.2]
          rw [this]; exact h4
        · rw [classifyFields_cons_member type fieldOffset rest Lo Hi c.1 .NoClass Lo1 Hi
            (by rw [hu]; exact hal) (by rw [hu, hclassify]; simp [hlow]) hm
            (by cases Hi <;> first | rfl | simp [isRegisterOrNoClass] at hHi)
            ⟨by cases Lo1 <;> simp [isRegisterOrNoClass] at hreg ⊢,
              by cases Hi <;> simp [isRegisterOrNoClass] at hHi ⊢⟩]
          exact h5
      · obtain ⟨Hi1, hm, hreg⟩ := merge_register Hi c.1 hHi hcreg.1
        obtain ⟨Lo2, Hi2, h1, h2, h3, h4, h5⟩ :=
          classifyFields_scalars rest Lo Hi1 hrest hlrest hLo hreg
        refine ⟨Lo2, Hi2, h1, h2, ?_, ?_, ?_⟩
        · have : lowClasses (.cons type fieldOffset none rest) = lowClasses rest := by
            simp [lowClasses, hcls, hlow]
          rw [this]; exact h3
        · have : highClasses (.cons type fieldOffset none rest) =
              c.1 :: highClasses rest := by
            simp [highClasses, hcls, hlow]
          rw [this, mergeFrom_cons Hi c.1 Hi1 _ hHiM hm]; exact h4
        · rw [classifyFields_cons_member type fieldOffset rest Lo Hi .NoClass c.1 Lo Hi1
            (by rw [hu]; exact hal) (by rw [hu, hclassify]; simp [hlow])
            (by cases Lo <;> first | rfl | simp [isRegisterOrNoClass] at hLo) hm
            ⟨by cases Lo <;> simp [isRegisterOrNoClass] at hLo ⊢,
              by cases Hi1 <;> simp [isRegisterOrNoClass] at hreg ⊢⟩]
          exact h5
    · rw [hld] at hnl
      cases hnl

theorem mergeFrom_X87Up_atZero :
    ∀ fields : FieldList, scalarMembers fields = true → membersAtZero fields = true →
      mergeFrom .X87Up (highClasses fields) = .ok .X87Up
  | .nil, _, _ => rfl
  | .cons type fieldOffset bitWidth rest, hs, hz => by
    simp only [scalarMembers, Bool.and_eq_true, decide_eq_true_eq, Option.isNone_iff_eq_none,
      Option.isSome_iff_exists] at hs
    obtain ⟨⟨⟨⟨_, c, hcls⟩, _⟩, _⟩, hrest⟩ := hs
    simp only [membersAtZero, Bool.and_eq_true, decide_eq_true_eq] at hz
    obtain ⟨h0, hzrest⟩ := hz
    subst h0
    have ih := mergeFrom_X87Up_atZero rest hrest hzrest
    rcases scalarClasses_cases type c hcls with ⟨hc, _, _⟩ | ⟨hc, _, _⟩
    · have : highClasses (.cons type 0 bitWidth rest) = highClasses rest := by
        rcases hc with h | h <;> subst h <;> simp [highClasses, hcls]
      rw [this]; exact ih
    · subst hc
      have : highClasses (.cons type 0 bitWidth rest) = .X87Up :: highClasses rest := by
        simp [highClasses, hcls]
      rw [this, mergeFrom_cons .X87Up .X87Up .X87Up _ (by decide) rfl]; exact ih

theorem classifyFields_atZero :
    ∀ (fields : FieldList) (Lo Hi : Class), scalarMembers fields = true →
      membersAtZero fields = true →
      (Lo = .NoClass ∨ Lo = .Integer ∨ Lo = .SSE ∨ Lo = .X87) →
      (Hi = .NoClass ∨ Hi = .X87Up) →
      ∃ Lo1 Hi1 : Class, (Hi1 = .NoClass ∨ Hi1 = .X87Up) ∧
        mergeFrom Lo (lowClasses fields) = .ok Lo1 ∧
        mergeFrom Hi (highClasses fields) = .ok Hi1 ∧
        classifyFields fields 0 Lo Hi = .ok (false, Lo1, Hi1)
  | .nil, Lo, Hi, _, _, _, hHi => ⟨Lo, Hi, hHi, rfl, rfl, rfl⟩
  | .cons type fieldOffset bitWidth rest, Lo, Hi, hs, hz, hLo, hHi => by
    have hsrest : scalarMembers rest = true := by
      simp only [scalarMembers, Bool.and_eq_true] at hs
      exact hs.2
    simp only [scalarMembers, Bool.and_eq_true, decide_eq_true_eq, Option.isNone_iff_eq_none,
      Option.isSome_iff_exists] at hs
    obtain ⟨⟨⟨⟨hbw, c, hcls⟩, _⟩, hal⟩, _⟩ := hs
    subst hbw
    simp only [membersAtZero, Bool.and_eq_true, decide_eq_true_eq] at hz
    obtain ⟨h0, hzrest⟩ := hz
    subst h0
    have hu : u64 0 = 0 := rfl
    have hLoM : Lo ≠ .Memory := by
      rcases hLo with h | h | h | h <;> subst h <;> decide
    have hHiM : Hi ≠ .Memory := by
      rcases hHi with h | h <;> subst h <;> decide
    rcases scalarClasses_cases type c hcls with ⟨hc, _, hclassify⟩ | ⟨hc, _, hclassify⟩
    · have hlowc : lowClasses (.cons type 0 none rest) = c.1 :: lowClasses rest := by
        simp [lowClasses, hcls]
      have hhighc : highClasses (.cons type 0 none rest) = highClasses rest := by
        rcases hc with h | h <;> subst h <;> simp [highClasses, hcls]
      have hmLo : ∃ Lo1, merge Lo c.1 = .ok Lo1 ∧ (Lo1 = .Integer ∨ Lo1 = .SSE) := by
        rcases hc with h | h <;> subst h <;> rcases hLo with h | h | h | h <;> subst h <;>
          first
          | exact ⟨.Integer, rfl, Or.inl rfl⟩
          | exact ⟨.SSE, rfl, Or.inr rfl⟩
      obtain ⟨Lo1, hm, hLo1⟩ := hmLo
      have hmHi : merge Hi .NoClass = .ok Hi := by
        rcases hHi with h | h <;> subst h <;> rfl
      obtain ⟨Lo2, Hi2, h1, h3, h4, h5⟩ :=
        classifyFields_atZero rest Lo1 Hi hsrest hzrest
          (by rcases hLo1 with h | h <;> subst h <;> simp) hHi
      refine ⟨Lo2, Hi2, h1, ?_, ?_, ?_⟩
      · rw [hlowc, mergeFrom_cons Lo c.1 Lo1 _ hLoM hm]; exact h3
      · rw [hhighc]; exact h4
      · rw [classifyFields_cons_member type 0 rest Lo Hi c.1 .NoClass Lo1 Hi
          (by rw [hu]; exact hal) (by rw [hu, hclassify]; simp) hm hmHi
          ⟨by rcases hLo1 with h | h <;> subst h <;> decide, hHiM⟩]
        exact h5
    · subst hc
      have hlowc : lowClasses (.cons type 0 none rest) = .X87 :: lowClasses rest := by
        simp [lowClasses, hcls]
      have hhighc : highClasses (.cons type 0 none rest) = .X87Up :: highClasses rest := by
        simp [highClasses, hcls]
      have hmHi : merge Hi .X87Up = .ok .X87Up := by
        rcases hHi with h | h <;> subst h <;> rfl
      by_cases hsse : Lo = .SSE
      · subst hsse
        refine ⟨.Memory, .X87Up, Or.inr rfl, ?_, ?_, ?_⟩
        · rw [hlowc, mergeFrom_cons .SSE .X87 .Memory _ hLoM rfl]
          exact mergeFrom_Memory _
        · rw [hhighc, mergeFrom_cons Hi .X87Up .X87Up _ hHiM hmHi]
          exact mergeFrom_X87Up_atZero rest hsrest hzrest
        · exact classifyFields_cons_break type 0 rest .SSE Hi .X87 .X87Up .Memory .X87Up
            (by rw [hu]; exact hal) (by rw [hu, hclassify]) rfl hmHi (Or.inl rfl)
      · have hmLo : ∃ Lo1, merge Lo .X87 = .ok Lo1 ∧ (Lo1 = .Integer ∨ Lo1 = .X87) := by
          rcases hLo with h | h | h | h <;> subst h <;>
            first
            | exact absurd rfl hsse
            | exact ⟨.Integer, rfl, Or.inl rfl⟩
            | exact ⟨.X87, rfl, Or.inr rfl⟩
        obtain ⟨Lo1, hm, hLo1⟩ := hmLo
        obtain ⟨Lo2, Hi2, h1, h3, h4, h5⟩ :=
          classifyFields_atZero rest Lo1 .X87Up hsrest hzrest
            (by rcases hLo1 with h | h <;> subst h <;> simp) (Or.inr rfl)
        refine ⟨Lo2, Hi2, h1, ?_, ?_, ?_⟩
        · rw [hlowc, mergeFrom_cons Lo .X87 Lo1 _ hLoM hm]; exact h3
        · rw [hhighc, mergeFrom_cons Hi .X87Up .X87Up _ hHiM hmHi]; exact h4
        · rw [classifyFields_cons_member type 0 rest Lo Hi .X87 .X87Up Lo1 .X87Up
            (by rw [hu]; exact hal) (by rw [hu, hclassify]) hm hmHi
            ⟨by rcases hLo1 with h | h <;> subst h <;> decide, by decide⟩]
          exact h5

theorem classifyFields_misaligned :
    ∀ (fields : FieldList) (Lo Hi : Class) (r : Bool × Class × Class),
      hasMisalignedMember fields = true → classifyFields fields 0 Lo Hi = .ok r →
      (r.1 = true ∧ r.2.1 = .Memory) ∨
        (r.1 = false ∧ (r.2.1 = .Memory ∨ r.2.2 = .Memory))
  | .nil, _, _, _, h, _ => by simp [hasMisalignedMember] at h
  | .cons type fieldOffset bitWidth rest, Lo, Hi, r, h, hr => by
    by_cases hhead : bitWidth.isNone = true ∧ u64 fieldOffset % getTypeAlign type ≠ 0
    · cases bitWidth <;> rw [classifyFields] at hr <;> simp only [Nat.zero_add] at hr
      · rw [if_pos hhead] at hr
        cases hr
        exact Or.inl ⟨rfl, rfl⟩
      · simp at hhead
    · have hrest : hasMisalignedMember rest = true := by
        simp only [hasMisalignedMember, Bool.or_eq_true, Bool.and_eq_true,
          decide_eq_true_eq] at h
        rcases h with h | h
        · exact absurd h hhead
        · exact h
      cases bitWidth <;> rw [classifyFields] at hr <;>
        simp only [Nat.zero_add, if_neg hhead, bind, Except.bind] at hr
      all_goals
        split at hr
        · cases hr
        · split at hr
          · cases hr
          · split at hr
            · cases hr
            · split_ifs at hr with hmem
              · cases hr
                exact Or.inr ⟨rfl, hmem⟩
              · exact classifyFields_misaligned rest _ _ r hrest hr

/-- A record with a misaligned non-bit-field member: whenever `classify` returns a pair for
it at offset 0, the low class of the pair is `Memory`. -/
theorem classify_misaligned (isUnion hasFlexibleArrayMember : Bool) (fields : FieldList)
    (Size align : Nat) (Lo Hi : Class) (h : hasMisalignedMember fields = true)
    (hc : classify (.record isUnion hasFlexibleArrayMember fields Size align) 0 =
      .ok (Lo, Hi)) :
    Lo = .Memory := by
  rw [classify] at hc
  split_ifs at hc with h1 h2
  · cases hc; rfl
  · cases hc; rfl
  · simp only [bind, Except.bind] at hc
    split at hc
    · cases hc
    · rename_i r hr
      have := classifyFields_misaligned fields _ _ r h hr
      obtain ⟨ret, Lo1, Hi1⟩ := r
      rcases this with ⟨h1, h2⟩ | ⟨h1, h2⟩
      · simp only at h1 h2
        subst h1 h2
        simp only [if_true, pure, Except.pure, Except.ok.injEq, Prod.mk.injEq] at hc
        exact hc.1.symm
      · simp only at h1 h2
        subst h1
        simp only [Bool.false_eq_true, if_false, pure, Except.pure, Except.ok.injEq,
          Prod.mk.injEq] at hc
        rcases h2 with h2 | h2
        · rw [← hc.1]; simp [h2]
        · rw [← hc.1]; simp [h2]

end X86_64ABIInfo

/-! ## Properties of the x86-64 eightbyte classification -/

namespace X86_64ABIInfo

/-- C11 (x86-64 record folding): for every record of at most 128 bits, without flexible
array member, whose members are all naturally aligned non-bit-field scalars (integer,
enumeration, pointer or pointer-like, `float`, `double`, `long double`), in a layout
where a `long double` member starts at bit 0 together with every other member,
`classify` at offset 0 returns `Lo` equal to the merge, starting from `NoClass`, of the
classes the members lying in bits 0..63 have there, and `Hi` equal to the merge of the
classes the members lying in bits 64..127 have there (`NoClass` when there is none); a
`long double` lies in both, with `X87` and `X87Up`. In particular
`struct { double a, b; }` classifies `(SSE, SSE)`, `struct { char c; }` classifies
`(Integer, NoClass)` and `struct { long double x; }` classifies `(X87, X87Up)`. -/
theorem C11_record_folding (isUnion : Bool) (fields : FieldList) (Size align : Nat)
    (hSize : Size ≤ 128) (hs : scalarMembers fields = true)
    (hz : hasLongDoubleMember fields = true → membersAtZero fields = true) :
    (∃ Lo Hi : Class,
      mergeFrom .NoClass (lowClasses fields) = .ok Lo ∧
      mergeFrom .NoClass (highClasses fields) = .ok Hi ∧
      classify (.record isUnion false fields Size align) 0 = .ok (Lo, Hi)) ∧
    classify Example.StructDoubleDouble 0 = .ok (.SSE, .SSE) ∧
    classify Example.StructChar 0 = .ok (.Integer, .NoClass) ∧
    classify Example.StructLongDoubleOnly 0 = .ok (.X87, .X87Up) := by
  refine ⟨?_, rfl, rfl, rfl⟩
  have hstart : setCurrent 0 (initial 0) .NoClass = (.NoClass, .NoClass) := rfl
  cases hl : hasLongDoubleMember fields with
  | false =>
    obtain ⟨Lo, Hi, _, hHi, hlow, hhigh, hloop⟩ :=
      classifyFields_scalars fields .NoClass .NoClass hs hl rfl rfl
    refine ⟨Lo, Hi, hlow, hhigh, ?_⟩
    rw [classify]
    simp only [show ¬ Size > 128 by omega, if_false, Bool.false_eq_true, hstart, hloop, bind,
      Except.bind, pure, Except.pure]
    cases Hi <;> simp [isRegisterOrNoClass] at hHi ⊢
  | true =>
    obtain ⟨Lo, Hi, hHi, hlow, hhigh, hloop⟩ :=
      classifyFields_atZero fields .NoClass .NoClass hs (hz hl) (Or.inl rfl) (Or.inl rfl)
    refine ⟨Lo, Hi, hlow, hhigh, ?_⟩
    rw [classify]
    simp only [show ¬ Size > 128 by omega, if_false, Bool.false_eq_true, hstart, hloop, bind,
      Except.bind, pure, Except.pure]
    rcases hHi with h | h <;> subst h <;> simp

/-- C11 at `struct { float f; int i; long p; }`, where the low eightbyte merges `SSE` and
`Integer` to `Integer` and the high eightbyte holds `Integer`, and at
`union { double d; long double ld; }`, where the low eightbyte merges `SSE` and `X87` to
`Memory` and the high eightbyte holds `X87Up`. -/
theorem C11_record_folding_witness :
    (mergeFrom .NoClass [.SSE, .Integer] = .ok .Integer ∧
      mergeFrom .NoClass [.Integer] = .ok .Integer ∧
      ∃ Lo Hi : Class,
        mergeFrom .NoClass (lowClasses (.cons Example.FloatTy 0 none
          (.cons Example.IntTy 32 none (.cons Example.LongTy 64 none .nil)))) = .ok Lo ∧
        mergeFrom .NoClass (highClasses (.cons Example.FloatTy 0 none
          (.cons Example.IntTy 32 none (.cons Example.LongTy 64 none .nil)))) = .ok Hi ∧
        classify Example.StructFloatIntLong 0 = .ok (Lo, Hi)) ∧
    (mergeFrom .NoClass [.SSE, .X87] = .ok .Memory ∧
      mergeFrom .NoClass [.X87Up] = .ok .X87Up ∧
      ∃ Lo Hi : Class,
        mergeFrom .NoClass (lowClasses (.cons Example.DoubleTy 0 none
          (.cons Example.LongDoubleTy 0 none .nil))) = .ok Lo ∧
        mergeFrom .NoClass (highClasses (.cons Example.DoubleTy 0 none
          (.cons Example.LongDoubleTy 0 none .nil))) = .ok Hi ∧
        classify Example.UnionDoubleLongDouble 0 = .ok (Lo, Hi)) :=
  ⟨⟨rfl, rfl,
    (C11_record_folding false
      (.cons Example.FloatTy 0 none (.cons Example.IntTy 32 none
        (.cons Example.LongTy 64 none .nil))) 128 64 (by decide) rfl
      (fun h => nomatch h)).1⟩,
   ⟨rfl, rfl,
    (C11_record_folding true
      (.cons Example.DoubleTy 0 none (.cons Example.LongDoubleTy 0 none .nil)) 128 128
      (by decide) rfl (fun _ => rfl)).1⟩⟩

/-- C12 (x86-64 misaligned member), evaluated at a record for which the code does not
reach `Indirect`: `struct __attribute__((packed)) { float4 v; float8 w[0]; }` has the
misaligned member `w`; `classify` returns `Lo = Memory`, but with `Hi = SSEUp` left by
the early return, so that `classifyArgumentType` and `classifyReturnType` abort on the
assertion "Invalid SSEUp classification." instead of returning `Indirect`. -/
theorem C12_misaligned_member_aborts :
    hasMisalignedMember (.cons Example.Float4Ty 0 none
      (.cons (.constantArray Example.Float8Ty 0 0 256) 128 none .nil)) = true ∧
    (∃ Hi : Class, classify Example.PackedVectorRecord 0 = .ok (.Memory, Hi) ∧
      Hi = .SSEUp) ∧
    classifyArgumentType Example.PackedVectorRecord = .error .invalidSSEUp ∧
    classifyReturnType Example.PackedVectorRecord = .error .invalidSSEUp :=
  ⟨rfl, ⟨.SSEUp, rfl, rfl⟩, rfl, rfl⟩

/-- C13 (commutativity of the merge), evaluated where it fails: `merge(SSE, X87)` is
`Memory` but `merge(X87, SSE)` is `SSE`, both calls being accepted. The two orders occur
for `union { double d; long double ld; }`, passed in memory, and for
`union { long double ld; double d; }`, passed in two SSE registers. -/
theorem C13_merge_not_commutative :
    merge .SSE .X87 = .ok .Memory ∧ merge .X87 .SSE = .ok .SSE ∧
    classify Example.UnionDoubleLongDouble 0 = .ok (.Memory, .X87Up) ∧
    classify Example.UnionLongDoubleDouble 0 = .ok (.SSE, .X87Up) ∧
    classifyArgumentType Example.UnionDoubleLongDouble = .ok (.Indirect 0, 0, 0) ∧
    classifyArgumentType Example.UnionLongDoubleDouble =
      .ok (.Coerce (.StructTy [.DoubleTy, .DoubleTy] false), 0, 2) :=
  ⟨rfl, rfl, rfl, rfl, rfl, rfl⟩

/-- C14 (identity and idempotence of the merge): for every class `c` accepted as
accumulator (neither `Memory` nor `ComplexX87`), `merge(c, NoClass) = c` and
`merge(c, c) = c`; and for every class `f`, `merge(NoClass, f) = f`. -/
theorem C14_merge_identity (c : Class) (h1 : c ≠ .Memory) (h2 : c ≠ .ComplexX87) :
    merge c .NoClass = .ok c ∧ merge c c = .ok c ∧
    ∀ f : Class, merge .NoClass f = .ok f := by
  refine ⟨?_, ?_, ?_⟩
  · cases c <;> first | rfl | simp at h1 h2
  · cases c <;> first | rfl | simp at h1 h2
  · intro f; cases f <;> rfl

/-- C14 at the accumulator `X87Up`. -/
theorem C14_merge_identity_witness :
    (Class.X87Up ≠ Class.Memory ∧ Class.X87Up ≠ Class.ComplexX87) ∧
    merge .X87Up .NoClass = .ok .X87Up ∧ merge .X87Up .X87Up = .ok .X87Up ∧
    ∀ f : Class, merge .NoClass f = .ok f :=
  ⟨⟨by decide, by decide⟩, C14_merge_identity .X87Up (by decide) (by decide)⟩

/-- C15 (priority rules of the merge read symmetrically), evaluated where the code
departs from them: with an accumulator `X87` or `X87Up` and a field `SSE` or `SSEUp` the
rules give `Memory`, the code gives `SSE`, the test for the x87 classes looking at the
field only. Both `merge(X87, SSE)` and `merge(X87Up, SSE)` occur for
`union { long double ld; struct { double a, b; } s; }`, which comes out `(SSE, SSE)`. -/
theorem C15_merge_priority_asymmetric :
    (merge .X87 .SSE = .ok .SSE ∧ symmetricMerge .X87 .SSE = .Memory) ∧
    (merge .X87 .SSEUp = .ok .SSE ∧ symmetricMerge .X87 .SSEUp = .Memory) ∧
    (merge .X87Up .SSE = .ok .SSE ∧ symmetricMerge .X87Up .SSE = .Memory) ∧
    (merge .X87Up .SSEUp = .ok .SSE ∧ symmetricMerge .X87Up .SSEUp = .Memory) ∧
    classify Example.UnionLongDoubleStruct 0 = .ok (.SSE, .SSE) :=
  ⟨⟨rfl, rfl⟩, ⟨rfl, rfl⟩, ⟨rfl, rfl⟩, ⟨rfl, rfl⟩, rfl⟩

/-- C16 (x86-64 scalar classification): at every bit offset `o`, `classify` of an
integer (`bool` through `long long`), enumeration or pointer type puts `Integer`, and of
`float` or `double` puts `SSE`, in the eightbyte containing `o` (`Lo` when `o < 64`, `Hi`
otherwise) and `NoClass` in the other; `classify` of `void` is `(NoClass, NoClass)`; and
an enumeration type classifies exactly as its integer type. -/
theorem C16_scalar_classification (T : QualType) (o : Nat) :
    (isIntegerEnumOrPointer T = true →
      classify T o = .ok (if o < 64 then (.Integer, .NoClass) else (.NoClass, .Integer))) ∧
    (isFloatOrDouble T = true →
      classify T o = .ok (if o < 64 then (.SSE, .NoClass) else (.NoClass, .SSE))) ∧
    (isVoidType T = true → classify T o = .ok (.NoClass, .NoClass)) ∧
    (∀ U : QualType, T = .enumTy U → classify T o = classify U o) := by
  refine ⟨?_, ?_, ?_, ?_⟩
  · intro h
    rw [classify_integerEnumOrPointer_at T o h, setCurrent_initial]
  · intro h
    rw [classify_floatOrDouble_at T o h, setCurrent_initial]
  · intro h
    match T, h with
    | .builtin k _ _, h =>
      cases k <;> simp [isVoidType, isSpecificBuiltinType] at h
      show Except.ok (setCurrent o (initial o) .NoClass) = _
      rw [setCurrent_initial]; simp
  · intro U hU
    subst hU
    rw [classify]

/-- C16 at `int` placed at bit offset 96, at `float` placed at bit offset 32, at `void`
and at an enumeration over `int`. -/
theorem C16_scalar_classification_witness :
    classify Example.IntTy 96 = .ok (.NoClass, .Integer) ∧
    classify Example.FloatTy 32 = .ok (.SSE, .NoClass) ∧
    classify Example.VoidTy 64 = .ok (.NoClass, .NoClass) ∧
    classify (.enumTy Example.IntTy) 8 = classify Example.IntTy 8 :=
  ⟨(C16_scalar_classification Example.IntTy 96).1 rfl,
    (C16_scalar_classification Example.FloatTy 32).2.1 rfl,
    (C16_scalar_classification Example.VoidTy 64).2.2.1 rfl,
    (C16_scalar_classification (.enumTy Example.IntTy) 8).2.2.2 Example.IntTy rfl⟩

/-- C17 (x86-64 short-vector classification at offset 0): a 32-bit vector is
`(Integer, NoClass)`; a 64-bit vector is `(Memory, NoClass)` when its element type is
`double`, `(Integer, NoClass)` when its element type is `long long`, and `(SSE, NoClass)`
otherwise; a 128-bit vector is `(SSE, SSEUp)`; a vector of any other width is
`(Memory, NoClass)` and is `Indirect` both as argument and as return value. -/
theorem C17_vector_classification (elementType : QualType) (Size align : Nat) :
    (Size = 32 → classify (.vector elementType Size align) 0 = .ok (.Integer, .NoClass)) ∧
    (Size = 64 → isSpecificBuiltinType elementType .Double = true →
      classify (.vector elementType Size align) 0 = .ok (.Memory, .NoClass)) ∧
    (Size = 64 → isSpecificBuiltinType elementType .LongLong = true →
      classify (.vector elementType Size align) 0 = .ok (.Integer, .NoClass)) ∧
    (Size = 64 → isSpecificBuiltinType elementType .Double = false →
      isSpecificBuiltinType elementType .LongLong = false →
      classify (.vector elementType Size align) 0 = .ok (.SSE, .NoClass)) ∧
    (Size = 128 → classify (.vector elementType Size align) 0 = .ok (.SSE, .SSEUp)) ∧
    (Size ≠ 32 → Size ≠ 64 → Size ≠ 128 →
      classify (.vector elementType Size align) 0 = .ok (.Memory, .NoClass) ∧
      classifyArgumentType (.vector elementType Size align) = .ok (.Indirect 0, 0, 0) ∧
      classifyReturnType (.vector elementType Size align) = .ok (.Indirect 0)) := by
  refine ⟨?_, ?_, ?_, ?_, ?_, ?_⟩
  · intro h; subst h; rfl
  · intro h hd; subst h
    simp [classify, classifyVector, hd]; rfl
  · intro h hl; subst h
    have hd : isSpecificBuiltinType elementType .Double = false := by
      cases elementType <;> simp_all [isSpecificBuiltinType]
    simp [classify, classifyVector, hd, hl]; rfl
  · intro h hd hl; subst h
    simp [classify, classifyVector, hd, hl]; rfl
  · intro h; subst h; rfl
  · intro h1 h2 h3
    have hc : classify (.vector elementType Size align) 0 = .ok (.Memory, .NoClass) := by
      simp [classify, classifyVector, h1, h2, h3]; rfl
    exact ⟨hc, (classify_memory_indirect _ hc).2, (classify_memory_indirect _ hc).1⟩

/-- C17 at a vector of two floats (64 bits), at a vector of one `double`, and at the
256-bit vector of eight floats. -/
theorem C17_vector_classification_witness :
    classify (.vector Example.FloatTy 64 64) 0 = .ok (.SSE, .NoClass) ∧
    classify (.vector Example.DoubleTy 64 64) 0 = .ok (.Memory, .NoClass) ∧
    (classify Example.Float8Ty 0 = .ok (.Memory, .NoClass) ∧
      classifyArgumentType Example.Float8Ty = .ok (.Indirect 0, 0, 0) ∧
      classifyReturnType Example.Float8Ty = .ok (.Indirect 0)) :=
  ⟨(C17_vector_classification Example.FloatTy 64 64).2.2.2.1 rfl rfl rfl,
    (C17_vector_classification Example.DoubleTy 64 64).2.1 rfl rfl,
    (C17_vector_classification Example.FloatTy 256 256).2.2.2.2.2
      (by decide) (by decide) (by decide)⟩

end X86_64ABIInfo

/-! ## Properties of the coercions and of the 32-bit x86 return classifier -/

/-- C18 (Coerce never loses bits), evaluated at two types for which the classifiers yield
a physical type smaller than the type. On x86-64
`struct { long a; } __attribute__((aligned(16)))` (16 bytes) is coerced to a 64-bit
integer (8 bytes) as argument and as return value; `CreateCoercedLoad` from 16 bytes to 8
fails on "Coercion is losing source bits!" and `CreateCoercedStore` from 8 bytes to 16 on
"Coercion is missing bits!". On 32-bit x86 (Darwin)
`struct { char c; } __attribute__((aligned(4)))` (4 bytes) is returned coerced to an
8-bit integer (1 byte). -/
theorem C18_coerce_smaller_than_type :
    (X86_64ABIInfo.classifyArgumentType Example.OverAlignedLong =
        .ok (.Coerce (.IntegerTy 64), 1, 0) ∧
      X86_64ABIInfo.classifyReturnType Example.OverAlignedLong =
        .ok (.Coerce (.IntegerTy 64)) ∧
      getTypePaddedSize (.IntegerTy 64) = some 8 ∧
      getTypeStorageSize Example.OverAlignedLong = 16 ∧
      CreateCoercedLoad (List.replicate 16 (some 0)) 8 = .error .coercionLosingSourceBits ∧
      CreateCoercedStore (List.replicate 8 (some 0)) 16 = .error .coercionMissingBits) ∧
    (X86_32ABIInfo.classifyReturnType true Example.OverAlignedChar =
        .Coerce (.IntegerTy 8) ∧
      getTypePaddedSize (.IntegerTy 8) = some 1 ∧
      getTypeStorageSize Example.OverAlignedChar = 4 ∧
      CreateCoercedLoad (List.replicate 4 (some 0)) 1 = .error .coercionLosingSourceBits ∧
      CreateCoercedStore (List.replicate 1 (some 0)) 4 = .error .coercionMissingBits) :=
  ⟨⟨rfl, rfl, rfl, rfl, rfl, rfl⟩, ⟨rfl, rfl, rfl, rfl, rfl⟩⟩

namespace X86_32ABIInfo

/-- C19 as stated fails: outside of Darwin `struct { int x; }`, which collapses to its
single field `x`, is returned `Indirect`, not coerced to the field's physical type. -/
theorem C19_counterexample :
    hasAggregateLLVMType Example.StructInt = true ∧
    isSingleElementStruct Example.StructInt = some Example.IntTy ∧
    classifyReturnType false Example.StructInt = .Indirect 0 ∧
    ¬ ∃ P : LLVMType, classifyReturnType false Example.StructInt = .Coerce P := by
  have h : classifyReturnType false Example.StructInt = .Indirect 0 := rfl
  rw [h]
  exact ⟨rfl, rfl, rfl, by simp⟩

/-- C19, amended (32-bit x86 return outside of Darwin): every aggregate return type other
than a complex type is `Indirect` with alignment 0, whether or not it collapses to a
single non-empty scalar field. -/
theorem C19_non_darwin_aggregate_indirect (RetTy : QualType)
    (hagg : hasAggregateLLVMType RetTy = true) (hnc : isAnyComplexType RetTy = false) :
    classifyReturnType false RetTy = .Indirect 0 := by
  have hv : isVoidType RetTy = false := by
    simp only [hasAggregateLLVMType, Bool.and_eq_true, Bool.not_eq_true'] at hagg
    exact hagg.1.2
  simp [classifyReturnType, hv, hagg, hnc]

/-- C19, amended, at `struct { double d; }`. -/
theorem C19_non_darwin_aggregate_indirect_witness :
    hasAggregateLLVMType Example.StructDouble = true ∧
    isAnyComplexType Example.StructDouble = false ∧
    classifyReturnType false Example.StructDouble = .Indirect 0 :=
  ⟨rfl, rfl, C19_non_darwin_aggregate_indirect Example.StructDouble rfl rfl⟩

/-- C20 (32-bit x86 return decision on Darwin, and for complex types on every system):
`void` is `Ignore`; a non-aggregate is `Direct`; an aggregate for which
`isSingleElementStruct` finds a field of builtin integer, `float`, `double` or pointer
type is `Coerce` to an integer of that field's bit width, to float, to double or to a byte
pointer respectively; any other aggregate is `Coerce` to i8, i16, i32 or i64 when its size
is exactly 8, 16, 32 or 64 bits and `Indirect` with alignment 0 for every other size. -/
theorem C20_darwin_return_decision (IsDarwin : Bool) (RetTy : QualType) :
    (isVoidType RetTy = true → classifyReturnType IsDarwin RetTy = .Ignore) ∧
    (isVoidType RetTy = false → hasAggregateLLVMType RetTy = false →
      classifyReturnType IsDarwin RetTy = .Direct) ∧
    (hasAggregateLLVMType RetTy = true →
      (IsDarwin = true ∨ isAnyComplexType RetTy = true) →
      ∀ (F : QualType) (P : LLVMType), isSingleElementStruct RetTy = some F →
        elementCoercion F = some P → getTypeSize F < 4294967296 →
        classifyReturnType IsDarwin RetTy = .Coerce P) ∧
    (hasAggregateLLVMType RetTy = true →
      (IsDarwin = true ∨ isAnyComplexType RetTy = true) →
      (∀ F : QualType, isSingleElementStruct RetTy = some F → elementCoercion F = none) →
      classifyReturnType IsDarwin RetTy = sizeCoercion (getTypeSize RetTy)) := by
  refine ⟨?_, ?_, ?_, ?_⟩
  · intro hv; simp [classifyReturnType, hv]
  · intro hv ha; simp [classifyReturnType, hv, ha]
  · intro ha hd F P hF hP hsz
    have hv : isVoidType RetTy = false := by
      simp only [hasAggregateLLVMType, Bool.and_eq_true, Bool.not_eq_true'] at ha
      exact ha.1.2
    have hguard : (!IsDarwin && !isAnyComplexType RetTy) = false := by
      rcases hd with h | h <;> simp [h]
    simp only [classifyReturnType, hv, ha, hguard, hF, Bool.false_eq_true, if_false, if_true]
    cases F with
    | builtin k size align =>
      simp only [elementCoercion] at hP
      split_ifs at hP with h1 h2 h3
      · cases hP
        simp only [getTypeSize] at hsz
        simp [h1, getTypeSize, Nat.mod_eq_of_lt hsz]
      · cases hP; subst h2; simp [kindValue]
      · cases hP; subst h3; simp [kindValue]
    | pointer size align =>
      simp only [elementCoercion, Option.some.injEq] at hP
      subst hP; rfl
    | _ => simp [elementCoercion] at hP
  · intro ha hd hF
    have hv : isVoidType RetTy = false := by
      simp only [hasAggregateLLVMType, Bool.and_eq_true, Bool.not_eq_true'] at ha
      exact ha.1.2
    have hguard : (!IsDarwin && !isAnyComplexType RetTy) = false := by
      rcases hd with h | h <;> simp [h]
    simp only [classifyReturnType, hv, ha, hguard, Bool.false_eq_true, if_false, if_true]
    cases hS : isSingleElementStruct RetTy with
    | none => rfl
    | some F =>
      have hE := hF F hS
      cases F with
      | builtin k size align =>
        simp only [elementCoercion] at hE
        split_ifs at hE with h1 h2 h3
        simp [h1, h2, h3, sizeCoercion]
      | pointer size align => simp [elementCoercion] at hE
      | _ => rfl

/-- C20 on Darwin at `void`, `int`, `struct { int x; }`, `struct { double d; }`,
`struct { char *p; }`, `struct { short a, b; }` (32 bits, two fields) and
`struct { char c[3]; }` (24 bits), and outside of Darwin at `_Complex float`
(64 bits). -/
theorem C20_darwin_return_decision_witness :
    classifyReturnType true Example.VoidTy = .Ignore ∧
    classifyReturnType true Example.IntTy = .Direct ∧
    classifyReturnType true Example.StructInt = .Coerce (.IntegerTy 32) ∧
    classifyReturnType true Example.StructDouble = .Coerce .DoubleTy ∧
    classifyReturnType true Example.StructPointer = .Coerce (.PointerTy (.IntegerTy 8)) ∧
    classifyReturnType true Example.StructShortShort = .Coerce (.IntegerTy 32) ∧
    classifyReturnType true Example.StructCharArray = .Indirect 0 ∧
    classifyReturnType false Example.ComplexFloatTy = .Coerce (.IntegerTy 64) :=
  ⟨(C20_darwin_return_decision true Example.VoidTy).1 rfl,
    (C20_darwin_return_decision true Example.IntTy).2.1 rfl rfl,
    (C20_darwin_return_decision true Example.StructInt).2.2.1 rfl (Or.inl rfl)
      Example.IntTy (.IntegerTy 32) rfl rfl (by decide),
    (C20_darwin_return_decision true Example.StructDouble).2.2.1 rfl (Or.inl rfl)
      (.builtin .Double 64 32) .DoubleTy rfl rfl (by decide),
    (C20_darwin_return_decision true Example.StructPointer).2.2.1 rfl (Or.inl rfl)
      (.pointer 32 32) (.PointerTy (.IntegerTy 8)) rfl rfl (by decide),
    (C20_darwin_return_decision true Example.StructShortShort).2.2.2 rfl (Or.inl rfl)
      (fun F h => by
        have h0 : isSingleElementStruct Example.StructShortShort = none := rfl
        rw [h0] at h; cases h),
    (C20_darwin_return_decision true Example.StructCharArray).2.2.2 rfl (Or.inl rfl)
      (fun F h => by
        have h0 : isSingleElementStruct Example.StructCharArray = none := rfl
        rw [h0] at h; cases h),
    (C20_darwin_return_decision false Example.ComplexFloatTy).2.2.2 rfl (Or.inr rfl)
      (fun F h => by
        have h0 : isSingleElementStruct Example.ComplexFloatTy = none := rfl
        rw [h0] at h; cases h)⟩

end X86_32ABIInfo


/-! ## Auxiliary lemmas on the 32-bit x86 argument classifier and on the expansion -/

theorem hasAggregateLLVMType_record (isUnion hasFlexibleArrayMember : Bool)
    (fields : FieldList) (size align : Nat) :
    hasAggregateLLVMType (.record isUnion hasFlexibleArrayMember fields size align) = true :=
  rfl

theorem areAllFields_eq_fieldsAre32Or64BitScalars :
    ∀ fields : FieldList,
      areAllFields32Or64BitBasicType fields = fieldsAre32Or64BitScalars fields
  | .nil => rfl
  | .cons FT fieldOffset bitWidth rest => by
    have ih := areAllFields_eq_fieldsAre32Or64BitScalars rest
    unfold areAllFields32Or64BitBasicType fieldsAre32Or64BitScalars
    rw [ih]
    cases bitWidth <;> cases h1 : isBuiltinType FT <;> cases h2 : isPointerType FT <;>
      simp [is32Or64BitBasicType, h1, h2]

namespace X86_32ABIInfo

theorem classifyArgumentType_structure (fields : FieldList) (size align : Nat) :
    classifyArgumentType (.record false false fields size align) =
      if size = 0 then .Ignore
      else if size ≤ 128 ∧ fieldsAre32Or64BitScalars fields = true then .Expand
      else .Indirect 0 := by
  simp only [classifyArgumentType, hasAggregateLLVMType_record, getAsStructureType,
    getTypeSize, areAllFields_eq_fieldsAre32Or64BitScalars]
  by_cases h0 : size = 0
  · simp [h0]
  · by_cases h1 : size ≤ 128 <;> cases h2 : fieldsAre32Or64BitScalars fields <;>
      simp [h0, h1, h2]

theorem classifyArgumentType_flexible (fields : FieldList) (size align : Nat) :
    classifyArgumentType (.record false true fields size align) = .Indirect 0 := by
  simp [classifyArgumentType, hasAggregateLLVMType_record, getAsStructureType]

theorem classifyArgumentType_union (hasFlexibleArrayMember : Bool) (fields : FieldList)
    (size align : Nat) :
    classifyArgumentType (.record true hasFlexibleArrayMember fields size align) =
      .Indirect 0 := by
  simp [classifyArgumentType, hasAggregateLLVMType_record, getAsStructureType]

theorem classifyArgumentType_not_record (T : QualType)
    (h : ∀ isUnion hasFlexibleArrayMember fields size align,
      T ≠ .record isUnion hasFlexibleArrayMember fields size align) :
    classifyArgumentType T = if hasAggregateLLVMType T then .Indirect 0 else .Direct := by
  cases T with
  | record isUnion hasFlexibleArrayMember fields size align =>
    exact absurd rfl (h isUnion hasFlexibleArrayMember fields size align)
  | _ => simp [classifyArgumentType, getAsStructureType]

end X86_32ABIInfo

mutual
theorem GetExpandedTypes_of_isExpandable :
    ∀ (T : QualType) (ArgTys : List LLVMType), isExpandable T = true →
      GetExpandedTypes T ArgTys =
        .ok (ArgTys ++ (leafFieldTypes T).map fun FT => .ConvertedTy FT)
  | .record isUnion hasFlexibleArrayMember fields size align, ArgTys, h => by
    simp only [isExpandable, Bool.and_eq_true, Bool.not_eq_true'] at h
    obtain ⟨⟨h1, h2⟩, h3⟩ := h
    subst h1 h2
    have ih := GetExpandedTypesFields_of_isExpandable fields ArgTys h3
    simp only [GetExpandedTypes, leafFieldTypes, assertThat, bind, Except.bind, ih]
    rfl
  | .builtin _ _ _, _, h => by simp [isExpandable] at h
  | .enumTy _, _, h => by simp [isExpandable] at h
  | .pointer _ _, _, h => by simp [isExpandable] at h
  | .pointerLike _ _, _, h => by simp [isExpandable] at h
  | .vector _ _ _, _, h => by simp [isExpandable] at h
  | .complex _ _ _, _, h => by simp [isExpandable] at h
  | .constantArray _ _ _ _, _, h => by simp [isExpandable] at h
  | .other _ _, _, h => by simp [isExpandable] at h
theorem GetExpandedTypesFields_of_isExpandable :
    ∀ (fields : FieldList) (ArgTys : List LLVMType), isExpandableFields fields = true →
      GetExpandedTypesFields fields ArgTys =
        .ok (ArgTys ++ (leafFieldTypesOfFields fields).map fun FT => .ConvertedTy FT)
  | .nil, ArgTys, _ => by simp [GetExpandedTypesFields, leafFieldTypesOfFields, pure, Except.pure]
  | .cons FT fieldOffset bitWidth rest, ArgTys, h => by
    simp only [isExpandableFields, Bool.and_eq_true, Bool.or_eq_true, Bool.not_eq_true',
      Option.isNone_iff_eq_none] at h
    obtain ⟨⟨h1, h2⟩, h3⟩ := h
    subst h1
    cases hagg : hasAggregateLLVMType FT with
    | false =>
      have ih := GetExpandedTypesFields_of_isExpandable rest
        (ArgTys ++ [.ConvertedTy FT]) h3
      simp [GetExpandedTypesFields, leafFieldTypesOfFields, assertThat, bind, Except.bind,
        hagg, ih]
    | true =>
      have hT : isExpandable FT = true := by
        rcases h2 with h2 | h2
        · rw [hagg] at h2; cases h2
        · exact h2
      have ih1 := GetExpandedTypes_of_isExpandable FT ArgTys hT
      have ih2 := GetExpandedTypesFields_of_isExpandable rest
        (ArgTys ++ (leafFieldTypes FT).map fun FT => .ConvertedTy FT) h3
      simp [GetExpandedTypesFields, leafFieldTypesOfFields, assertThat, bind, Except.bind,
        hagg, ih1, ih2]
end

theorem not_aggregate_of_scalar (FT : QualType)
    (h : (isBuiltinType FT || isPointerType FT) = true)
    (hp : (!isSpecificBuiltinType FT .Overload && !isSpecificBuiltinType FT .Dependent)
      = true) :
    hasAggregateLLVMType FT = false := by
  cases FT with
  | builtin k size align =>
    cases k <;>
      first
      | rfl
      | simp [isSpecificBuiltinType] at hp
  | pointer size align => rfl
  | _ => simp [isBuiltinType, isPointerType] at h

theorem isExpandableFields_of_scalars :
    ∀ fields : FieldList, fieldsAre32Or64BitScalars fields = true →
      noPlaceholderField fields = true → isExpandableFields fields = true
  | .nil, _, _ => rfl
  | .cons FT fieldOffset bitWidth rest, h, hp => by
    simp only [fieldsAre32Or64BitScalars, Bool.and_eq_true] at h
    obtain ⟨⟨⟨h1, h2⟩, _⟩, h4⟩ := h
    simp only [noPlaceholderField] at hp
    rw [Bool.and_eq_true] at hp
    have ih := isExpandableFields_of_scalars rest h4 hp.2
    have hagg := not_aggregate_of_scalar FT h2 hp.1
    simp [isExpandableFields, h1, hagg, ih]

/-! ## Properties of the 32-bit x86 and of the ARM argument classifiers -/

namespace X86_32ABIInfo

/-- C21, counterexample: the empty union `union { }` is an aggregate of size 0 without
flexible array member, and `classifyArgumentType` passes it indirectly instead of ignoring
it. -/
theorem C21_counterexample :
    hasAggregateLLVMType Example.EmptyUnion = true ∧
    getTypeSize Example.EmptyUnion = 0 ∧
    Example.EmptyUnion = .record true false .nil 0 8 ∧
    classifyArgumentType Example.EmptyUnion = .Indirect 0 ∧
    classifyArgumentType Example.EmptyUnion ≠ .Ignore := by
  refine ⟨rfl, rfl, rfl, rfl, ?_⟩
  rw [show classifyArgumentType Example.EmptyUnion = .Indirect 0 from rfl]
  simp

/-- C21, as the code has it: `X86_32ABIInfo::classifyArgumentType` yields `Ignore` for
every structure type of size 0 without flexible array member; a union, of size 0 or not,
is passed indirectly (`Indirect` with alignment 0). -/
theorem C21_zero_size_structure_ignored (hasFlexibleArrayMember : Bool)
    (fields : FieldList) (size align : Nat) :
    classifyArgumentType (.record false false fields 0 align) = .Ignore ∧
    classifyArgumentType (.record true hasFlexibleArrayMember fields size align) =
      .Indirect 0 := by
  refine ⟨?_, classifyArgumentType_union hasFlexibleArrayMember fields size align⟩
  rw [classifyArgumentType_structure]
  simp

/-- C22: `X86_32ABIInfo::classifyArgumentType` yields `Expand` exactly for the non-union
structures without flexible array member, of non-zero size at most 128 bits, whose fields
are all non-bit-field builtin or pointer types of 32 or 64 bits. Such a type, when none of
its fields has a placeholder builtin kind, meets every precondition `GetExpandedTypes`
asserts, and `GetExpandedTypes` returns its leaf field types. Every other aggregate of
non-zero size is `Indirect` with alignment 0. -/
theorem C22_expand_iff_expandable_structure (T : QualType) :
    (classifyArgumentType T = .Expand ↔ isExpandableStructure T = true) ∧
    (classifyArgumentType T = .Expand → noPlaceholderField (recordFields T) = true →
      isExpandable T = true ∧
      GetExpandedTypes T [] = .ok ((leafFieldTypes T).map fun FT => .ConvertedTy FT)) ∧
    (hasAggregateLLVMType T = true → getTypeSize T ≠ 0 →
      classifyArgumentType T ≠ .Expand → classifyArgumentType T = .Indirect 0) := by
  have key : classifyArgumentType T = .Expand ↔ isExpandableStructure T = true := by
    cases T with
    | record isUnion hasFlexibleArrayMember fields size align =>
      cases isUnion with
      | true => simp [classifyArgumentType_union, isExpandableStructure]
      | false =>
        cases hasFlexibleArrayMember with
        | true => simp [classifyArgumentType_flexible, isExpandableStructure]
        | false =>
          rw [classifyArgumentType_structure]
          by_cases h0 : size = 0
          · simp [h0, isExpandableStructure]
          · by_cases h1 : size ≤ 128 <;> cases h2 : fieldsAre32Or64BitScalars fields <;>
              simp [h0, h1, h2, isExpandableStructure]
    | _ =>
      rw [classifyArgumentType_not_record _ (by intros; simp)]
      simp only [isExpandableStructure]
      split_ifs <;> simp
  refine ⟨key, ?_, ?_⟩
  · intro h hp
    have hs := key.1 h
    cases T with
    | record isUnion hasFlexibleArrayMember fields size align =>
      simp only [isExpandableStructure, Bool.and_eq_true, Bool.not_eq_true'] at hs
      obtain ⟨⟨⟨⟨h1, h2⟩, _⟩, _⟩, h5⟩ := hs
      subst h1 h2
      have hexp : isExpandable (.record false false fields size align) = true := by
        simp [isExpandable, isExpandableFields_of_scalars fields h5 hp]
      refine ⟨hexp, ?_⟩
      have := GetExpandedTypes_of_isExpandable _ [] hexp
      simpa using this
    | _ => simp [isExpandableStructure] at hs
  · intro hagg hsize hne
    cases T with
    | record isUnion hasFlexibleArrayMember fields size align =>
      cases isUnion with
      | true => exact classifyArgumentType_union _ _ _ _
      | false =>
        cases hasFlexibleArrayMember with
        | true => exact classifyArgumentType_flexible _ _ _
        | false =>
          rw [classifyArgumentType_structure] at hne ⊢
          simp only [getTypeSize] at hsize
          simp only [hsize, if_false] at hne ⊢
          split_ifs at hne ⊢ with h1
          · exact absurd rfl hne
          · rfl
    | _ =>
      rw [classifyArgumentType_not_record _ (by intros; simp), hagg]
      rfl

/-- C22 at the structure of four `int` fields, which is expanded into four leaf types,
and at the structure of five `int` fields, which is passed indirectly. -/
theorem C22_expand_iff_expandable_structure_witness :
    classifyArgumentType Example.StructFourInt = .Expand ∧
    GetExpandedTypes Example.StructFourInt [] =
      .ok [.ConvertedTy Example.IntTy, .ConvertedTy Example.IntTy,
        .ConvertedTy Example.IntTy, .ConvertedTy Example.IntTy] ∧
    classifyArgumentType Example.StructFiveInt = .Indirect 0 :=
  ⟨rfl,
    ((C22_expand_iff_expandable_structure Example.StructFourInt).2.1 rfl rfl).2,
    (C22_expand_iff_expandable_structure Example.StructFiveInt).2.2 rfl (by decide)
      (by rw [show classifyArgumentType Example.StructFiveInt = .Indirect 0 from rfl]; simp)⟩

end X86_32ABIInfo


namespace ARMABIInfo

/-- C23: for an aggregate type of size `S` bits (a type that fits the 32-bit address
space: `S < 2^35`) and alignment `A` bits, `ARMABIInfo::classifyArgumentType` yields
`Coerce` to the packed structure holding one array of `N` integers of `W` bits, where `W`
is 64 if `A > 32` and 32 otherwise and `N` is `S / W` rounded up, so that
`S ≤ N * W < S + W`; a type that is no aggregate is `Direct`. -/
theorem C23_covering_word_array (T : QualType) :
    (hasAggregateLLVMType T = true → getTypeSize T < 2 ^ 35 →
      classifyArgumentType T =
        .Coerce (.StructTy
          [.ArrayTy (.IntegerTy (wordWidth (getTypeAlign T)))
            (wordCount (getTypeSize T) (wordWidth (getTypeAlign T)))] true) ∧
      getTypeSize T ≤
        wordCount (getTypeSize T) (wordWidth (getTypeAlign T)) * wordWidth (getTypeAlign T) ∧
      wordCount (getTypeSize T) (wordWidth (getTypeAlign T)) * wordWidth (getTypeAlign T) <
        getTypeSize T + wordWidth (getTypeAlign T)) ∧
    (hasAggregateLLVMType T = false → classifyArgumentType T = .Direct) := by
  constructor
  · intro hagg hsize
    have hs : getTypeSize T < 34359738368 := by simpa using hsize
    unfold classifyArgumentType wordWidth wordCount u64
    rw [hagg]
    by_cases hA : getTypeAlign T > 32
    · simp only [hA, if_true]
      refine ⟨?_, by omega, by omega⟩
      simp only [Bool.not_true, Bool.false_eq_true, if_false]
      have : (getTypeSize T + 63) % 18446744073709551616 / 64 % 4294967296 =
          (getTypeSize T + 64 - 1) / 64 := by omega
      rw [this]
    · simp only [hA, if_false]
      refine ⟨?_, by omega, by omega⟩
      simp only [Bool.not_true, Bool.false_eq_true, if_false]
      have : (getTypeSize T + 31) % 18446744073709551616 / 32 % 4294967296 =
          (getTypeSize T + 32 - 1) / 32 := by omega
      rw [this]
  · intro hagg
    unfold classifyArgumentType
    rw [hagg]
    rfl

/-- C23 at `struct { char c[5]; }` (40 bits, aligned on 8 bits), coerced to two 32-bit
words, at `struct { double a; double b; }` (128 bits, aligned on 64 bits), coerced to two
64-bit words, and at `int`. -/
theorem C23_covering_word_array_witness :
    classifyArgumentType Example.StructFiveChar =
      .Coerce (.StructTy [.ArrayTy (.IntegerTy 32) 2] true) ∧
    classifyArgumentType Example.StructDoubleDouble =
      .Coerce (.StructTy [.ArrayTy (.IntegerTy 64) 2] true) ∧
    classifyArgumentType Example.IntTy = .Direct :=
  ⟨((C23_covering_word_array Example.StructFiveChar).1 rfl (by decide)).1,
    ((C23_covering_word_array Example.StructDoubleDouble).1 rfl (by decide)).1,
    (C23_covering_word_array Example.IntTy).2 rfl⟩

end ARMABIInfo


/-! ## Properties of the lowering to a physical function type -/

theorem GetFunctionTypeArgs_eq :
    ∀ (args : List ArgInfo) (ArgTys : List LLVMType), expandedArgumentsExpandable args →
      GetFunctionTypeArgs args ArgTys = .ok (ArgTys ++ args.flatMap parameterSlots)
  | [], ArgTys, _ => by simp [GetFunctionTypeArgs, pure, Except.pure]
  | it :: rest, ArgTys, h => by
    have hrest : expandedArgumentsExpandable rest :=
      fun a ha hinfo => h a (List.mem_cons_of_mem _ ha) hinfo
    cases hinfo : it.info with
    | Direct =>
      simp [GetFunctionTypeArgs, hinfo, parameterSlots, GetFunctionTypeArgs_eq rest _ hrest]
    | Indirect align =>
      simp [GetFunctionTypeArgs, hinfo, parameterSlots, GetFunctionTypeArgs_eq rest _ hrest]
    | Ignore =>
      simp [GetFunctionTypeArgs, hinfo, parameterSlots, GetFunctionTypeArgs_eq rest _ hrest]
    | Expand =>
      have hT := h it (List.mem_cons_self _ _) hinfo
      simp [GetFunctionTypeArgs, hinfo, parameterSlots, bind, Except.bind,
        GetExpandedTypes_of_isExpandable it.type ArgTys hT,
        GetFunctionTypeArgs_eq rest _ hrest]
    | Coerce coerceToType =>
      simp [GetFunctionTypeArgs, hinfo, parameterSlots, GetFunctionTypeArgs_eq rest _ hrest]

/-- C24: for a signature whose return disposition is not `Expand` (and, as in every
signature the classifiers fill in, whose `Indirect` return has alignment 0 and whose
`Expand` arguments have types `GetExpandedTypes` accepts), `GetFunctionType` returns a
function type whose parameter list is the hidden return pointer, present only for an
`Indirect` return and then first, followed in argument order by: nothing for `Ignore`, the
lowered type for `Direct`, the coerced type for `Coerce`, a pointer for `Indirect` and, for
`Expand`, the lowered types of the non-aggregate leaf fields in declaration order. When
a `Direct` return type is not `void` and a `Coerce` target is not `void`, the result type
is `void` exactly when the return disposition is `Indirect` or `Ignore`. -/
theorem C24_parameter_list (FI : CGFunctionInfo) (IsVariadic : Bool)
    (hret : FI.ret.info ≠ .Expand)
    (halign : ∀ align, FI.ret.info = .Indirect align → align = 0)
    (hexp : expandedArgumentsExpandable FI.args) :
    ∃ FT, GetFunctionType FI IsVariadic = .ok FT ∧
      FT.ArgTys = hiddenReturnPointer FI.ret ++ FI.args.flatMap parameterSlots ∧
      ((FI.ret.info = .Direct → isVoidType FI.ret.type = false) →
        (∀ P, FI.ret.info = .Coerce P → isVoidTy P = false) →
        (isVoidTy FT.ResultType = true ↔
          ((∃ align, FI.ret.info = .Indirect align) ∨ FI.ret.info = .Ignore))) := by
  cases hinfo : FI.ret.info with
  | Expand => exact absurd hinfo hret
  | Direct =>
    refine ⟨_, by simp only [GetFunctionType, hinfo, bind, Except.bind, pure, Except.pure,
      GetFunctionTypeArgs_eq FI.args _ hexp]; rfl, ?_, ?_⟩
    · simp [hiddenReturnPointer, hinfo]
    · intro hv _
      simp [isVoidTy, hv rfl]
  | Indirect align =>
    have h0 := halign align hinfo
    subst h0
    refine ⟨_, by simp only [GetFunctionType, hinfo, assertThat, bind, Except.bind, pure,
      Except.pure, GetFunctionTypeArgs_eq FI.args _ hexp]; rfl, ?_, ?_⟩
    · simp [hiddenReturnPointer, hinfo]
    · intro _ _
      simp [isVoidTy]
  | Ignore =>
    refine ⟨_, by simp only [GetFunctionType, hinfo, bind, Except.bind, pure, Except.pure,
      GetFunctionTypeArgs_eq FI.args _ hexp]; rfl, ?_, ?_⟩
    · simp [hiddenReturnPointer, hinfo]
    · intro _ _
      simp [isVoidTy]
  | Coerce coerceToType =>
    refine ⟨_, by simp only [GetFunctionType, hinfo, bind, Except.bind, pure, Except.pure,
      GetFunctionTypeArgs_eq FI.args _ hexp]; rfl, ?_, ?_⟩
    · simp [hiddenReturnPointer, hinfo]
    · intro _ hc
      simp [hc coerceToType rfl]

/-- C24 at the signature `short f(struct { }, struct { int a, b, c, d; }, unsigned char,
struct { int a, b, c, d, e; })` of 32-bit x86: no slot for the ignored empty structure,
four slots for the expanded structure of four 32-bit fields, one for the `unsigned char`
and a pointer for the structure passed indirectly; an empty nested structure contributes
no leaf type. -/
theorem C24_parameter_list_witness :
    (∃ FT, GetFunctionType Example.MixedSignature false = .ok FT ∧
      FT.ArgTys =
        [.ConvertedTy Example.IntTy, .ConvertedTy Example.IntTy, .ConvertedTy Example.IntTy,
          .ConvertedTy Example.IntTy, .ConvertedTy Example.UnsignedCharTy,
          .PointerTy (.ConvertedForMemTy Example.StructFiveInt)] ∧
      isVoidTy FT.ResultType = false) ∧
    leafFieldTypes Example.StructIntEmptyFloat = [Example.IntTy, Example.FloatTy] := by
  refine ⟨?_, rfl⟩
  obtain ⟨FT, h1, h2, h3⟩ := C24_parameter_list Example.MixedSignature false
    (by simp [Example.MixedSignature])
    (by simp [Example.MixedSignature])
    (by
      intro it hit hinfo
      simp only [Example.MixedSignature, List.mem_cons, List.mem_singleton,
        List.not_mem_nil, or_false] at hit
      rcases hit with rfl | rfl | rfl | rfl
      · cases hinfo
      · rfl
      · cases hinfo
      · cases hinfo)
  refine ⟨FT, h1, h2, ?_⟩
  have h4 := h3 (fun _ => rfl) (by simp [Example.MixedSignature])
  cases hv : isVoidTy FT.ResultType with
  | false => rfl
  | true =>
    have := h4.1 hv
    simp [Example.MixedSignature] at this


/-! ## Auxiliary lemmas on the attribute list -/

theorem isNonZero_None : Attributes.None.isNonZero = false := by
  simp [Attributes.isNonZero]

theorem isNonZero_byValAttributes (align : Nat) :
    (byValAttributes align).isNonZero = true := by
  simp [Attributes.isNonZero, byValAttributes, Attributes.None]

theorem clearReadAttributes_idem (A : Attributes) :
    clearReadAttributes (clearReadAttributes A) = clearReadAttributes A := rfl

theorem ConstructAttributeListArg_eq (it : ArgInfo) (Index : Nat) (FuncAttrs : Attributes)
    (PAL : List AttributeWithIndex) (h : it.info = .Expand → isExpandable it.type = true) :
    ConstructAttributeListArg it Index FuncAttrs PAL =
      .ok (Index + (parameterSlots it).length,
        (if it.info.isIndirect then clearReadAttributes FuncAttrs else FuncAttrs),
        PAL ++ argumentEntry it Index) := by
  cases hinfo : it.info with
  | Direct =>
    simp only [ConstructAttributeListArg, hinfo, parameterSlots, argumentEntry,
      argumentAttributes, pushAttributes, ABIArgInfo.isIndirect, pure, Except.pure,
      Bool.false_eq_true, if_false]
    split_ifs <;> simp_all
  | Indirect align =>
    have hnz := isNonZero_byValAttributes align
    simp only [byValAttributes] at hnz
    simp [ConstructAttributeListArg, hinfo, parameterSlots, argumentEntry,
      argumentAttributes, pushAttributes, ABIArgInfo.isIndirect, pure, Except.pure,
      constructAlignmentFromInt, byValAttributes, hnz]
  | Ignore =>
    simp [ConstructAttributeListArg, hinfo, parameterSlots, argumentEntry,
      argumentAttributes, ABIArgInfo.isIndirect, pure, Except.pure, isNonZero_None]
  | Expand =>
    have hT := GetExpandedTypes_of_isExpandable it.type [] (h hinfo)
    simp [ConstructAttributeListArg, hinfo, parameterSlots, argumentEntry,
      argumentAttributes, ABIArgInfo.isIndirect, pure, Except.pure, isNonZero_None, hT,
      bind, Except.bind]
  | Coerce coerceToType =>
    simp [ConstructAttributeListArg, hinfo, parameterSlots, argumentEntry,
      argumentAttributes, pushAttributes, ABIArgInfo.isIndirect, pure, Except.pure,
      isNonZero_None]

theorem ConstructAttributeListArgs_eq :
    ∀ (args : List ArgInfo) (Index : Nat) (FuncAttrs : Attributes)
      (PAL : List AttributeWithIndex), expandedArgumentsExpandable args →
      ConstructAttributeListArgs args Index FuncAttrs PAL =
        .ok (Index + (args.flatMap parameterSlots).length,
          (if args.any (fun it => it.info.isIndirect) then clearReadAttributes FuncAttrs
            else FuncAttrs),
          PAL ++ argumentEntries args Index)
  | [], Index, FuncAttrs, PAL, _ => by
    simp [ConstructAttributeListArgs, argumentEntries, pure, Except.pure]
  | it :: rest, Index, FuncAttrs, PAL, h => by
    have hrest : expandedArgumentsExpandable rest :=
      fun a ha hinfo => h a (List.mem_cons_of_mem _ ha) hinfo
    have h1 := ConstructAttributeListArg_eq it Index FuncAttrs PAL
      (h it (List.mem_cons_self _ _))
    simp only [ConstructAttributeListArgs, h1, bind, Except.bind,
      ConstructAttributeListArgs_eq rest _ _ _ hrest, argumentEntries, List.flatMap_cons,
      List.length_append, List.any_cons, List.append_assoc, Nat.add_assoc]
    congr 2
    by_cases ha : it.info.isIndirect = true <;>
      by_cases hb : (rest.any fun it => it.info.isIndirect) = true <;>
      simp [ha, hb, clearReadAttributes_idem]

theorem ConstructAttributeList_eq (FI : CGFunctionInfo) (TargetDecl : Option Decl)
    (PAL : List AttributeWithIndex) (hret : FI.ret.info ≠ .Expand)
    (hexp : expandedArgumentsExpandable FI.args) :
    ConstructAttributeList FI TargetDecl PAL = .ok (PAL ++ attributeList FI TargetDecl) := by
  cases hinfo : FI.ret.info with
  | Expand => exact absurd hinfo hret
  | Direct =>
    simp only [ConstructAttributeList, hinfo, bind, Except.bind, pure, Except.pure,
      ConstructAttributeListArgs_eq FI.args _ _ _ hexp, attributeList, returnEntries,
      functionEntries, functionAttributes, hasIndirect, parameterIndex, hiddenReturnPointer,
      ABIArgInfo.isIndirect, Bool.false_or]
    split_ifs <;> simp_all
  | Indirect align =>
    simp only [ConstructAttributeList, hinfo, bind, Except.bind, pure, Except.pure,
      ConstructAttributeListArgs_eq FI.args _ _ _ hexp, attributeList, returnEntries,
      functionEntries, functionAttributes, hasIndirect, parameterIndex, hiddenReturnPointer,
      ABIArgInfo.isIndirect, Bool.true_or, isNonZero_None, clearReadAttributes_idem]
    split_ifs <;> simp_all
  | Ignore =>
    simp only [ConstructAttributeList, hinfo, bind, Except.bind, pure, Except.pure,
      ConstructAttributeListArgs_eq FI.args _ _ _ hexp, attributeList, returnEntries,
      functionEntries, functionAttributes, hasIndirect, parameterIndex, hiddenReturnPointer,
      ABIArgInfo.isIndirect, Bool.false_or, isNonZero_None]
    split_ifs <;> simp_all
  | Coerce coerceToType =>
    simp only [ConstructAttributeList, hinfo, bind, Except.bind, pure, Except.pure,
      ConstructAttributeListArgs_eq FI.args _ _ _ hexp, attributeList, returnEntries,
      functionEntries, functionAttributes, hasIndirect, parameterIndex, hiddenReturnPointer,
      ABIArgInfo.isIndirect, Bool.false_or, isNonZero_None]
    split_ifs <;> simp_all


theorem setExtensionAttribute_SExt (T : QualType) :
    (setExtensionAttribute T Attributes.None).SExt = true ↔
      isPromotableIntegerType T = true ∧ isSignedIntegerType T = true := by
  unfold setExtensionAttribute
  split_ifs <;> simp_all [Attributes.None]

theorem not_signed_and_unsigned_of_promotable (T : QualType)
    (h : isPromotableIntegerType T = true) :
    ¬ (isSignedIntegerType T = true ∧ isUnsignedIntegerType T = true) := by
  cases T with
  | builtin k size align =>
    cases k <;> simp [isSignedIntegerType, isUnsignedIntegerType, kindValue]
  | _ => simp [isPromotableIntegerType] at h

theorem setExtensionAttribute_ZExt (T : QualType) :
    (setExtensionAttribute T Attributes.None).ZExt = true ↔
      isPromotableIntegerType T = true ∧ isUnsignedIntegerType T = true := by
  unfold setExtensionAttribute
  split_ifs with h1 h2 h3
  · have := not_signed_and_unsigned_of_promotable T h1
    simp only [Attributes.None]
    constructor
    · intro h; cases h
    · intro h; exact absurd ⟨h2, h.2⟩ this
  · simp [h1, h3]
  · simp [h1, h3, Attributes.None]
  · simp [h1, Attributes.None]

theorem setExtensionAttribute_flags (T : QualType) :
    (setExtensionAttribute T Attributes.None).NoReturn = false ∧
    (setExtensionAttribute T Attributes.None).NoUnwind = false ∧
    (setExtensionAttribute T Attributes.None).StructRet = false ∧
    (setExtensionAttribute T Attributes.None).NoAlias = false ∧
    (setExtensionAttribute T Attributes.None).ByVal = false ∧
    (setExtensionAttribute T Attributes.None).ReadNone = false ∧
    (setExtensionAttribute T Attributes.None).ReadOnly = false ∧
    ¬ ((setExtensionAttribute T Attributes.None).SExt = true ∧
      (setExtensionAttribute T Attributes.None).ZExt = true) := by
  unfold setExtensionAttribute
  split_ifs <;> simp [Attributes.None]

theorem argumentAttributes_flags (it : ArgInfo) :
    (argumentAttributes it).NoReturn = false ∧
    (argumentAttributes it).NoUnwind = false ∧
    (argumentAttributes it).StructRet = false ∧
    (argumentAttributes it).NoAlias = false ∧
    (argumentAttributes it).ReadNone = false ∧
    (argumentAttributes it).ReadOnly = false ∧
    ¬ ((argumentAttributes it).SExt = true ∧ (argumentAttributes it).ZExt = true) := by
  have h := setExtensionAttribute_flags it.type
  unfold argumentAttributes
  cases it.info with
  | Direct => exact ⟨h.1, h.2.1, h.2.2.1, h.2.2.2.1, h.2.2.2.2.2.1, h.2.2.2.2.2.2.1,
      h.2.2.2.2.2.2.2⟩
  | _ => simp [byValAttributes, Attributes.None]

theorem declarationAttributes_flags (TargetDecl : Option Decl) :
    (declarationAttributes TargetDecl).ZExt = false ∧
    (declarationAttributes TargetDecl).SExt = false ∧
    (declarationAttributes TargetDecl).StructRet = false ∧
    (declarationAttributes TargetDecl).NoAlias = false ∧
    (declarationAttributes TargetDecl).ByVal = false ∧
    (declarationAttributes TargetDecl).NoUnwind = declares TargetDecl (fun D => D.hasNoThrowAttr) ∧
    (declarationAttributes TargetDecl).NoReturn =
      declares TargetDecl (fun D => D.hasNoReturnAttr) ∧
    (declarationAttributes TargetDecl).ReadOnly = declares TargetDecl (fun D => D.hasPureAttr) ∧
    (declarationAttributes TargetDecl).ReadNone =
      declares TargetDecl (fun D => D.hasConstAttr) := by
  cases TargetDecl with
  | none => exact ⟨rfl, rfl, rfl, rfl, rfl, rfl, rfl, rfl, rfl⟩
  | some D =>
    obtain ⟨a, b, c, d⟩ := D
    cases a <;> cases b <;> cases c <;> cases d <;>
      exact ⟨rfl, rfl, rfl, rfl, rfl, rfl, rfl, rfl, rfl⟩

theorem functionAttributes_flags (FI : CGFunctionInfo) (TargetDecl : Option Decl) :
    (functionAttributes FI TargetDecl).ZExt = false ∧
    (functionAttributes FI TargetDecl).SExt = false ∧
    (functionAttributes FI TargetDecl).StructRet = false ∧
    (functionAttributes FI TargetDecl).NoAlias = false ∧
    (functionAttributes FI TargetDecl).ByVal = false ∧
    (functionAttributes FI TargetDecl).NoUnwind =
      declares TargetDecl (fun D => D.hasNoThrowAttr) ∧
    (functionAttributes FI TargetDecl).NoReturn =
      declares TargetDecl (fun D => D.hasNoReturnAttr) ∧
    (functionAttributes FI TargetDecl).ReadOnly =
      (declares TargetDecl (fun D => D.hasPureAttr) && !hasIndirect FI) ∧
    (functionAttributes FI TargetDecl).ReadNone =
      (declares TargetDecl (fun D => D.hasConstAttr) && !hasIndirect FI) := by
  have h := declarationAttributes_flags TargetDecl
  unfold functionAttributes
  cases hasIndirect FI with
  | false => simpa using h
  | true =>
    refine ⟨h.1, h.2.1, h.2.2.1, h.2.2.2.1, h.2.2.2.2.1, h.2.2.2.2.2.1, h.2.2.2.2.2.2.1,
      ?_, ?_⟩ <;> simp [clearReadAttributes]

theorem mem_argumentEntry (it : ArgInfo) (Index : Nat) (e : AttributeWithIndex) :
    e ∈ argumentEntry it Index ↔
      (argumentAttributes it).isNonZero = true ∧
        e = { Index := Index, Attrs := argumentAttributes it } := by
  unfold argumentEntry
  split_ifs with h <;> simp [h]

theorem slots_of_isNonZero (it : ArgInfo) (h : (argumentAttributes it).isNonZero = true) :
    (parameterSlots it).length = 1 := by
  unfold argumentAttributes at h
  unfold parameterSlots
  cases hinfo : it.info with
  | Direct => rfl
  | Indirect align => rfl
  | Coerce coerceToType => rfl
  | Ignore => rw [hinfo] at h; simp [isNonZero_None] at h
  | Expand => rw [hinfo] at h; simp [isNonZero_None] at h

theorem argumentEntries_append :
    ∀ (pre rest : List ArgInfo) (Index : Nat),
      argumentEntries (pre ++ rest) Index =
        argumentEntries pre Index ++
          argumentEntries rest (Index + (pre.flatMap parameterSlots).length)
  | [], rest, Index => by simp [argumentEntries]
  | it :: pre, rest, Index => by
    simp [argumentEntries, argumentEntries_append pre rest, Nat.add_assoc]

theorem argumentEntries_bounds :
    ∀ (args : List ArgInfo) (Index : Nat) (e : AttributeWithIndex),
      e ∈ argumentEntries args Index →
        Index ≤ e.Index ∧ e.Index < Index + (args.flatMap parameterSlots).length ∧
          ∃ it ∈ args, e.Attrs = argumentAttributes it
  | [], _, _, h => by simp [argumentEntries] at h
  | it :: rest, Index, e, h => by
    simp only [argumentEntries, List.mem_append, mem_argumentEntry] at h
    simp only [List.flatMap_cons, List.length_append]
    rcases h with ⟨hnz, rfl⟩ | h
    · have := slots_of_isNonZero it hnz
      refine ⟨le_refl _, by simp only; omega, it, List.mem_cons_self _ _, rfl⟩
    · obtain ⟨h1, h2, a, ha, h3⟩ := argumentEntries_bounds rest _ e h
      exact ⟨by omega, by omega, a, List.mem_cons_of_mem _ ha, h3⟩

theorem mem_argumentEntries_at (pre : List ArgInfo) (it : ArgInfo) (post : List ArgInfo)
    (Index j : Nat) (e : AttributeWithIndex) (hj : j < (parameterSlots it).length)
    (he : e.Index = Index + (pre.flatMap parameterSlots).length + j) :
    e ∈ argumentEntries (pre ++ it :: post) Index ↔
      j = 0 ∧ (argumentAttributes it).isNonZero = true ∧
        e = { Index := Index + (pre.flatMap parameterSlots).length,
              Attrs := argumentAttributes it } := by
  rw [argumentEntries_append]
  simp only [argumentEntries, List.mem_append, mem_argumentEntry]
  constructor
  · rintro (h | ⟨hnz, h⟩ | h)
    · have := (argumentEntries_bounds pre Index e h).2.1
      omega
    · have h2 : e.Index = Index + (pre.flatMap parameterSlots).length := by rw [h]
      exact ⟨by omega, hnz, h⟩
    · have := (argumentEntries_bounds post _ e h).1
      omega
  · rintro ⟨_, hnz, h⟩
    exact Or.inr (Or.inl ⟨hnz, h⟩)

theorem mem_returnEntries (ret : ArgInfo) (e : AttributeWithIndex) :
    e ∈ returnEntries ret ↔
      ((∃ align, ret.info = .Indirect align) ∧
        e = { Index := 1, Attrs := structRetAttributes }) ∨
      (ret.info = .Direct ∧
        (setExtensionAttribute ret.type Attributes.None).isNonZero = true ∧
        e = { Index := 0, Attrs := setExtensionAttribute ret.type Attributes.None }) := by
  unfold returnEntries
  cases hinfo : ret.info with
  | Direct => split_ifs with h <;> simp [h]
  | Indirect align => simp [structRetAttributes]
  | _ => simp

theorem mem_functionEntries (FI : CGFunctionInfo) (TargetDecl : Option Decl)
    (e : AttributeWithIndex) :
    e ∈ functionEntries FI TargetDecl ↔
      (functionAttributes FI TargetDecl).isNonZero = true ∧
        e = { Index := functionIndex, Attrs := functionAttributes FI TargetDecl } := by
  unfold functionEntries
  split_ifs with h <;> simp [h]

theorem isNonZero_of_flag (A : Attributes) (p : Attributes → Bool)
    (hNone : p Attributes.None = false) (h : p A = true) : A.isNonZero = true := by
  unfold Attributes.isNonZero
  rw [decide_eq_true_eq]
  rintro rfl
  rw [hNone] at h
  cases h

theorem parameterIndex_eq (FI : CGFunctionInfo) (pre : List ArgInfo) :
    parameterIndex FI pre = parameterIndex FI [] + (pre.flatMap parameterSlots).length := by
  simp [parameterIndex, Nat.add_assoc]

theorem parameterIndex_nil (FI : CGFunctionInfo) :
    parameterIndex FI [] = if FI.ret.info.isIndirect then 2 else 1 := by
  unfold parameterIndex hiddenReturnPointer ABIArgInfo.isIndirect
  cases FI.ret.info <;> rfl

theorem one_le_parameterIndex (FI : CGFunctionInfo) (pre : List ArgInfo) :
    1 ≤ parameterIndex FI pre := by
  unfold parameterIndex
  omega

theorem hasAttributeAt_parameter (FI : CGFunctionInfo) (TargetDecl : Option Decl)
    (pre : List ArgInfo) (it : ArgInfo) (post : List ArgInfo) (j : Nat)
    (p : Attributes → Bool) (hargs : FI.args = pre ++ it :: post)
    (hj : j < (parameterSlots it).length) (hNone : p Attributes.None = false)
    (hsret : p structRetAttributes = false)
    (hfun : p (functionAttributes FI TargetDecl) = false) :
    hasAttributeAt (attributeList FI TargetDecl) (parameterIndex FI pre + j) p ↔
      j = 0 ∧ p (argumentAttributes it) = true := by
  unfold hasAttributeAt attributeList
  constructor
  · rintro ⟨e, he, hidx, hp⟩
    simp only [List.mem_append, mem_returnEntries, mem_functionEntries] at he
    rcases he with ((⟨_, rfl⟩ | ⟨_, _, rfl⟩) | he) | ⟨_, rfl⟩
    · rw [hsret] at hp; cases hp
    · have := one_le_parameterIndex FI pre
      simp only at hidx
      omega
    · rw [hargs] at he
      have hidx2 : e.Index =
          parameterIndex FI [] + (pre.flatMap parameterSlots).length + j := by
        rw [hidx, parameterIndex_eq FI pre]
      obtain ⟨h0, _, rfl⟩ := (mem_argumentEntries_at pre it post _ j e hj hidx2).1 he
      exact ⟨h0, hp⟩
    · rw [hfun] at hp; cases hp
  · rintro ⟨rfl, hp⟩
    refine ⟨{ Index := parameterIndex FI [] + (pre.flatMap parameterSlots).length,
              Attrs := argumentAttributes it }, ?_, ?_, hp⟩
    · refine List.mem_append.2 (Or.inl (List.mem_append.2 (Or.inr ?_)))
      rw [hargs]
      exact (mem_argumentEntries_at pre it post _ 0 _ hj rfl).2
        ⟨rfl, isNonZero_of_flag _ p hNone hp, rfl⟩
    · simp only [Nat.add_zero]
      exact (parameterIndex_eq FI pre).symm

theorem hasAttributeAt_function (FI : CGFunctionInfo) (TargetDecl : Option Decl)
    (p : Attributes → Bool) (hNone : p Attributes.None = false)
    (hsret : p structRetAttributes = false)
    (hext : ∀ T, p (setExtensionAttribute T Attributes.None) = false)
    (harg : ∀ it, p (argumentAttributes it) = false) :
    hasAttributeAt (attributeList FI TargetDecl) functionIndex p ↔
      p (functionAttributes FI TargetDecl) = true := by
  unfold hasAttributeAt attributeList
  constructor
  · rintro ⟨e, he, _, hp⟩
    simp only [List.mem_append, mem_returnEntries, mem_functionEntries] at he
    rcases he with ((⟨_, rfl⟩ | ⟨_, _, rfl⟩) | he) | ⟨_, rfl⟩
    · rw [hsret] at hp; cases hp
    · rw [hext] at hp; cases hp
    · obtain ⟨_, _, a, _, h3⟩ := argumentEntries_bounds _ _ e he
      rw [h3, harg] at hp
      cases hp
    · exact hp
  · intro hp
    refine ⟨{ Index := functionIndex, Attrs := functionAttributes FI TargetDecl }, ?_, rfl, hp⟩
    exact List.mem_append.2 (Or.inr ((mem_functionEntries _ _ _).2
      ⟨isNonZero_of_flag _ p hNone hp, rfl⟩))

theorem hasAttributeAt_return (FI : CGFunctionInfo) (TargetDecl : Option Decl)
    (p : Attributes → Bool) (hNone : p Attributes.None = false) :
    hasAttributeAt (attributeList FI TargetDecl) 0 p ↔
      FI.ret.info = .Direct ∧ p (setExtensionAttribute FI.ret.type Attributes.None) = true := by
  unfold hasAttributeAt attributeList
  constructor
  · rintro ⟨e, he, hidx, hp⟩
    simp only [List.mem_append, mem_returnEntries, mem_functionEntries] at he
    rcases he with ((⟨_, rfl⟩ | ⟨hd, _, rfl⟩) | he) | ⟨_, rfl⟩
    · simp at hidx
    · exact ⟨hd, hp⟩
    · have h1 := (argumentEntries_bounds _ _ e he).1
      have h2 := one_le_parameterIndex FI []
      omega
    · simp [functionIndex] at hidx
  · rintro ⟨hd, hp⟩
    refine ⟨{ Index := 0, Attrs := setExtensionAttribute FI.ret.type Attributes.None },
      ?_, rfl, hp⟩
    exact List.mem_append.2 (Or.inl (List.mem_append.2 (Or.inl ((mem_returnEntries _ _).2
      (Or.inr ⟨hd, isNonZero_of_flag _ p hNone hp, rfl⟩)))))

theorem hasAttributeAt_structRet (FI : CGFunctionInfo) (TargetDecl : Option Decl) :
    hasAttributeAt (attributeList FI TargetDecl) 1 (fun A => A.StructRet && A.NoAlias) ↔
      ∃ align, FI.ret.info = .Indirect align := by
  unfold hasAttributeAt attributeList
  constructor
  · rintro ⟨e, he, _, hp⟩
    simp only [List.mem_append, mem_returnEntries, mem_functionEntries] at he
    rcases he with ((⟨h, rfl⟩ | ⟨_, _, rfl⟩) | he) | ⟨_, rfl⟩
    · exact h
    · have := (setExtensionAttribute_flags FI.ret.type).2.2.1
      simp [this] at hp
    · obtain ⟨_, _, a, _, h3⟩ := argumentEntries_bounds _ _ e he
      have := (argumentAttributes_flags a).2.2.1
      simp [h3, this] at hp
    · have := (functionAttributes_flags FI TargetDecl).2.2.1
      simp [this] at hp
  · intro h
    refine ⟨{ Index := 1, Attrs := structRetAttributes }, ?_, rfl, rfl⟩
    exact List.mem_append.2 (Or.inl (List.mem_append.2 (Or.inl ((mem_returnEntries _ _).2
      (Or.inl ⟨h, rfl⟩)))))

theorem argumentAttributes_SExt (it : ArgInfo) :
    (argumentAttributes it).SExt = true ↔
      it.info = .Direct ∧ isPromotableIntegerType it.type = true ∧
        isSignedIntegerType it.type = true := by
  unfold argumentAttributes
  cases hinfo : it.info with
  | Direct => simpa using setExtensionAttribute_SExt it.type
  | _ => simp [byValAttributes, Attributes.None]

theorem argumentAttributes_ZExt (it : ArgInfo) :
    (argumentAttributes it).ZExt = true ↔
      it.info = .Direct ∧ isPromotableIntegerType it.type = true ∧
        isUnsignedIntegerType it.type = true := by
  unfold argumentAttributes
  cases hinfo : it.info with
  | Direct => simpa using setExtensionAttribute_ZExt it.type
  | _ => simp [byValAttributes, Attributes.None]

theorem slots_of_Direct (it : ArgInfo) (h : it.info = .Direct) :
    (parameterSlots it).length = 1 := by
  simp [parameterSlots, h]


/-! ## Properties of the attribute list -/

/-- C25: for a signature whose return disposition is not `Expand` and whose `Expand`
arguments have types `GetExpandedTypes` accepts, `ConstructAttributeList` returns a list
in which the physical parameter 1 carries struct-return and no-alias exactly when the
return disposition is `Indirect`, in which the physical parameter of every `Indirect`
argument carries by-value and the alignment of the disposition, and whose function-level
entry carries read-only (read-none) exactly when the declaration is pure (const) and
neither the return value nor an argument has the disposition `Indirect`. -/
theorem C25_indirect_and_memory_attributes (FI : CGFunctionInfo)
    (TargetDecl : Option Decl) (hret : FI.ret.info ≠ .Expand)
    (hexp : expandedArgumentsExpandable FI.args) :
    ∃ PAL, ConstructAttributeList FI TargetDecl [] = .ok PAL ∧
      (hasAttributeAt PAL 1 (fun A => A.StructRet && A.NoAlias) ↔
        ∃ align, FI.ret.info = .Indirect align) ∧
      (∀ pre it post align, FI.args = pre ++ it :: post → it.info = .Indirect align →
        { Index := parameterIndex FI pre, Attrs := byValAttributes align } ∈ PAL) ∧
      (hasAttributeAt PAL functionIndex (fun A => A.ReadOnly) ↔
        declares TargetDecl (fun D => D.hasPureAttr) = true ∧ hasIndirect FI = false) ∧
      (hasAttributeAt PAL functionIndex (fun A => A.ReadNone) ↔
        declares TargetDecl (fun D => D.hasConstAttr) = true ∧ hasIndirect FI = false) := by
  refine ⟨attributeList FI TargetDecl, ?_, hasAttributeAt_structRet FI TargetDecl, ?_, ?_, ?_⟩
  · simpa using ConstructAttributeList_eq FI TargetDecl [] hret hexp
  · intro pre it post align hargs hinfo
    have hattr : argumentAttributes it = byValAttributes align := by
      simp [argumentAttributes, hinfo]
    have hslots : 0 < (parameterSlots it).length := by
      simp [parameterSlots, hinfo]
    refine List.mem_append.2 (Or.inl (List.mem_append.2 (Or.inr ?_)))
    rw [hargs]
    refine (mem_argumentEntries_at pre it post _ 0 _ hslots ?_).2 ⟨rfl, ?_, ?_⟩
    · simp only [Nat.add_zero]
      exact parameterIndex_eq FI pre
    · rw [hattr]
      exact isNonZero_byValAttributes align
    · rw [hattr, parameterIndex_eq FI pre]
  · rw [hasAttributeAt_function FI TargetDecl (fun A => A.ReadOnly) rfl rfl
      (fun T => (setExtensionAttribute_flags T).2.2.2.2.2.2.1)
      (fun it => (argumentAttributes_flags it).2.2.2.2.2.1)]
    simp [(functionAttributes_flags FI TargetDecl).2.2.2.2.2.2.2.1]
  · rw [hasAttributeAt_function FI TargetDecl (fun A => A.ReadNone) rfl rfl
      (fun T => (setExtensionAttribute_flags T).2.2.2.2.2.1)
      (fun it => (argumentAttributes_flags it).2.2.2.2.1)]
    simp [(functionAttributes_flags FI TargetDecl).2.2.2.2.2.2.2.2]

/-- C25 at the signature `short f(struct { }, struct { int a, b, c, d; }, unsigned char,
struct { int a, b, c, d, e; })` of 32-bit x86 with a pure declaration: the structure passed
indirectly is the physical parameter 6 and carries by-value, and the function-level entry
does not carry read-only. -/
theorem C25_indirect_and_memory_attributes_witness :
    ∃ PAL, ConstructAttributeList Example.MixedSignature (some Example.PureDecl) [] =
        .ok PAL ∧
      { Index := 6, Attrs := byValAttributes 0 } ∈ PAL ∧
      ¬ hasAttributeAt PAL functionIndex (fun A => A.ReadOnly) ∧
      ¬ hasAttributeAt PAL 1 (fun A => A.StructRet && A.NoAlias) := by
  obtain ⟨PAL, h1, h2, h3, h4, _⟩ :=
    C25_indirect_and_memory_attributes Example.MixedSignature (some Example.PureDecl)
      (by simp [Example.MixedSignature])
      (by
        intro it hit hinfo
        simp only [Example.MixedSignature, List.mem_cons, List.mem_singleton,
          List.not_mem_nil, or_false] at hit
        rcases hit with rfl | rfl | rfl | rfl
        · cases hinfo
        · rfl
        · cases hinfo
        · cases hinfo)
  refine ⟨PAL, h1, ?_, ?_, ?_⟩
  · exact h3 [{ type := Example.EmptyStruct, info := .Ignore },
        { type := Example.StructFourInt, info := .Expand },
        { type := Example.UnsignedCharTy, info := .Direct }]
      { type := Example.StructFiveInt, info := .Indirect 0 } [] 0 rfl rfl
  · intro h
    have := (h4.1 h).2
    simp [hasIndirect, Example.MixedSignature, ABIArgInfo.isIndirect] at this
  · intro h
    obtain ⟨align, hal⟩ := h2.1 h
    simp [Example.MixedSignature] at hal

/-- C26, counterexample: for `void f(struct { int a, b, c, d, e; })` on 32-bit x86, whose
argument is passed indirectly, and a declaration that carries `pure`, the list
`ConstructAttributeList` returns holds the by-value entry of the argument only: the
function-level attributes do not contain read-only. -/
theorem C26_counterexample :
    X86_32ABIInfo.computeInfo false
      (CGFunctionInfo.create Example.VoidTy [Example.StructFiveInt]) =
      Example.IndirectArgumentSignature ∧
    Example.PureDecl.hasPureAttr = true ∧
    ConstructAttributeList Example.IndirectArgumentSignature (some Example.PureDecl) [] =
      .ok [{ Index := 1, Attrs := byValAttributes 0 }] ∧
    ¬ hasAttributeAt [{ Index := 1, Attrs := byValAttributes 0 }] functionIndex
      (fun A => A.ReadOnly) := by
  refine ⟨rfl, rfl, rfl, ?_⟩
  rintro ⟨e, he, hidx, _⟩
  simp only [List.mem_singleton] at he
  subst he
  simp [functionIndex] at hidx

/-- C26, as the code has it: for a signature whose return disposition is not `Expand` and
whose `Expand` arguments have types `GetExpandedTypes` accepts, the function-level
attributes `ConstructAttributeList` produces contain no-unwind and no-return exactly when
the declaration carries no-throw and no-return, whatever the dispositions are; they
contain read-only and read-none exactly when the declaration carries pure and const and
neither the return value nor an argument has the disposition `Indirect`. -/
theorem C26_declaration_attributes (FI : CGFunctionInfo) (TargetDecl : Option Decl)
    (hret : FI.ret.info ≠ .Expand) (hexp : expandedArgumentsExpandable FI.args) :
    ∃ PAL, ConstructAttributeList FI TargetDecl [] = .ok PAL ∧
      (hasAttributeAt PAL functionIndex (fun A => A.NoUnwind) ↔
        declares TargetDecl (fun D => D.hasNoThrowAttr) = true) ∧
      (hasAttributeAt PAL functionIndex (fun A => A.NoReturn) ↔
        declares TargetDecl (fun D => D.hasNoReturnAttr) = true) ∧
      (hasAttributeAt PAL functionIndex (fun A => A.ReadOnly) ↔
        declares TargetDecl (fun D => D.hasPureAttr) = true ∧ hasIndirect FI = false) ∧
      (hasAttributeAt PAL functionIndex (fun A => A.ReadNone) ↔
        declares TargetDecl (fun D => D.hasConstAttr) = true ∧ hasIndirect FI = false) := by
  refine ⟨attributeList FI TargetDecl, ?_, ?_, ?_, ?_, ?_⟩
  · simpa using ConstructAttributeList_eq FI TargetDecl [] hret hexp
  · rw [hasAttributeAt_function FI TargetDecl (fun A => A.NoUnwind) rfl rfl
      (fun T => (setExtensionAttribute_flags T).2.1)
      (fun it => (argumentAttributes_flags it).2.1)]
    simp [(functionAttributes_flags FI TargetDecl).2.2.2.2.2.1]
  · rw [hasAttributeAt_function FI TargetDecl (fun A => A.NoReturn) rfl rfl
      (fun T => (setExtensionAttribute_flags T).1)
      (fun it => (argumentAttributes_flags it).1)]
    simp [(functionAttributes_flags FI TargetDecl).2.2.2.2.2.2.1]
  · rw [hasAttributeAt_function FI TargetDecl (fun A => A.ReadOnly) rfl rfl
      (fun T => (setExtensionAttribute_flags T).2.2.2.2.2.2.1)
      (fun it => (argumentAttributes_flags it).2.2.2.2.2.1)]
    simp [(functionAttributes_flags FI TargetDecl).2.2.2.2.2.2.2.1]
  · rw [hasAttributeAt_function FI TargetDecl (fun A => A.ReadNone) rfl rfl
      (fun T => (setExtensionAttribute_flags T).2.2.2.2.2.1)
      (fun it => (argumentAttributes_flags it).2.2.2.2.1)]
    simp [(functionAttributes_flags FI TargetDecl).2.2.2.2.2.2.2.2]

/-- C26 at `void f(struct { int a, b, c, d, e; })` of 32-bit x86 with a pure declaration:
no function-level read-only, and at the same signature without its argument: a
function-level read-only. -/
theorem C26_declaration_attributes_witness :
    (∃ PAL, ConstructAttributeList Example.IndirectArgumentSignature
        (some Example.PureDecl) [] = .ok PAL ∧
      ¬ hasAttributeAt PAL functionIndex (fun A => A.ReadOnly)) ∧
    (∃ PAL, ConstructAttributeList
        { ret := { type := Example.VoidTy, info := .Ignore }, args := [] }
        (some Example.PureDecl) [] = .ok PAL ∧
      hasAttributeAt PAL functionIndex (fun A => A.ReadOnly)) := by
  constructor
  · obtain ⟨PAL, h1, _, _, h4, _⟩ :=
      C26_declaration_attributes Example.IndirectArgumentSignature (some Example.PureDecl)
        (by simp [Example.IndirectArgumentSignature])
        (by
          intro it hit hinfo
          simp only [Example.IndirectArgumentSignature, List.mem_singleton] at hit
          subst hit
          cases hinfo)
    refine ⟨PAL, h1, fun h => ?_⟩
    have := (h4.1 h).2
    simp [hasIndirect, Example.IndirectArgumentSignature, ABIArgInfo.isIndirect] at this
  · obtain ⟨PAL, h1, _, _, h4, _⟩ :=
      C26_declaration_attributes
        { ret := { type := Example.VoidTy, info := .Ignore }, args := [] }
        (some Example.PureDecl) (by simp) (by intro it hit; simp at hit)
    exact ⟨PAL, h1, h4.2 ⟨rfl, rfl⟩⟩

/-- C27: for a signature whose return disposition is not `Expand` and whose `Expand`
arguments have types `GetExpandedTypes` accepts, in the list `ConstructAttributeList`
returns the return value (index 0) carries sign-extend exactly when its disposition is
`Direct` and its type a promotable signed integer type, and zero-extend exactly when its
disposition is `Direct` and its type a promotable unsigned integer type; the same holds of
every physical parameter of every argument, so that no parameter of an argument of
disposition `Coerce`, `Indirect` or `Expand` carries either (an `Ignore` argument has no
parameter); no entry carries both. -/
theorem C27_extension_attributes (FI : CGFunctionInfo) (TargetDecl : Option Decl)
    (hret : FI.ret.info ≠ .Expand) (hexp : expandedArgumentsExpandable FI.args) :
    ∃ PAL, ConstructAttributeList FI TargetDecl [] = .ok PAL ∧
      (hasAttributeAt PAL 0 (fun A => A.SExt) ↔
        FI.ret.info = .Direct ∧ isPromotableIntegerType FI.ret.type = true ∧
          isSignedIntegerType FI.ret.type = true) ∧
      (hasAttributeAt PAL 0 (fun A => A.ZExt) ↔
        FI.ret.info = .Direct ∧ isPromotableIntegerType FI.ret.type = true ∧
          isUnsignedIntegerType FI.ret.type = true) ∧
      (∀ pre it post j, FI.args = pre ++ it :: post → j < (parameterSlots it).length →
        (hasAttributeAt PAL (parameterIndex FI pre + j) (fun A => A.SExt) ↔
          it.info = .Direct ∧ isPromotableIntegerType it.type = true ∧
            isSignedIntegerType it.type = true) ∧
        (hasAttributeAt PAL (parameterIndex FI pre + j) (fun A => A.ZExt) ↔
          it.info = .Direct ∧ isPromotableIntegerType it.type = true ∧
            isUnsignedIntegerType it.type = true)) ∧
      (∀ e ∈ PAL, ¬ (e.Attrs.SExt = true ∧ e.Attrs.ZExt = true)) := by
  refine ⟨attributeList FI TargetDecl, ?_, ?_, ?_, ?_, ?_⟩
  · simpa using ConstructAttributeList_eq FI TargetDecl [] hret hexp
  · rw [hasAttributeAt_return FI TargetDecl (fun A => A.SExt) rfl]
    simp only [setExtensionAttribute_SExt]
  · rw [hasAttributeAt_return FI TargetDecl (fun A => A.ZExt) rfl]
    simp only [setExtensionAttribute_ZExt]
  · intro pre it post j hargs hj
    constructor
    · rw [hasAttributeAt_parameter FI TargetDecl pre it post j (fun A => A.SExt) hargs hj
        rfl rfl (functionAttributes_flags FI TargetDecl).2.1]
      simp only [argumentAttributes_SExt]
      constructor
      · exact fun h => h.2
      · intro h
        have := slots_of_Direct it h.1
        exact ⟨by omega, h⟩
    · rw [hasAttributeAt_parameter FI TargetDecl pre it post j (fun A => A.ZExt) hargs hj
        rfl rfl (functionAttributes_flags FI TargetDecl).1]
      simp only [argumentAttributes_ZExt]
      constructor
      · exact fun h => h.2
      · intro h
        have := slots_of_Direct it h.1
        exact ⟨by omega, h⟩
  · intro e he
    unfold attributeList at he
    simp only [List.mem_append, mem_returnEntries, mem_functionEntries] at he
    rcases he with ((⟨_, rfl⟩ | ⟨_, _, rfl⟩) | he) | ⟨_, rfl⟩
    · simp [structRetAttributes, Attributes.None]
    · exact (setExtensionAttribute_flags FI.ret.type).2.2.2.2.2.2.2
    · obtain ⟨_, _, a, _, h3⟩ := argumentEntries_bounds _ _ e he
      rw [h3]
      exact (argumentAttributes_flags a).2.2.2.2.2.2
    · simp [(functionAttributes_flags FI TargetDecl).1]

/-- C27 at the signature `short f(struct { }, struct { int a, b, c, d; }, unsigned char,
struct { int a, b, c, d, e; })` of 32-bit x86: the `short` return value carries
sign-extend, the `unsigned char` argument, physical parameter 5, carries zero-extend and
no sign-extend, and the first parameter of the expanded structure carries neither. -/
theorem C27_extension_attributes_witness :
    ∃ PAL, ConstructAttributeList Example.MixedSignature none [] = .ok PAL ∧
      hasAttributeAt PAL 0 (fun A => A.SExt) ∧
      hasAttributeAt PAL 5 (fun A => A.ZExt) ∧
      ¬ hasAttributeAt PAL 5 (fun A => A.SExt) ∧
      ¬ hasAttributeAt PAL 1 (fun A => A.ZExt) := by
  obtain ⟨PAL, h1, h2, _, h4, _⟩ :=
    C27_extension_attributes Example.MixedSignature none
      (by simp [Example.MixedSignature])
      (by
        intro it hit hinfo
        simp only [Example.MixedSignature, List.mem_cons, List.mem_singleton,
          List.not_mem_nil, or_false] at hit
        rcases hit with rfl | rfl | rfl | rfl
        · cases hinfo
        · rfl
        · cases hinfo
        · cases hinfo)
  have h5 := h4 [{ type := Example.EmptyStruct, info := .Ignore },
      { type := Example.StructFourInt, info := .Expand }]
    { type := Example.UnsignedCharTy, info := .Direct }
    [{ type := Example.StructFiveInt, info := .Indirect 0 }] 0 rfl (by decide)
  have h6 := h4 [{ type := Example.EmptyStruct, info := .Ignore }]
    { type := Example.StructFourInt, info := .Expand }
    [{ type := Example.UnsignedCharTy, info := .Direct },
      { type := Example.StructFiveInt, info := .Indirect 0 }] 0 rfl (by decide)
  refine ⟨PAL, h1, h2.2 ⟨rfl, rfl, by decide⟩, h5.2.2 ⟨rfl, rfl, by decide⟩, ?_, ?_⟩
  · intro h
    have := (h5.1.1 h).2.2
    simp [isSignedIntegerType, Example.UnsignedCharTy, kindValue] at this
  · intro h
    have := (h6.2.1 h).1
    cases this


/-! ## Auxiliary lemmas on the registry of signatures -/

theorem create_getProfile (ResTy : QualType) (ArgTys : List QualType) :
    (CGFunctionInfo.create ResTy ArgTys).getProfile = CGFunctionInfo.Profile ResTy ArgTys := by
  simp [CGFunctionInfo.create, CGFunctionInfo.getProfile, CGFunctionInfo.Profile,
    List.map_map, Function.comp_def]

theorem X86_64ABIInfo.computeInfoArgs_types :
    ∀ (args : List ArgInfo) (freeIntRegs freeSSERegs : Nat)
      (r : List ArgInfo × Nat × Nat),
      X86_64ABIInfo.computeInfoArgs args freeIntRegs freeSSERegs = .ok r →
        r.1.map (fun it => it.type) = args.map fun it => it.type
  | [], _, _, r, h => by
    simp only [X86_64ABIInfo.computeInfoArgs, pure, Except.pure] at h
    cases h
    rfl
  | it :: rest, freeIntRegs, freeSSERegs, r, h => by
    simp only [X86_64ABIInfo.computeInfoArgs, bind, Except.bind] at h
    cases hc : X86_64ABIInfo.classifyArgumentType it.type with
    | error e => rw [hc] at h; cases h
    | ok c =>
      rw [hc] at h
      simp only at h
      split_ifs at h
      · cases ht : X86_64ABIInfo.computeInfoArgs rest (freeIntRegs - c.2.1)
            (freeSSERegs - c.2.2) with
        | error e => rw [ht] at h; cases h
        | ok t =>
          rw [ht] at h
          simp only [pure, Except.pure] at h
          cases h
          simp [X86_64ABIInfo.computeInfoArgs_types rest _ _ t ht]
      · cases ht : X86_64ABIInfo.computeInfoArgs rest freeIntRegs freeSSERegs with
        | error e => rw [ht] at h; cases h
        | ok t =>
          rw [ht] at h
          simp only [pure, Except.pure] at h
          cases h
          simp [X86_64ABIInfo.computeInfoArgs_types rest _ _ t ht]

theorem computeInfo_getProfile (TheABIInfo : ABIInfo) (FI FI2 : CGFunctionInfo)
    (h : TheABIInfo.computeInfo FI = .ok FI2) : FI2.getProfile = FI.getProfile := by
  cases TheABIInfo with
  | Default =>
    simp only [ABIInfo.computeInfo, pure, Except.pure, Except.ok.injEq] at h
    subst h
    simp [DefaultABIInfo.computeInfo, CGFunctionInfo.getProfile, List.map_map,
      Function.comp_def]
  | X86_32 IsDarwin =>
    simp only [ABIInfo.computeInfo, pure, Except.pure, Except.ok.injEq] at h
    subst h
    simp [X86_32ABIInfo.computeInfo, CGFunctionInfo.getProfile, List.map_map,
      Function.comp_def]
  | ARM =>
    simp only [ABIInfo.computeInfo, pure, Except.pure, Except.ok.injEq] at h
    subst h
    simp [ARMABIInfo.computeInfo, CGFunctionInfo.getProfile, List.map_map,
      Function.comp_def]
  | X86_64 =>
    simp only [ABIInfo.computeInfo, X86_64ABIInfo.computeInfo,
      X86_64ABIInfo.computeInfoRegs, bind, Except.bind] at h
    cases hr : X86_64ABIInfo.classifyReturnType FI.ret.type with
    | error e => rw [hr] at h; cases h
    | ok retInfo =>
      rw [hr] at h
      simp only at h
      cases ha : X86_64ABIInfo.computeInfoArgs FI.args 6 8 with
      | error e => rw [ha] at h; cases h
      | ok r =>
        rw [ha] at h
        simp only [pure, Except.pure, Except.ok.injEq] at h
        subst h
        simp [CGFunctionInfo.getProfile, X86_64ABIInfo.computeInfoArgs_types _ _ _ r ha]

theorem FindNodeOrInsertPos_some :
    ∀ (FunctionInfos : List CGFunctionInfo) (ID : List QualType) (i : Nat),
      FindNodeOrInsertPos FunctionInfos ID = some i →
        ∃ FI, FunctionInfos[i]? = some FI ∧ FI.getProfile = ID
  | [], _, _, h => by simp [FindNodeOrInsertPos] at h
  | FI :: rest, ID, i, h => by
    unfold FindNodeOrInsertPos at h
    split_ifs at h with hp
    · cases h
      exact ⟨FI, by simp, hp⟩
    · cases hr : FindNodeOrInsertPos rest ID with
      | none => rw [hr] at h; cases h
      | some k =>
        rw [hr] at h
        simp only [Option.map_some', Option.some.injEq] at h
        subst h
        obtain ⟨G, hG, hGp⟩ := FindNodeOrInsertPos_some rest ID k hr
        exact ⟨G, by simpa using hG, hGp⟩

theorem FindNodeOrInsertPos_append_some :
    ∀ (FunctionInfos more : List CGFunctionInfo) (ID : List QualType) (i : Nat),
      FindNodeOrInsertPos FunctionInfos ID = some i →
        FindNodeOrInsertPos (FunctionInfos ++ more) ID = some i
  | [], _, _, _, h => by simp [FindNodeOrInsertPos] at h
  | FI :: rest, more, ID, i, h => by
    simp only [List.cons_append]
    unfold FindNodeOrInsertPos at h ⊢
    split_ifs at h ⊢ with hp
    · exact h
    · cases hr : FindNodeOrInsertPos rest ID with
      | none => rw [hr] at h; cases h
      | some k =>
        rw [hr] at h
        rw [FindNodeOrInsertPos_append_some rest more ID k hr]
        exact h

theorem FindNodeOrInsertPos_append_none :
    ∀ (FunctionInfos : List CGFunctionInfo) (FI : CGFunctionInfo) (ID : List QualType),
      FindNodeOrInsertPos FunctionInfos ID = none → FI.getProfile = ID →
        FindNodeOrInsertPos (FunctionInfos ++ [FI]) ID = some FunctionInfos.length
  | [], FI, ID, _, hp => by simp [FindNodeOrInsertPos, hp]
  | G :: rest, FI, ID, h, hp => by
    simp only [List.cons_append, List.length_cons]
    unfold FindNodeOrInsertPos at h ⊢
    split_ifs at h ⊢ with hg
    cases hr : FindNodeOrInsertPos rest ID with
    | some k => rw [hr] at h; cases h
    | none =>
      rw [FindNodeOrInsertPos_append_none rest FI ID hr hp]
      rfl

theorem getFunctionInfo_cases (TheABIInfo : ABIInfo) (FunctionInfos : List CGFunctionInfo)
    (ResTy : QualType) (ArgTys : List QualType) (F1 : List CGFunctionInfo) (i : Nat)
    (h : getFunctionInfo TheABIInfo FunctionInfos ResTy ArgTys = .ok (F1, i)) :
    (FindNodeOrInsertPos FunctionInfos (CGFunctionInfo.Profile ResTy ArgTys) = some i ∧
      F1 = FunctionInfos) ∨
    (FindNodeOrInsertPos FunctionInfos (CGFunctionInfo.Profile ResTy ArgTys) = none ∧
      i = FunctionInfos.length ∧
      ∃ FI, TheABIInfo.computeInfo (CGFunctionInfo.create ResTy ArgTys) = .ok FI ∧
        F1 = FunctionInfos ++ [FI]) := by
  cases hf : FindNodeOrInsertPos FunctionInfos (CGFunctionInfo.Profile ResTy ArgTys) with
  | some k =>
    simp only [getFunctionInfo, hf, pure, Except.pure, Except.ok.injEq, Prod.mk.injEq] at h
    exact Or.inl ⟨by rw [h.2], h.1.symm⟩
  | none =>
    simp only [getFunctionInfo, hf, bind, Except.bind] at h
    cases hc : TheABIInfo.computeInfo (CGFunctionInfo.create ResTy ArgTys) with
    | error e => rw [hc] at h; cases h
    | ok FI =>
      rw [hc] at h
      simp only [pure, Except.pure, Except.ok.injEq, Prod.mk.injEq] at h
      exact Or.inr ⟨rfl, h.2.symm, FI, rfl, h.1.symm⟩

theorem getFunctionInfo_find (TheABIInfo : ABIInfo) (FunctionInfos : List CGFunctionInfo)
    (ResTy : QualType) (ArgTys : List QualType) (F1 : List CGFunctionInfo) (i : Nat)
    (h : getFunctionInfo TheABIInfo FunctionInfos ResTy ArgTys = .ok (F1, i)) :
    FindNodeOrInsertPos F1 (CGFunctionInfo.Profile ResTy ArgTys) = some i := by
  rcases getFunctionInfo_cases _ _ _ _ _ _ h with ⟨hf, rfl⟩ | ⟨hf, rfl, FI, hc, rfl⟩
  · exact hf
  · refine FindNodeOrInsertPos_append_none _ FI _ hf ?_
    rw [computeInfo_getProfile _ _ _ hc, create_getProfile]

theorem getFunctionInfo_found (TheABIInfo : ABIInfo) (FunctionInfos : List CGFunctionInfo)
    (ResTy : QualType) (ArgTys : List QualType) (i : Nat)
    (h : FindNodeOrInsertPos FunctionInfos (CGFunctionInfo.Profile ResTy ArgTys) = some i) :
    getFunctionInfo TheABIInfo FunctionInfos ResTy ArgTys = .ok (FunctionInfos, i) := by
  simp only [getFunctionInfo, h]
  rfl

/-! ## Properties of the registry of signatures -/

/-- C28: from any registry, two successive calls `getFunctionInfo(R, A)` and
`getFunctionInfo(R2, A2)` that return, return the same entry exactly when `R = R2` and
`A = A2`. A call that finds an entry returns it and the registry as it was, without
calling `computeInfo`. Every call that returns leaves the earlier entries as they were,
and a second call with the same types returns the same entry and adds nothing. With an
ABI other than x86-64, whose classifier can abort, every call returns. -/
theorem C28_signature_interning (TheABIInfo : ABIInfo)
    (FunctionInfos : List CGFunctionInfo) (R R2 : QualType) (A A2 : List QualType) :
    (∀ F1 i F2 j, getFunctionInfo TheABIInfo FunctionInfos R A = .ok (F1, i) →
      getFunctionInfo TheABIInfo F1 R2 A2 = .ok (F2, j) → (i = j ↔ R = R2 ∧ A = A2)) ∧
    (∀ i, FindNodeOrInsertPos FunctionInfos (CGFunctionInfo.Profile R A) = some i →
      getFunctionInfo TheABIInfo FunctionInfos R A = .ok (FunctionInfos, i)) ∧
    (∀ F1 i, getFunctionInfo TheABIInfo FunctionInfos R A = .ok (F1, i) →
      F1.take FunctionInfos.length = FunctionInfos ∧
      F1.length ≤ FunctionInfos.length + 1 ∧
      getFunctionInfo TheABIInfo F1 R A = .ok (F1, i)) ∧
    (TheABIInfo ≠ .X86_64 →
      ∃ r, getFunctionInfo TheABIInfo FunctionInfos R A = .ok r) := by
  refine ⟨?_, fun i h => getFunctionInfo_found _ _ _ _ _ h, ?_, ?_⟩
  · intro F1 i F2 j h1 h2
    have hf1 := getFunctionInfo_find _ _ _ _ _ _ h1
    obtain ⟨G, hG, hp⟩ := FindNodeOrInsertPos_some _ _ _ hf1
    rcases getFunctionInfo_cases _ _ _ _ _ _ h2 with ⟨hf2, _⟩ | ⟨hf2, hj, _⟩
    · constructor
      · intro hij
        subst hij
        obtain ⟨G2, hG2, hp2⟩ := FindNodeOrInsertPos_some _ _ _ hf2
        rw [hG] at hG2
        cases hG2
        rw [hp] at hp2
        simpa [CGFunctionInfo.Profile] using hp2
      · rintro ⟨rfl, rfl⟩
        rw [hf1] at hf2
        exact Option.some.inj hf2
    · constructor
      · intro hij
        have hlt : i < F1.length := by
          by_contra hge
          rw [List.getElem?_eq_none (by omega)] at hG
          cases hG
        omega
      · rintro ⟨rfl, rfl⟩
        rw [hf1] at hf2
        cases hf2
  · intro F1 i h
    refine ⟨?_, ?_, getFunctionInfo_found _ _ _ _ _ (getFunctionInfo_find _ _ _ _ _ _ h)⟩
    · rcases getFunctionInfo_cases _ _ _ _ _ _ h with ⟨_, rfl⟩ | ⟨_, _, FI, _, rfl⟩
      · simp
      · simp
    · rcases getFunctionInfo_cases _ _ _ _ _ _ h with ⟨_, rfl⟩ | ⟨_, _, FI, _, rfl⟩
      · omega
      · simp
  · intro hABI
    cases hf : FindNodeOrInsertPos FunctionInfos (CGFunctionInfo.Profile R A) with
    | some k => exact ⟨_, getFunctionInfo_found _ _ _ _ _ hf⟩
    | none =>
      cases TheABIInfo with
      | X86_64 => exact absurd rfl hABI
      | Default =>
        exact ⟨_, by simp only [getFunctionInfo, hf, ABIInfo.computeInfo, bind, Except.bind,
          pure, Except.pure]; rfl⟩
      | X86_32 IsDarwin =>
        exact ⟨_, by simp only [getFunctionInfo, hf, ABIInfo.computeInfo, bind, Except.bind,
          pure, Except.pure]; rfl⟩
      | ARM =>
        exact ⟨_, by simp only [getFunctionInfo, hf, ABIInfo.computeInfo, bind, Except.bind,
          pure, Except.pure]; rfl⟩

/-- C28 on ARM, from the empty registry: `short f(int)` is interned as entry 0,
`short f(struct { char c; })` as entry 1, and `short f(int)` again is entry 0, the
registry staying as it was. -/
theorem C28_signature_interning_witness :
    getFunctionInfo .ARM [] Example.ShortTy [Example.IntTy] =
      .ok ([ARMABIInfo.computeInfo
        (CGFunctionInfo.create Example.ShortTy [Example.IntTy])], 0) ∧
    (∃ F2, getFunctionInfo .ARM
        [ARMABIInfo.computeInfo (CGFunctionInfo.create Example.ShortTy [Example.IntTy])]
        Example.ShortTy [Example.StructChar] = .ok (F2, 1)) ∧
    ¬ (Example.ShortTy = Example.ShortTy ∧ [Example.IntTy] = [Example.StructChar]) ∧
    getFunctionInfo .ARM
      [ARMABIInfo.computeInfo (CGFunctionInfo.create Example.ShortTy [Example.IntTy])]
      Example.ShortTy [Example.IntTy] =
      .ok ([ARMABIInfo.computeInfo
        (CGFunctionInfo.create Example.ShortTy [Example.IntTy])], 0) := by
  have h1 : getFunctionInfo .ARM [] Example.ShortTy [Example.IntTy] =
      .ok ([ARMABIInfo.computeInfo
        (CGFunctionInfo.create Example.ShortTy [Example.IntTy])], 0) := by
    simp [getFunctionInfo, FindNodeOrInsertPos, ABIInfo.computeInfo, bind, Except.bind,
      pure, Except.pure]
  have h2 : getFunctionInfo .ARM
      [ARMABIInfo.computeInfo (CGFunctionInfo.create Example.ShortTy [Example.IntTy])]
      Example.ShortTy [Example.StructChar] =
      .ok ([ARMABIInfo.computeInfo (CGFunctionInfo.create Example.ShortTy [Example.IntTy]),
        ARMABIInfo.computeInfo (CGFunctionInfo.create Example.ShortTy [Example.StructChar])],
        1) := by
    have hne : ¬ ([Example.ShortTy, Example.IntTy] = [Example.ShortTy, Example.StructChar]) := by
      decide
    simp [getFunctionInfo, FindNodeOrInsertPos, ABIInfo.computeInfo, bind, Except.bind,
      pure, Except.pure, CGFunctionInfo.getProfile, CGFunctionInfo.Profile,
      ARMABIInfo.computeInfo, CGFunctionInfo.create, hne]
  have key := C28_signature_interning .ARM [] Example.ShortTy Example.ShortTy
    [Example.IntTy] [Example.StructChar]
  refine ⟨h1, ⟨_, h2⟩, ?_, (key.2.2.1 _ _ h1).2.2⟩
  intro h
  have := (key.1 _ _ _ _ h1 h2).2 h
  omega

/-! ## Properties of the coercion through memory -/

/-- C29: for a logical value of `s` bytes and a physical type of `d ≥ s` bytes,
`CreateCoercedLoad` returns a physical value of `d` bytes whose first `s` bytes are those
of the logical value, unchanged, and `CreateCoercedStore` of that value into a slot of
the logical type gives back the `s` bytes of the logical value. -/
theorem C29_coercion_round_trip (Src : List Byte) (d : Nat) (h : d ≥ Src.length) :
    ∃ V, CreateCoercedLoad Src d = .ok V ∧ V.length = d ∧ V.take Src.length = Src ∧
      CreateCoercedStore V Src.length = .ok Src := by
  by_cases heq : Src.length = d
  · refine ⟨Src, ?_, heq, by simp, ?_⟩
    · simp [CreateCoercedLoad, heq, pure, Except.pure]
    · simp [CreateCoercedStore, pure, Except.pure]
  · have hlt : Src.length < d := lt_of_le_of_ne h heq
    refine ⟨Src ++ List.replicate (d - Src.length) none, ?_, ?_, by simp, ?_⟩
    · simp [CreateCoercedLoad, heq, hlt, assertThat, bind, Except.bind, pure, Except.pure]
    · simp only [List.length_append, List.length_replicate]
      omega
    · have hne : ¬ (Src.length + (d - Src.length) = Src.length) := by omega
      have hgt : Src.length < Src.length + (d - Src.length) := by omega
      simp [CreateCoercedStore, hne, hgt, assertThat, bind, Except.bind, pure, Except.pure]

/-- C29 at a logical value of four bytes reloaded through a physical type of eight
bytes. -/
theorem C29_coercion_round_trip_witness :
    ∃ V, CreateCoercedLoad [some 1, some 2, some 3, some 4] 8 = .ok V ∧ V.length = 8 ∧
      V.take 4 = [some 1, some 2, some 3, some 4] ∧
      CreateCoercedStore V 4 = .ok [some 1, some 2, some 3, some 4] :=
  C29_coercion_round_trip [some 1, some 2, some 3, some 4] 8 (by decide)

/-- C30, counterexample: on 32-bit x86 (Darwin) a function returning
`struct { char c; } __attribute__((aligned(4)))` (four bytes) has the return disposition
`Coerce` to an 8-bit integer (one byte). The reload of `EmitFunctionEpilog` does not yield
the first byte: it fails the assertion "Coercion is losing source bits!" of
`CreateCoercedLoad`. -/
theorem C30_counterexample :
    X86_32ABIInfo.computeInfo true (CGFunctionInfo.create Example.OverAlignedChar []) =
      { ret := { type := Example.OverAlignedChar, info := .Coerce (.IntegerTy 8) },
        args := [] } ∧
    getTypeStorageSize Example.OverAlignedChar = 4 ∧
    getTypePaddedSize (.IntegerTy 8) = some 1 ∧
    EmitFunctionEpilog (fun P => (getTypePaddedSize P).getD 0)
      (X86_32ABIInfo.computeInfo true (CGFunctionInfo.create Example.OverAlignedChar []))
      (some [some 65, some 0, some 0, some 0]) = .error .coercionLosingSourceBits ∧
    EmitFunctionEpilog (fun P => (getTypePaddedSize P).getD 0)
      (X86_32ABIInfo.computeInfo true (CGFunctionInfo.create Example.OverAlignedChar []))
      (some [some 65, some 0, some 0, some 0]) ≠ .ok (some [some 65]) := by
  refine ⟨rfl, rfl, rfl, rfl, ?_⟩
  rw [show EmitFunctionEpilog (fun P => (getTypePaddedSize P).getD 0)
      (X86_32ABIInfo.computeInfo true (CGFunctionInfo.create Example.OverAlignedChar []))
      (some [some 65, some 0, some 0, some 0]) = .error .coercionLosingSourceBits from rfl]
  simp

/-- C30, as the code has it: when the epilogue reloads a logical return value of `s`
bytes through a coerced physical type of `d < s` bytes, `CreateCoercedLoad` fails its
assertion "Coercion is losing source bits!" and `EmitFunctionEpilog` with it; the
operation that truncates to the first `d` bytes is `CreateCoercedStore`, when the value
stored is larger than its destination. -/
theorem C30_truncating_reload_aborts (paddedSize : LLVMType → Nat) (FI : CGFunctionInfo)
    (CoerceToType : LLVMType) (V : List Byte) (hret : FI.ret.info = .Coerce CoerceToType)
    (h : paddedSize CoerceToType < V.length) :
    CreateCoercedLoad V (paddedSize CoerceToType) = .error .coercionLosingSourceBits ∧
    EmitFunctionEpilog paddedSize FI (some V) = .error .coercionLosingSourceBits ∧
    CreateCoercedStore V (paddedSize CoerceToType) =
      .ok (V.take (paddedSize CoerceToType)) := by
  have hne : ¬ (V.length = paddedSize CoerceToType) := by omega
  have hnl : ¬ (V.length < paddedSize CoerceToType) := by omega
  have hload : CreateCoercedLoad V (paddedSize CoerceToType) =
      .error .coercionLosingSourceBits := by
    simp [CreateCoercedLoad, hne, hnl, assertThat, bind, Except.bind]
  refine ⟨hload, ?_, ?_⟩
  · simp [EmitFunctionEpilog, hret, hload, bind, Except.bind]
  · simp [CreateCoercedStore, hne, h, assertThat, bind, Except.bind, pure, Except.pure]

/-- C30 at a return value of four bytes and a coerced type of one byte. -/
theorem C30_truncating_reload_aborts_witness :
    EmitFunctionEpilog (fun _ => 1)
      { ret := { type := Example.IntTy, info := .Coerce (.IntegerTy 8) }, args := [] }
      (some [some 1, some 2, some 3, some 4]) = .error .coercionLosingSourceBits ∧
    CreateCoercedStore [some 1, some 2, some 3, some 4] 1 = .ok [some 1] :=
  ⟨(C30_truncating_reload_aborts (fun _ => 1)
      { ret := { type := Example.IntTy, info := .Coerce (.IntegerTy 8) }, args := [] }
      (.IntegerTy 8) [some 1, some 2, some 3, some 4] rfl (by decide)).2.1,
    (C30_truncating_reload_aborts (fun _ => 1)
      { ret := { type := Example.IntTy, info := .Coerce (.IntegerTy 8) }, args := [] }
      (.IntegerTy 8) [some 1, some 2, some 3, some 4] rfl (by decide)).2.2⟩


/-! ## Auxiliary lemmas on the dispositions the classifiers return -/

namespace X86_64ABIInfo

theorem getCoerceResult_kind (T : QualType) (P : LLVMType) :
    getCoerceResult T P = .Direct ∨ getCoerceResult T P = .Coerce P := by
  rw [getCoerceResult_eq]
  split <;> simp

theorem getCoerceResult_register (T : QualType) (P : LLVMType) :
    getCoerceResult T P = .Direct ∨ ∃ Q, getCoerceResult T P = .Coerce Q :=
  (getCoerceResult_kind T P).imp id (fun hk => ⟨P, hk⟩)

theorem getCoerceResult_return (T : QualType) (P : LLVMType) :
    getCoerceResult T P = .Direct ∨ getCoerceResult T P = .Ignore ∨
      (∃ Q, getCoerceResult T P = .Coerce Q) ∨ getCoerceResult T P = .Indirect 0 :=
  (getCoerceResult_kind T P).imp id (fun hk => Or.inr (Or.inl ⟨P, hk⟩))

theorem classifyArgumentType_cases (Ty : QualType) (r : ABIArgInfo × Nat × Nat)
    (h : classifyArgumentType Ty = .ok r) :
    (r.2.1 = 0 ∧ r.2.2 = 0 ∧ (r.1 = .Ignore ∨ r.1 = .Indirect 0)) ∨
    (1 ≤ r.2.1 + r.2.2 ∧ r.2.1 + r.2.2 ≤ 2 ∧ (r.1 = .Direct ∨ ∃ P, r.1 = .Coerce P) ∧
      (r.2.1 ≠ 0 → r.2.2 ≠ 0 →
        ∃ TyLo TyHi, r.1 = .Coerce (.StructTy [TyLo, TyHi] false) ∧
          xor (isFloatingPoint TyLo) (isFloatingPoint TyHi) = true)) := by
  unfold classifyArgumentType at h
  cases hc : classify Ty 0 with
  | error e => rw [hc] at h; cases h
  | ok p =>
    obtain ⟨Lo, Hi⟩ := p
    rw [hc] at h
    cases Lo <;> cases Hi <;>
      simp only [assertThat, bind, Except.bind, pure, Except.pure, throw, throwThe,
        MonadExceptOf.throw, ne_eq, not_true_eq_false, not_false_eq_true, or_self, or_true,
        or_false, true_or, false_or, decide_True, decide_False, if_true, if_false,
        reduceCtorEq, Except.ok.injEq] at h <;>
      first
      | exact h.elim
      | (subst h
         first
         | exact Or.inl ⟨rfl, rfl, Or.inl rfl⟩
         | exact Or.inl ⟨rfl, rfl, Or.inr rfl⟩
         | (refine Or.inr ⟨by simp, by simp, ?_, ?_⟩
            · dsimp only
              exact getCoerceResult_register _ _
            · intro h1 h2
              first
              | exact absurd rfl h1
              | exact absurd rfl h2
              | exact ⟨_, _, rfl, rfl⟩))

theorem classifyArgumentType_needed_zero (Ty : QualType) (r : ABIArgInfo × Nat × Nat)
    (h : classifyArgumentType Ty = .ok r) :
    (r.2.1 = 0 ∧ r.2.2 = 0) ↔ ¬ (r.1 = .Direct ∨ ∃ P, r.1 = .Coerce P) := by
  rcases classifyArgumentType_cases Ty r h with ⟨h1, h2, h3⟩ | ⟨h1, _, h3, _⟩
  · constructor
    · rintro - (hd | ⟨P, hP⟩)
      · rcases h3 with h3 | h3 <;> rw [h3] at hd <;> cases hd
      · rcases h3 with h3 | h3 <;> rw [h3] at hP <;> cases hP
    · exact fun _ => ⟨h1, h2⟩
  · constructor
    · rintro ⟨ha, hb⟩
      omega
    · intro hn
      exact absurd h3 hn

theorem classifyReturnType_kinds (RetTy : QualType) (r : ABIArgInfo)
    (h : classifyReturnType RetTy = .ok r) :
    r = .Direct ∨ r = .Ignore ∨ (∃ P, r = .Coerce P) ∨ r = .Indirect 0 := by
  unfold classifyReturnType at h
  cases hc : classify RetTy 0 with
  | error e => rw [hc] at h; cases h
  | ok p =>
    obtain ⟨Lo, Hi⟩ := p
    rw [hc] at h
    cases Lo <;> cases Hi <;>
      simp only [assertThat, bind, Except.bind, pure, Except.pure, throw, throwThe,
        MonadExceptOf.throw, ne_eq, not_true_eq_false, not_false_eq_true, or_self, or_true,
        or_false, true_or, false_or, decide_True, decide_False, if_true, if_false,
        reduceCtorEq, Except.ok.injEq] at h <;>
      first
      | exact h.elim
      | (subst h
         first
         | exact Or.inr (Or.inl rfl)
         | exact Or.inr (Or.inr (Or.inr rfl))
         | exact getCoerceResult_return _ _)

end X86_64ABIInfo


/-! ## Auxiliary lemmas on the assertions about the return disposition -/

theorem notReturnError_ok {α : Type} (a : α) : notReturnError (Except.ok a) := by
  constructor <;> intro h <;> cases h

theorem notReturnError_error {α : Type} (e : AssertFail) (h1 : e ≠ .invalidReturnKind)
    (h2 : e ≠ .alignUnusedOnIndirectReturn) :
    notReturnError (Except.error e : Except AssertFail α) := by
  constructor <;> intro h <;> cases h
  · exact h1 rfl
  · exact h2 rfl

theorem notReturnError_bind {α β : Type} (x : Except AssertFail α)
    (f : α → Except AssertFail β) (hx : notReturnError x)
    (hf : ∀ a, notReturnError (f a)) : notReturnError (x >>= f) := by
  cases x with
  | ok a => exact hf a
  | error e =>
    constructor <;> intro h
    · exact hx.1 (by simpa [bind, Except.bind] using h)
    · exact hx.2 (by simpa [bind, Except.bind] using h)

theorem notReturnError_assertThat (c : Bool) (e : AssertFail)
    (h1 : e ≠ .invalidReturnKind) (h2 : e ≠ .alignUnusedOnIndirectReturn) :
    notReturnError (assertThat c e) := by
  unfold assertThat
  split
  · exact notReturnError_ok _
  · exact notReturnError_error e h1 h2

mutual
theorem notReturnError_GetExpandedTypes :
    ∀ (T : QualType) (ArgTys : List LLVMType), notReturnError (GetExpandedTypes T ArgTys)
  | .record isUnion hasFlexibleArrayMember fields size align, ArgTys => by
    unfold GetExpandedTypes
    refine notReturnError_bind _ _ (notReturnError_assertThat _ _ (by simp) (by simp)) ?_
    intro _
    refine notReturnError_bind _ _ (notReturnError_assertThat _ _ (by simp) (by simp)) ?_
    intro _
    exact notReturnError_GetExpandedTypesFields fields ArgTys
  | .builtin _ _ _, _ => notReturnError_error _ (by simp) (by simp)
  | .enumTy _, _ => notReturnError_error _ (by simp) (by simp)
  | .pointer _ _, _ => notReturnError_error _ (by simp) (by simp)
  | .pointerLike _ _, _ => notReturnError_error _ (by simp) (by simp)
  | .vector _ _ _, _ => notReturnError_error _ (by simp) (by simp)
  | .complex _ _ _, _ => notReturnError_error _ (by simp) (by simp)
  | .constantArray _ _ _ _, _ => notReturnError_error _ (by simp) (by simp)
  | .other _ _, _ => notReturnError_error _ (by simp) (by simp)
theorem notReturnError_GetExpandedTypesFields :
    ∀ (fields : FieldList) (ArgTys : List LLVMType),
      notReturnError (GetExpandedTypesFields fields ArgTys)
  | .nil, ArgTys => notReturnError_ok _
  | .cons FT fieldOffset bitWidth rest, ArgTys => by
    unfold GetExpandedTypesFields
    refine notReturnError_bind _ _ (notReturnError_assertThat _ _ (by simp) (by simp)) ?_
    intro _
    split
    · refine notReturnError_bind _ _ (notReturnError_GetExpandedTypes FT ArgTys) ?_
      intro a
      exact notReturnError_GetExpandedTypesFields rest a
    · exact notReturnError_GetExpandedTypesFields rest _
end

theorem notReturnError_GetFunctionTypeArgs :
    ∀ (args : List ArgInfo) (ArgTys : List LLVMType),
      notReturnError (GetFunctionTypeArgs args ArgTys)
  | [], _ => notReturnError_ok _
  | it :: rest, ArgTys => by
    unfold GetFunctionTypeArgs
    split
    · exact notReturnError_GetFunctionTypeArgs rest _
    · exact notReturnError_GetFunctionTypeArgs rest _
    · exact notReturnError_GetFunctionTypeArgs rest _
    · exact notReturnError_GetFunctionTypeArgs rest _
    · refine notReturnError_bind _ _ (notReturnError_GetExpandedTypes _ _) ?_
      intro a
      exact notReturnError_GetFunctionTypeArgs rest a

theorem notReturnError_GetFunctionType (FI : CGFunctionInfo) (IsVariadic : Bool)
    (h : isReturnDisposition FI.ret.info = true) :
    notReturnError (GetFunctionType FI IsVariadic) := by
  unfold GetFunctionType
  cases hinfo : FI.ret.info with
  | Expand => rw [hinfo] at h; cases h
  | Indirect align =>
    rw [hinfo] at h
    have h0 : align = 0 := by simpa [isReturnDisposition] using h
    subst h0
    refine notReturnError_bind _ _ (notReturnError_ok _) ?_
    intro _
    beta_reduce
    refine notReturnError_bind _ _ (notReturnError_ok _) ?_
    intro a
    beta_reduce
    refine notReturnError_bind _ _ (notReturnError_GetFunctionTypeArgs _ _) ?_
    intro b
    exact notReturnError_ok _
  | _ =>
    refine notReturnError_bind _ _ (notReturnError_ok _) ?_
    intro a
    beta_reduce
    refine notReturnError_bind _ _ (notReturnError_GetFunctionTypeArgs _ _) ?_
    intro b
    exact notReturnError_ok _

theorem notReturnError_ConstructAttributeListArgs :
    ∀ (args : List ArgInfo) (Index : Nat) (FuncAttrs : Attributes)
      (PAL : List AttributeWithIndex),
      notReturnError (ConstructAttributeListArgs args Index FuncAttrs PAL)
  | [], _, _, _ => notReturnError_ok _
  | it :: rest, Index, FuncAttrs, PAL => by
    unfold ConstructAttributeListArgs
    refine notReturnError_bind _ _ ?_ ?_
    · unfold ConstructAttributeListArg
      split
      · exact notReturnError_ok _
      · exact notReturnError_ok _
      · exact notReturnError_ok _
      · exact notReturnError_ok _
      · refine notReturnError_bind _ _ (notReturnError_GetExpandedTypes _ _) ?_
        intro a
        exact notReturnError_ok _
    · intro r
      exact notReturnError_ConstructAttributeListArgs rest _ _ _

theorem notReturnError_ConstructAttributeList (FI : CGFunctionInfo)
    (TargetDecl : Option Decl) (PAL : List AttributeWithIndex)
    (h : isReturnDisposition FI.ret.info = true) :
    notReturnError (ConstructAttributeList FI TargetDecl PAL) := by
  unfold ConstructAttributeList
  cases hinfo : FI.ret.info with
  | Expand => rw [hinfo] at h; cases h
  | _ =>
    refine notReturnError_bind _ _ (notReturnError_ok _) ?_
    intro a
    beta_reduce
    refine notReturnError_bind _ _ (notReturnError_ConstructAttributeListArgs _ _ _ _) ?_
    intro b
    exact notReturnError_ok _

theorem notReturnError_CreateCoercedLoad (Src : List Byte) (DstSize : Nat) :
    notReturnError (CreateCoercedLoad Src DstSize) := by
  unfold CreateCoercedLoad
  split
  · exact notReturnError_ok _
  · refine notReturnError_bind _ _ (notReturnError_assertThat _ _ (by simp) (by simp)) ?_
    intro _
    exact notReturnError_ok _

theorem notReturnError_CreateCoercedStore (Src : List Byte) (DstSize : Nat) :
    notReturnError (CreateCoercedStore Src DstSize) := by
  unfold CreateCoercedStore
  split
  · exact notReturnError_ok _
  · refine notReturnError_bind _ _ (notReturnError_assertThat _ _ (by simp) (by simp)) ?_
    intro _
    exact notReturnError_ok _

theorem notReturnError_EmitFunctionEpilog (paddedSize : LLVMType → Nat)
    (FI : CGFunctionInfo) (ReturnValue : Option (List Byte))
    (h : isReturnDisposition FI.ret.info = true) :
    notReturnError (EmitFunctionEpilog paddedSize FI ReturnValue) := by
  unfold EmitFunctionEpilog
  cases ReturnValue with
  | none => exact notReturnError_ok _
  | some V =>
    cases hinfo : FI.ret.info with
    | Expand => rw [hinfo] at h; cases h
    | Coerce CoerceToType =>
      refine notReturnError_bind _ _ (notReturnError_CreateCoercedLoad _ _) ?_
      intro a
      exact notReturnError_ok _
    | _ => exact notReturnError_ok _


mutual
theorem notReturnError_ExpandTypeToArgs :
    ∀ (T : QualType) (RV : RValueKind) (Args : List LLVMType),
      notReturnError (ExpandTypeToArgs T RV Args)
  | .record isUnion hasFlexibleArrayMember fields size align, RV, Args => by
    unfold ExpandTypeToArgs
    refine notReturnError_bind _ _ (notReturnError_assertThat _ _ (by simp) (by simp)) ?_
    intro _
    refine notReturnError_bind _ _ (notReturnError_assertThat _ _ (by simp) (by simp)) ?_
    intro _
    exact notReturnError_ExpandTypeToArgsFields fields Args
  | .builtin _ _ _, _, _ => notReturnError_error _ (by simp) (by simp)
  | .enumTy _, _, _ => notReturnError_error _ (by simp) (by simp)
  | .pointer _ _, _, _ => notReturnError_error _ (by simp) (by simp)
  | .pointerLike _ _, _, _ => notReturnError_error _ (by simp) (by simp)
  | .vector _ _ _, _, _ => notReturnError_error _ (by simp) (by simp)
  | .complex _ _ _, _, _ => notReturnError_error _ (by simp) (by simp)
  | .constantArray _ _ _ _, _, _ => notReturnError_error _ (by simp) (by simp)
  | .other _ _, _, _ => notReturnError_error _ (by simp) (by simp)
theorem notReturnError_ExpandTypeToArgsFields :
    ∀ (fields : FieldList) (Args : List LLVMType),
      notReturnError (ExpandTypeToArgsFields fields Args)
  | .nil, Args => notReturnError_ok _
  | .cons FT fieldOffset bitWidth rest, Args => by
    unfold ExpandTypeToArgsFields
    split
    · refine notReturnError_bind _ _ (notReturnError_ExpandTypeToArgs FT _ Args) ?_
      intro a
      exact notReturnError_ExpandTypeToArgsFields rest a
    · exact notReturnError_ExpandTypeToArgsFields rest _
end

theorem notReturnError_EmitCallArgs (paddedSize : LLVMType → Nat) :
    ∀ (infos : List ArgInfo) (CallArgs : List CallArg) (Args : List LLVMType),
      notReturnError (EmitCallArgs paddedSize infos CallArgs Args)
  | [], [], _ => notReturnError_ok _
  | _ :: _, [], _ => notReturnError_ok _
  | [], _ :: _, _ => notReturnError_error _ (by simp) (by simp)
  | info_it :: infos, I :: rest, Args => by
    unfold EmitCallArgs
    split
    · exact notReturnError_EmitCallArgs paddedSize infos rest _
    · split
      · exact notReturnError_EmitCallArgs paddedSize infos rest _
      · exact notReturnError_EmitCallArgs paddedSize infos rest _
    · exact notReturnError_EmitCallArgs paddedSize infos rest _
    · refine notReturnError_bind _ _ (notReturnError_CreateCoercedLoad _ _) ?_
      intro a
      exact notReturnError_EmitCallArgs paddedSize infos rest _
    · refine notReturnError_bind _ _ (notReturnError_ExpandTypeToArgs _ _ _) ?_
      intro a
      exact notReturnError_EmitCallArgs paddedSize infos rest a

theorem notReturnError_EmitCall (paddedSize : LLVMType → Nat) (CallInfo : CGFunctionInfo)
    (CalleeDoesNotReturn : Bool) (CallArgs : List CallArg) (TargetDecl : Option Decl)
    (h : isReturnDisposition CallInfo.ret.info = true) :
    notReturnError
      (EmitCall paddedSize CallInfo CalleeDoesNotReturn CallArgs TargetDecl) := by
  unfold EmitCall
  refine notReturnError_bind _ _ (notReturnError_assertThat _ _ (by simp) (by simp)) ?_
  intro _
  refine notReturnError_bind _ _ (notReturnError_EmitCallArgs _ _ _ _) ?_
  intro Args
  refine notReturnError_bind _ _ (notReturnError_ConstructAttributeList _ _ _ h) ?_
  intro AttributeList
  beta_reduce
  cases hinfo : CallInfo.ret.info with
  | Expand => rw [hinfo] at h; cases h
  | Coerce CoerceToType =>
    dsimp only
    split_ifs
    · exact notReturnError_ok _
    · refine notReturnError_bind _ _ (notReturnError_CreateCoercedStore _ _) ?_
      intro a
      exact notReturnError_ok _
  | _ =>
    dsimp only
    split_ifs <;> exact notReturnError_ok _

theorem isReturnDisposition_iff (A : ABIArgInfo) :
    isReturnDisposition A = true ↔
      A = .Direct ∨ A = .Ignore ∨ (∃ P, A = .Coerce P) ∨ A = .Indirect 0 := by
  cases A <;> simp [isReturnDisposition]

theorem X86_32ABIInfo.classifyReturnType_kinds_x86_32 (IsDarwin : Bool) (RetTy : QualType) :
    isReturnDisposition (X86_32ABIInfo.classifyReturnType IsDarwin RetTy) = true := by
  unfold X86_32ABIInfo.classifyReturnType
  split_ifs
  · rfl
  · rfl
  · split
    · dsimp only
      split_ifs <;> rfl
    · rfl
    · dsimp only
      split_ifs <;> rfl
  · rfl

theorem ARMABIInfo.classifyReturnType_kinds_arm (RetTy : QualType) :
    isReturnDisposition (ARMABIInfo.classifyReturnType RetTy) = true := by
  unfold ARMABIInfo.classifyReturnType
  dsimp only
  split_ifs <;> rfl

theorem DefaultABIInfo.classifyReturnType_kinds_default (RetTy : QualType) :
    isReturnDisposition (DefaultABIInfo.classifyReturnType RetTy) = true := by
  unfold DefaultABIInfo.classifyReturnType
  split_ifs <;> rfl

theorem computeInfo_ret (TheABIInfo : ABIInfo) (FI FI2 : CGFunctionInfo)
    (h : TheABIInfo.computeInfo FI = .ok FI2) :
    isReturnDisposition FI2.ret.info = true := by
  cases TheABIInfo with
  | Default =>
    simp only [ABIInfo.computeInfo, pure, Except.pure, Except.ok.injEq] at h
    subst h
    exact DefaultABIInfo.classifyReturnType_kinds_default _
  | X86_32 IsDarwin =>
    simp only [ABIInfo.computeInfo, pure, Except.pure, Except.ok.injEq] at h
    subst h
    exact X86_32ABIInfo.classifyReturnType_kinds_x86_32 _ _
  | ARM =>
    simp only [ABIInfo.computeInfo, pure, Except.pure, Except.ok.injEq] at h
    subst h
    exact ARMABIInfo.classifyReturnType_kinds_arm _
  | X86_64 =>
    simp only [ABIInfo.computeInfo, X86_64ABIInfo.computeInfo,
      X86_64ABIInfo.computeInfoRegs, bind, Except.bind] at h
    cases hr : X86_64ABIInfo.classifyReturnType FI.ret.type with
    | error e => rw [hr] at h; cases h
    | ok retInfo =>
      rw [hr] at h
      simp only at h
      cases ha : X86_64ABIInfo.computeInfoArgs FI.args 6 8 with
      | error e => rw [ha] at h; cases h
      | ok r =>
        rw [ha] at h
        simp only [pure, Except.pure, Except.ok.injEq] at h
        subst h
        exact (isReturnDisposition_iff _).2 (X86_64ABIInfo.classifyReturnType_kinds _ _ hr)

/-! ## Properties of the return dispositions -/

/-- C31: the return classifier of every architecture (default, 32-bit x86 on Darwin and
elsewhere, ARM, and x86-64 whenever it returns) yields `Direct`, `Ignore`, `Coerce` or
`Indirect` with alignment 0, never `Expand` nor `Indirect` with another alignment. Hence
for a signature `computeInfo` has filled in, `GetFunctionType`, `ConstructAttributeList`,
`EmitFunctionEpilog` and `EmitCall` never stop on "Invalid ABI kind for return argument"
nor on "Align unused on indirect return.". -/
theorem C31_return_never_expanded (R : QualType) :
    (isReturnDisposition (DefaultABIInfo.classifyReturnType R) = true ∧
      (∀ IsDarwin, isReturnDisposition (X86_32ABIInfo.classifyReturnType IsDarwin R) = true) ∧
      isReturnDisposition (ARMABIInfo.classifyReturnType R) = true ∧
      (∀ r, X86_64ABIInfo.classifyReturnType R = .ok r → isReturnDisposition r = true)) ∧
    (∀ TheABIInfo A FI, ABIInfo.computeInfo TheABIInfo (CGFunctionInfo.create R A) = .ok FI →
      (FI.ret.info = .Direct ∨ FI.ret.info = .Ignore ∨ (∃ P, FI.ret.info = .Coerce P) ∨
        FI.ret.info = .Indirect 0) ∧
      (∀ IsVariadic, notReturnError (GetFunctionType FI IsVariadic)) ∧
      (∀ TargetDecl PAL, notReturnError (ConstructAttributeList FI TargetDecl PAL)) ∧
      (∀ paddedSize ReturnValue,
        notReturnError (EmitFunctionEpilog paddedSize FI ReturnValue)) ∧
      (∀ paddedSize CalleeDoesNotReturn CallArgs TargetDecl,
        notReturnError
          (EmitCall paddedSize FI CalleeDoesNotReturn CallArgs TargetDecl))) := by
  refine ⟨⟨DefaultABIInfo.classifyReturnType_kinds_default R,
    fun d => X86_32ABIInfo.classifyReturnType_kinds_x86_32 d R,
    ARMABIInfo.classifyReturnType_kinds_arm R,
    fun r hr => (isReturnDisposition_iff r).2
      (X86_64ABIInfo.classifyReturnType_kinds R r hr)⟩, ?_⟩
  intro TheABIInfo A FI h
  have hret := computeInfo_ret TheABIInfo _ FI h
  exact ⟨(isReturnDisposition_iff _).1 hret,
    fun v => notReturnError_GetFunctionType FI v hret,
    fun TD PAL => notReturnError_ConstructAttributeList FI TD PAL hret,
    fun ps RV => notReturnError_EmitFunctionEpilog ps FI RV hret,
    fun ps d CA TD => notReturnError_EmitCall ps FI d CA TD hret⟩

/-- C31 at `struct { long a; double b; } f(int)` on x86-64: the return value is coerced
to a pair of a 64-bit integer and a double, and `GetFunctionType` returns. -/
theorem C31_return_never_expanded_witness :
    X86_64ABIInfo.classifyReturnType Example.StructLongDouble =
      .ok (.Coerce (.StructTy [.IntegerTy 64, .DoubleTy] false)) ∧
    (∃ FI, ABIInfo.computeInfo .X86_64
        (CGFunctionInfo.create Example.StructLongDouble [Example.IntTy]) = .ok FI ∧
      notReturnError (GetFunctionType FI false) ∧
      notReturnError (EmitFunctionEpilog (fun _ => 16) FI (some []))) :=
  ⟨rfl, _, rfl,
    ((C31_return_never_expanded Example.StructLongDouble).2 .X86_64 [Example.IntTy] _
      rfl).2.1 false,
    ((C31_return_never_expanded Example.StructLongDouble).2 .X86_64 [Example.IntTy] _
      rfl).2.2.2.1 (fun _ => 16) (some [])⟩


/-! ## Properties of the variadic readers -/

theorem RoundUpToAlignment_four (v : Nat) (h : v < 4294967296) :
    RoundUpToAlignment v 4 = (v + 3) / 4 * 4 := by
  unfold RoundUpToAlignment u64
  omega

/-- C34: on 32-bit x86 and on ARM the emitted reader reads the value at the cursor `p`
and moves the cursor to `p + k`, where `k` is the least multiple of 4 that is at least
`B / 8`, `B` being the size of the type in bits: `k` is a multiple of 4 with
`B / 8 ≤ k < B / 8 + 4`, so that `k` bytes cover the value when `B` is a whole number of
bytes. The value is taken to lie in the 32-bit address space. -/
theorem C34_generic_reader (Ty : QualType) (p : Nat)
    (h : p + getTypeSize Ty / 8 + 4 ≤ 4294967296) :
    ∃ k, X86_32ABIInfo.EmitVAArg Ty p = (p, p + k) ∧
      ARMABIInfo.EmitVAArg Ty p = (p, p + k) ∧
      k % 4 = 0 ∧ getTypeSize Ty / 8 ≤ k ∧ k < getTypeSize Ty / 8 + 4 ∧
      (getTypeSize Ty % 8 = 0 → getTypeSize Ty ≤ 8 * k ∧ 8 * k < getTypeSize Ty + 32) := by
  have hv : getTypeSize Ty / 8 < 4294967296 := by omega
  refine ⟨(getTypeSize Ty / 8 + 3) / 4 * 4, ?_, ?_, by omega, by omega, by omega, ?_⟩
  · simp only [X86_32ABIInfo.EmitVAArg, RoundUpToAlignment_four _ hv, Prod.mk.injEq,
      true_and]
    omega
  · simp only [ARMABIInfo.EmitVAArg, RoundUpToAlignment_four _ hv, Prod.mk.injEq, true_and]
    omega
  · intro h8
    omega

/-- C34 at `struct { char c[5]; }` read at the cursor 100: the cursor moves by 8. -/
theorem C34_generic_reader_witness :
    ∃ k, X86_32ABIInfo.EmitVAArg Example.StructFiveChar 100 = (100, 100 + k) ∧
      ARMABIInfo.EmitVAArg Example.StructFiveChar 100 = (100, 100 + k) ∧
      k % 4 = 0 ∧ getTypeSize Example.StructFiveChar / 8 ≤ k ∧
      k < getTypeSize Example.StructFiveChar / 8 + 4 ∧
      (getTypeSize Example.StructFiveChar % 8 = 0 →
        getTypeSize Example.StructFiveChar ≤ 8 * k ∧
          8 * k < getTypeSize Example.StructFiveChar + 32) :=
  C34_generic_reader Example.StructFiveChar 100 (by decide)

/-- The emitted memory path of the x86-64 reader, where its arithmetic does not wrap, for a type of `B` bits (less than
`2^33`) whose alignment is `a` bytes, run with the overflow-area pointer `p` (below
`2^63`): the value is read at `q`, which is `p` when `a ≤ 8` and the least multiple of 16
that is at least `p` when `a > 8`, and the pointer becomes `q + r`, where `r` is the least
multiple of 8 that is at least the size in bytes, `B / 8` rounded up; the two offsets and
the register save area are left as they were. -/
theorem EmitVAArgFromMemory_in_range (Ty : QualType) (VA : VAList)
    (hB : getTypeSize Ty < 8589934592) (hp : VA.overflow_arg_area < 9223372036854775808) :
    ∃ q r, EmitVAArgFromMemory Ty VA =
        (.overflowArea q, { VA with overflow_arg_area := q + r }) ∧
      (getTypeAlign Ty / 8 ≤ 8 → q = VA.overflow_arg_area) ∧
      (getTypeAlign Ty / 8 > 8 →
        q % 16 = 0 ∧ VA.overflow_arg_area ≤ q ∧ q < VA.overflow_arg_area + 16) ∧
      r % 8 = 0 ∧ (getTypeSize Ty + 7) / 8 ≤ r ∧ r < (getTypeSize Ty + 7) / 8 + 8 := by
  have hr : gep64 (VA.overflow_arg_area) 15 = VA.overflow_arg_area + 15 := by
    unfold gep64 sext32 u64
    simp only [Nat.reduceMod, Nat.reduceLT, if_true]
    omega
  have hs : (u64 (u64 (getTypeSize Ty + 7) / 8 + 7) -
      u64 (u64 (getTypeSize Ty + 7) / 8 + 7) % 8) % 4294967296 =
      ((getTypeSize Ty + 7) / 8 + 7) / 8 * 8 := by
    unfold u64
    omega
  have hg : ∀ q, q < 9223372036854775808 + 16 →
      gep64 q (((getTypeSize Ty + 7) / 8 + 7) / 8 * 8) =
        q + ((getTypeSize Ty + 7) / 8 + 7) / 8 * 8 := by
    intro q hq
    unfold gep64 sext32 u64
    have h1 : ((getTypeSize Ty + 7) / 8 + 7) / 8 * 8 % 4294967296 < 2147483648 := by omega
    rw [if_pos h1]
    omega
  by_cases ha : getTypeAlign Ty / 8 > 8
  · refine ⟨VA.overflow_arg_area + 15 - (VA.overflow_arg_area + 15) % 16,
      ((getTypeSize Ty + 7) / 8 + 7) / 8 * 8, ?_, by omega, by omega, by omega, by omega,
      by omega⟩
    simp only [EmitVAArgFromMemory, ha, if_true, hr, hs]
    rw [hg _ (by omega)]
  · refine ⟨VA.overflow_arg_area, ((getTypeSize Ty + 7) / 8 + 7) / 8 * 8, ?_, by omega,
      by omega, by omega, by omega, by omega⟩
    simp only [EmitVAArgFromMemory, ha, if_false, hs]
    rw [hg _ (by omega)]

/-- The memory path at `long double` (128 bits, aligned on 16 bytes) read with the overflow-area
pointer 1000: the value is read at 1008 and the pointer becomes 1024. -/
theorem EmitVAArgFromMemory_LongDoubleTy :
    EmitVAArgFromMemory Example.LongDoubleTy
        { gp_offset := 0, fp_offset := 48, overflow_arg_area := 1000, reg_save_area := 5000 } =
      (.overflowArea 1008,
        { gp_offset := 0, fp_offset := 48, overflow_arg_area := 1024,
          reg_save_area := 5000 }) ∧
    (∃ q r, EmitVAArgFromMemory Example.LongDoubleTy
        { gp_offset := 0, fp_offset := 48, overflow_arg_area := 1000, reg_save_area := 5000 } =
        (.overflowArea q,
          { gp_offset := 0, fp_offset := 48, overflow_arg_area := q + r,
            reg_save_area := 5000 }) ∧
      q % 16 = 0 ∧ r % 8 = 0) := by
  refine ⟨by decide, ?_⟩
  obtain ⟨q, r, h1, _, h3, h4, _⟩ := EmitVAArgFromMemory_in_range Example.LongDoubleTy
    { gp_offset := 0, fp_offset := 48, overflow_arg_area := 1000, reg_save_area := 5000 }
    (by decide) (by decide)
  exact ⟨q, r, h1, (h3 (by decide)).1, h4⟩


/-- C33 (x86-64 variadic memory path), evaluated where the code departs from it: for
`struct { char a[2147483648]; }` (2 GiB, aligned on one byte) read with the overflow-area
pointer `4294967296`, the value is read at the pointer, and the size rounded up to 8
bytes, `2147483648`, is emitted as a 32-bit constant, which the address computation
sign-extends: the pointer becomes `4294967296 - 2147483648 = 2147483648`, below the
value, instead of `4294967296 + 2147483648 = 6442450944`. The x86-64 reader takes this
path for the type. -/
theorem C33_memory_path_retreats :
    getTypeSize Example.StructTwoGiB = 8 * 2147483648 ∧
    getTypeAlign Example.StructTwoGiB / 8 = 1 ∧
    EmitVAArgFromMemory Example.StructTwoGiB
        { gp_offset := 0, fp_offset := 48, overflow_arg_area := 4294967296,
          reg_save_area := 5000 } =
      (.overflowArea 4294967296,
        { gp_offset := 0, fp_offset := 48, overflow_arg_area := 2147483648,
          reg_save_area := 5000 }) ∧
    X86_64ABIInfo.EmitVAArg Example.StructTwoGiB
        { gp_offset := 0, fp_offset := 48, overflow_arg_area := 4294967296,
          reg_save_area := 5000 } =
      .ok (.overflowArea 4294967296,
        { gp_offset := 0, fp_offset := 48, overflow_arg_area := 2147483648,
          reg_save_area := 5000 }) := by
  refine ⟨rfl, rfl, ?_, ?_⟩
  · simp [EmitVAArgFromMemory, Example.StructTwoGiB, getTypeAlign, getTypeSize, gep64, sext32,
      u64]
  · simp [X86_64ABIInfo.EmitVAArg, X86_64ABIInfo.classifyArgumentType,
      X86_64ABIInfo.classify, X86_64ABIInfo.initial, X86_64ABIInfo.setCurrent, assertThat,
      bind, Except.bind, pure, Except.pure, EmitVAArgFromMemory, Example.StructTwoGiB,
      getTypeAlign, getTypeSize, gep64, sext32, u64]

namespace X86_64ABIInfo

theorem inRegisters_EmitVAArgFromMemory (Ty : QualType) (VA : VAList) :
    (EmitVAArgFromMemory Ty VA).1.inRegisters = false := rfl

theorem EmitVAArgInReg_ok (Ty : QualType) (r : ABIArgInfo × Nat × Nat)
    (h : classifyArgumentType Ty = .ok r) (hn : ¬ (r.2.1 = 0 ∧ r.2.2 = 0)) (VA : VAList) :
    ∃ addr, EmitVAArgInReg r.1 r.2.1 r.2.2 VA = .ok addr ∧ addr.inRegisters = true := by
  obtain ⟨AI, nInt, nSSE⟩ := r
  rcases classifyArgumentType_cases Ty _ h with ⟨h1, h2, _⟩ | ⟨h1, h2, _, h4⟩
  · exact absurd ⟨h1, h2⟩ hn
  · simp only at h1 h2 h4 hn ⊢
    unfold EmitVAArgInReg
    by_cases hi : nInt = 0
    · subst hi
      have hs : nSSE = 1 ∨ nSSE = 2 := by omega
      rcases hs with rfl | rfl
      · exact ⟨_, rfl, rfl⟩
      · exact ⟨_, rfl, rfl⟩
    · by_cases hs : nSSE = 0
      · subst hs
        simp only [hi, ne_eq, not_false_eq_true, not_true_eq_false, and_false, if_false,
          if_true, pure, Except.pure]
        exact ⟨_, rfl, rfl⟩
      · obtain ⟨TyLo, TyHi, hAI, hx⟩ := h4 hi hs
        subst hAI
        simp only [hi, hs, ne_eq, not_false_eq_true, and_self, if_true, hx, assertThat,
          bind, Except.bind, pure, Except.pure]
        exact ⟨_, rfl, rfl⟩

theorem EmitVAArg_paths (Ty : QualType) (VA : VAList) (AI : ABIArgInfo)
    (nInt nSSE : Nat) (hc : classifyArgumentType Ty = .ok (AI, nInt, nSSE))
    (hgp : VA.gp_offset < 4294967296) (hfp : VA.fp_offset < 4294967296) :
    (nInt = 0 ∧ nSSE = 0 → EmitVAArg Ty VA = .ok (EmitVAArgFromMemory Ty VA)) ∧
    (¬ (nInt = 0 ∧ nSSE = 0) →
      ∃ addr VA2, EmitVAArg Ty VA = .ok (addr, VA2) ∧
        (addr.inRegisters = true ↔
          (nInt = 0 ∨ VA.gp_offset ≤ 48 - 8 * nInt) ∧
            (nSSE = 0 ∨ VA.fp_offset ≤ 176 - 16 * nSSE)) ∧
        (addr.inRegisters = true →
          VA2.gp_offset = VA.gp_offset + 8 * nInt ∧
          VA2.fp_offset = VA.fp_offset + 16 * nSSE ∧
          VA2.overflow_arg_area = VA.overflow_arg_area ∧
          VA2.reg_save_area = VA.reg_save_area ∧
          (VA.gp_offset ≤ 48 → VA2.gp_offset ≤ 48) ∧
          (VA.fp_offset ≤ 176 → VA2.fp_offset ≤ 176)) ∧
        (addr.inRegisters = false → (addr, VA2) = EmitVAArgFromMemory Ty VA)) := by
  constructor
  · rintro ⟨rfl, rfl⟩
    simp [EmitVAArg, hc, bind, Except.bind, pure, Except.pure]
  · intro hn
    obtain ⟨addr, haddr, hin⟩ := EmitVAArgInReg_ok Ty _ hc hn VA
    simp only at haddr hn
    have hle : nInt + nSSE ≤ 2 := by
      rcases classifyArgumentType_cases Ty _ hc with ⟨h1, h2, _⟩ | ⟨_, h2, _⟩
      · simp only at h1 h2; omega
      · exact h2
    by_cases hfit : (nInt = 0 ∨ VA.gp_offset ≤ 48 - 8 * nInt) ∧
        (nSSE = 0 ∨ VA.fp_offset ≤ 176 - 16 * nSSE)
    · refine ⟨addr,
        ({ gp_offset := VA.gp_offset + 8 * nInt, fp_offset := VA.fp_offset + 16 * nSSE,
           overflow_arg_area := VA.overflow_arg_area,
           reg_save_area := VA.reg_save_area } : VAList), ?_, ?_, ?_, ?_⟩
      · simp only [EmitVAArg, hc, bind, Except.bind, pure, Except.pure, hn, if_false,
          haddr]
        have hInRegs : (if nInt ≠ 0 then
              if nSSE ≠ 0 then
                decide (VA.gp_offset ≤
                  (4294967296 + 48 - nInt * 8 % 4294967296) % 4294967296) &&
                decide (VA.fp_offset ≤
                  (4294967296 + 176 - nSSE * 16 % 4294967296) % 4294967296)
              else decide (VA.gp_offset ≤
                (4294967296 + 48 - nInt * 8 % 4294967296) % 4294967296)
            else decide (VA.fp_offset ≤
              (4294967296 + 176 - nSSE * 16 % 4294967296) % 4294967296)) = true := by
          split_ifs with hi hs
          · simp only [Bool.and_eq_true, decide_eq_true_eq]
            omega
          · simp only [decide_eq_true_eq]
            omega
          · simp only [decide_eq_true_eq]
            omega
        rw [if_pos hInRegs]
        congr 3
        · split_ifs <;> omega
        · split_ifs <;> omega
      · simp [hin, hfit]
      · intro _
        refine ⟨rfl, rfl, rfl, rfl, ?_, ?_⟩ <;> intro _ <;> simp only <;> omega
      · intro hf
        rw [hin] at hf
        cases hf
    · refine ⟨(EmitVAArgFromMemory Ty VA).1, (EmitVAArgFromMemory Ty VA).2, ?_, ?_, ?_, ?_⟩
      · simp only [EmitVAArg, hc, bind, Except.bind, pure, Except.pure, hn, if_false,
          haddr]
        have hInRegs : ¬ ((if nInt ≠ 0 then
              if nSSE ≠ 0 then
                decide (VA.gp_offset ≤
                  (4294967296 + 48 - nInt * 8 % 4294967296) % 4294967296) &&
                decide (VA.fp_offset ≤
                  (4294967296 + 176 - nSSE * 16 % 4294967296) % 4294967296)
              else decide (VA.gp_offset ≤
                (4294967296 + 48 - nInt * 8 % 4294967296) % 4294967296)
            else decide (VA.fp_offset ≤
              (4294967296 + 176 - nSSE * 16 % 4294967296) % 4294967296)) = true) := by
          split_ifs with hi hs
          · simp only [Bool.and_eq_true, decide_eq_true_eq]
            omega
          · simp only [decide_eq_true_eq]
            omega
          · simp only [decide_eq_true_eq]
            omega
        rw [if_neg hInRegs]
      · simp [inRegisters_EmitVAArgFromMemory, hfit]
      · intro hf
        rw [inRegisters_EmitVAArgFromMemory] at hf
        cases hf
      · intro _
        rfl

/-- C32: for a type whose classification needs `nInt` integer and `nSSE` SSE registers,
the emitted x86-64 reader, run on a `va_list` whose offsets are 32-bit words, takes the
memory path when both numbers are zero. Otherwise it takes the register path exactly when
(`nInt = 0` or `gp_offset ≤ 48 - 8 * nInt`) and (`nSSE = 0` or
`fp_offset ≤ 176 - 16 * nSSE`); on that path `gp_offset` grows by `8 * nInt` and
`fp_offset` by `16 * nSSE`, they stay within 48 and 176, and the overflow-area pointer is
left as it was; off that path the reader is the memory path. -/
theorem C32_register_path (Ty : QualType) (VA : VAList) (AI : ABIArgInfo)
    (nInt nSSE : Nat) (hc : classifyArgumentType Ty = .ok (AI, nInt, nSSE))
    (hgp : VA.gp_offset < 4294967296) (hfp : VA.fp_offset < 4294967296) :
    (nInt = 0 ∧ nSSE = 0 → EmitVAArg Ty VA = .ok (EmitVAArgFromMemory Ty VA)) ∧
    (¬ (nInt = 0 ∧ nSSE = 0) →
      ∃ addr VA2, EmitVAArg Ty VA = .ok (addr, VA2) ∧
        (addr.inRegisters = true ↔
          (nInt = 0 ∨ VA.gp_offset ≤ 48 - 8 * nInt) ∧
            (nSSE = 0 ∨ VA.fp_offset ≤ 176 - 16 * nSSE)) ∧
        (addr.inRegisters = true →
          VA2.gp_offset = VA.gp_offset + 8 * nInt ∧
          VA2.fp_offset = VA.fp_offset + 16 * nSSE ∧
          VA2.overflow_arg_area = VA.overflow_arg_area ∧
          VA2.reg_save_area = VA.reg_save_area ∧
          (VA.gp_offset ≤ 48 → VA2.gp_offset ≤ 48) ∧
          (VA.fp_offset ≤ 176 → VA2.fp_offset ≤ 176)) ∧
        (addr.inRegisters = false → (addr, VA2) = EmitVAArgFromMemory Ty VA)) := by
  have key := EmitVAArg_paths Ty VA AI nInt nSSE hc hgp hfp
  constructor
  · intro h0
    exact key.1 h0
  · intro hn
    obtain ⟨addr, VA2, h1, h2, h3, h4⟩ := key.2 hn
    exact ⟨addr, VA2, h1, h2, h3, h4⟩

/-- C32 at `struct { long a; double b; }`, which needs one register of each kind, read
with `gp_offset = 40` and `fp_offset = 48`: the register path, after which the offsets are
48 and 64; and with `gp_offset = 48`: the memory path. -/
theorem C32_register_path_witness :
    classifyArgumentType Example.StructLongDouble =
      .ok (.Coerce (.StructTy [.IntegerTy 64, .DoubleTy] false), 1, 1) ∧
    (∃ addr VA2, EmitVAArg Example.StructLongDouble
        { gp_offset := 40, fp_offset := 48, overflow_arg_area := 1000,
          reg_save_area := 5000 } = .ok (addr, VA2) ∧
      addr.inRegisters = true ∧ VA2.gp_offset = 48 ∧ VA2.fp_offset = 64) ∧
    (∃ addr VA2, EmitVAArg Example.StructLongDouble
        { gp_offset := 48, fp_offset := 48, overflow_arg_area := 1000,
          reg_save_area := 5000 } = .ok (addr, VA2) ∧
      addr.inRegisters = false) := by
  refine ⟨rfl, ?_, ?_⟩
  · obtain ⟨addr, VA2, h1, h2, h3, _⟩ :=
      (C32_register_path Example.StructLongDouble
        { gp_offset := 40, fp_offset := 48, overflow_arg_area := 1000,
          reg_save_area := 5000 } _ 1 1 rfl (by decide) (by decide)).2 (by decide)
    have hin := h2.2 (by decide)
    exact ⟨addr, VA2, h1, hin, (h3 hin).1, (h3 hin).2.1⟩
  · obtain ⟨addr, VA2, h1, h2, _, _⟩ :=
      (C32_register_path Example.StructLongDouble
        { gp_offset := 48, fp_offset := 48, overflow_arg_area := 1000,
          reg_save_area := 5000 } _ 1 1 rfl (by decide) (by decide)).2 (by decide)
    refine ⟨addr, VA2, h1, ?_⟩
    cases hin : addr.inRegisters with
    | false => rfl
    | true =>
      have := h2.1 hin
      simp at this

end X86_64ABIInfo


/-! ## The variadic reader and the register budget -/

namespace X86_64ABIInfo

theorem computeInfoArgs_split (pre post : List ArgInfo) :
    ∀ (freeIntRegs freeSSERegs : Nat) (infos : List ArgInfo) (fi2 fs2 : Nat),
      computeInfoArgs (pre ++ post) freeIntRegs freeSSERegs = .ok (infos, fi2, fs2) →
      ∃ preInfos postInfos fi fs,
        computeInfoArgs pre freeIntRegs freeSSERegs = .ok (preInfos, fi, fs) ∧
        computeInfoArgs post fi fs = .ok (postInfos, fi2, fs2) ∧
        infos = preInfos ++ postInfos ∧ preInfos.length = pre.length := by
  induction pre with
  | nil =>
    intro a b infos fi2 fs2 h
    exact ⟨[], infos, a, b, rfl, by simpa using h, rfl, rfl⟩
  | cons it rest ih =>
    intro a b infos fi2 fs2 h
    rw [List.cons_append, computeInfoArgs] at h
    rw [computeInfoArgs]
    cases hcl : classifyArgumentType it.type with
    | error e => rw [hcl] at h; cases h
    | ok r =>
      rw [hcl] at h
      simp only [bind, Except.bind] at h ⊢
      split_ifs at h ⊢ with hf
      · cases ht : computeInfoArgs (rest ++ post) (a - r.2.1) (b - r.2.2) with
        | error e => rw [ht] at h; cases h
        | ok t =>
          obtain ⟨tInfos, tfi, tfs⟩ := t
          rw [ht] at h
          simp only [pure, Except.pure, Except.ok.injEq, Prod.mk.injEq] at h
          obtain ⟨h1, h2, h3⟩ := h
          subst h1 h2 h3
          obtain ⟨preInfos, postInfos, fi, fs, hp, hq, he, hl⟩ := ih _ _ _ _ _ ht
          refine ⟨{ it with info := r.1 } :: preInfos, postInfos, fi, fs, ?_, hq, ?_, ?_⟩
          · rw [hp]; rfl
          · rw [he]; rfl
          · simp [hl]
      · cases ht : computeInfoArgs (rest ++ post) a b with
        | error e => rw [ht] at h; cases h
        | ok t =>
          obtain ⟨tInfos, tfi, tfs⟩ := t
          rw [ht] at h
          simp only [pure, Except.pure, Except.ok.injEq, Prod.mk.injEq] at h
          obtain ⟨h1, h2, h3⟩ := h
          subst h1 h2 h3
          obtain ⟨preInfos, postInfos, fi, fs, hp, hq, he, hl⟩ := ih _ _ _ _ _ ht
          refine ⟨{ it with info := .Indirect 0 } :: preInfos, postInfos, fi, fs, ?_, hq,
            ?_, ?_⟩
          · rw [hp]; rfl
          · rw [he]; rfl
          · simp [hl]

theorem readAll_computeInfoArgs :
    ∀ (args : List ArgInfo) (fi fs : Nat) (infos : List ArgInfo) (fi2 fs2 : Nat)
      (VA : VAList), fi ≤ 6 → fs ≤ 8 → VA.gp_offset = 8 * (6 - fi) →
      VA.fp_offset = 48 + 16 * (8 - fs) →
      computeInfoArgs args fi fs = .ok (infos, fi2, fs2) →
      ∃ VA2, readAll (args.map fun it => it.type) VA =
          .ok (infos.map (fun it => isRegisterDisposition it.info), VA2) ∧
        VA2.gp_offset = 8 * (6 - fi2) ∧ VA2.fp_offset = 48 + 16 * (8 - fs2) ∧
        fi2 ≤ 6 ∧ fs2 ≤ 8
  | [], fi, fs, infos, fi2, fs2, VA, hfi, hfs, hgp, hfp, h => by
    simp only [computeInfoArgs, pure, Except.pure, Except.ok.injEq, Prod.mk.injEq] at h
    obtain ⟨h1, h2, h3⟩ := h
    subst h1 h2 h3
    exact ⟨VA, rfl, hgp, hfp, hfi, hfs⟩
  | it :: rest, fi, fs, infos, fi2, fs2, VA, hfi, hfs, hgp, hfp, h => by
    rw [computeInfoArgs] at h
    cases hcl : classifyArgumentType it.type with
    | error e => rw [hcl] at h; cases h
    | ok r =>
      obtain ⟨d, nInt, nSSE⟩ := r
      rw [hcl] at h
      simp only [bind, Except.bind] at h
      have hpaths := EmitVAArg_paths it.type VA d nInt nSSE hcl (by omega) (by omega)
      have hzero := classifyArgumentType_needed_zero it.type _ hcl
      have hle : nInt + nSSE ≤ 2 := by
        rcases classifyArgumentType_cases it.type _ hcl with ⟨h1, h2, _⟩ | ⟨_, h2, _⟩
        · simp only at h1 h2; omega
        · exact h2
      simp only at hzero
      by_cases hn : nInt = 0 ∧ nSSE = 0
      · obtain ⟨rfl, rfl⟩ := hn
        have hread := hpaths.1 ⟨rfl, rfl⟩
        have hd : isRegisterDisposition d = false := by
          have := hzero.1 ⟨rfl, rfl⟩
          cases d <;> simp [isRegisterDisposition] at this ⊢
        simp only [ge_iff_le, Nat.zero_le, and_self, if_true, Nat.sub_zero] at h
        cases ht : computeInfoArgs rest fi fs with
        | error e => rw [ht] at h; cases h
        | ok t =>
          obtain ⟨tInfos, tfi, tfs⟩ := t
          rw [ht] at h
          simp only [pure, Except.pure, Except.ok.injEq, Prod.mk.injEq] at h
          obtain ⟨h1, h2, h3⟩ := h
          subst h1 h2 h3
          obtain ⟨VA2, hr, hrest⟩ := readAll_computeInfoArgs rest fi fs tInfos _ _
            (EmitVAArgFromMemory it.type VA).2 hfi hfs hgp hfp ht
          refine ⟨VA2, ?_, hrest⟩
          simp only [List.map_cons, readAll, hread, bind, Except.bind, hr, pure,
            Except.pure, inRegisters_EmitVAArgFromMemory, hd]
      · obtain ⟨addr, VA1, hread, hiff, hreg, hmem⟩ := hpaths.2 hn
        have hdreg : isRegisterDisposition d = true := by
          have : d = .Direct ∨ ∃ P, d = .Coerce P := by
            by_contra hc
            exact hn (hzero.2 hc)
          rcases this with rfl | ⟨P, rfl⟩ <;> rfl
        by_cases hf : fi ≥ nInt ∧ fs ≥ nSSE
        · rw [if_pos hf] at h
          cases ht : computeInfoArgs rest (fi - nInt) (fs - nSSE) with
          | error e => rw [ht] at h; cases h
          | ok t =>
            obtain ⟨tInfos, tfi, tfs⟩ := t
            rw [ht] at h
            simp only [pure, Except.pure, Except.ok.injEq, Prod.mk.injEq] at h
            obtain ⟨h1, h2, h3⟩ := h
            subst h1 h2 h3
            have hin : addr.inRegisters = true := hiff.2 ⟨by omega, by omega⟩
            obtain ⟨hg1, hf1, _⟩ := hreg hin
            obtain ⟨VA2, hr, hrest⟩ := readAll_computeInfoArgs rest (fi - nInt)
              (fs - nSSE) tInfos _ _ VA1 (by omega) (by omega) (by omega) (by omega) ht
            refine ⟨VA2, ?_, hrest⟩
            simp only [List.map_cons, readAll, hread, bind, Except.bind, hr, pure,
              Except.pure, hin, hdreg]
        · rw [if_neg hf] at h
          cases ht : computeInfoArgs rest fi fs with
          | error e => rw [ht] at h; cases h
          | ok t =>
            obtain ⟨tInfos, tfi, tfs⟩ := t
            rw [ht] at h
            simp only [pure, Except.pure, Except.ok.injEq, Prod.mk.injEq] at h
            obtain ⟨h1, h2, h3⟩ := h
            subst h1 h2 h3
            have hin : addr.inRegisters = false := by
              cases hq : addr.inRegisters with
              | false => rfl
              | true =>
                have := hiff.1 hq
                omega
            have hm := hmem hin
            have hVA : VA1 = (EmitVAArgFromMemory it.type VA).2 := by rw [← hm]
            obtain ⟨VA2, hr, hrest⟩ := readAll_computeInfoArgs rest fi fs tInfos _ _
              VA1 hfi hfs (by rw [hVA]; exact hgp) (by rw [hVA]; exact hfp) ht
            refine ⟨VA2, ?_, hrest⟩
            simp only [List.map_cons, readAll, hread, bind, Except.bind, hr, pure,
              Except.pure, hin, isRegisterDisposition]

/-- C40: the variadic reader and the register budget of `computeInfo` make the same
decisions. For a signature that `computeInfo` populates, reading the first `n` argument
types in order from a cursor with `gp_offset = 0` and `fp_offset = 48` succeeds, takes the
register path for a type exactly when `computeInfo` left that argument `Direct` or
`Coerce`, and leaves `gp_offset = 8 * (6 - freeIntRegs)` and
`fp_offset = 48 + 16 * (8 - freeSSERegs)`, where the free registers are those the budget
has left after the same `n` arguments. -/
theorem C40_reader_agrees_with_budget (R : QualType) (Tys : List QualType)
    (FI : CGFunctionInfo) (VA : VAList) (hgp : VA.gp_offset = 0) (hfp : VA.fp_offset = 48)
    (h : computeInfo (CGFunctionInfo.create R Tys) = .ok FI) :
    FI.args.length = Tys.length ∧
    ∀ n, n ≤ Tys.length → ∃ FIn freeIntRegs freeSSERegs VAn,
      computeInfoRegs (CGFunctionInfo.create R (Tys.take n)) =
        .ok (FIn, freeIntRegs, freeSSERegs) ∧
      FIn.args = FI.args.take n ∧
      readAll (Tys.take n) VA =
        .ok ((FI.args.take n).map (fun it => isRegisterDisposition it.info), VAn) ∧
      VAn.gp_offset = 8 * (6 - freeIntRegs) ∧
      VAn.fp_offset = 48 + 16 * (8 - freeSSERegs) := by
  unfold computeInfo computeInfoRegs at h
  cases hret : classifyReturnType (CGFunctionInfo.create R Tys).ret.type with
  | error e => rw [hret] at h; cases h
  | ok retInfo =>
    rw [hret] at h
    cases ha : computeInfoArgs (CGFunctionInfo.create R Tys).args 6 8 with
    | error e => rw [ha] at h; cases h
    | ok r =>
      obtain ⟨infos, fi2, fs2⟩ := r
      rw [ha] at h
      simp only [bind, Except.bind, pure, Except.pure, Except.ok.injEq] at h
      subst h
      have hlen : infos.length = Tys.length := by
        have := congrArg List.length (computeInfoArgs_types _ _ _ _ ha)
        simpa [CGFunctionInfo.create] using this
      refine ⟨hlen, ?_⟩
      intro n hn
      have hsplit : (CGFunctionInfo.create R Tys).args =
          (CGFunctionInfo.create R (Tys.take n)).args ++
            (CGFunctionInfo.create R (Tys.drop n)).args := by
        simp only [CGFunctionInfo.create, ← List.map_append, List.take_append_drop]
      rw [hsplit] at ha
      obtain ⟨preInfos, postInfos, fi, fs, hp, _, he, hl⟩ :=
        computeInfoArgs_split _ _ _ _ _ _ _ ha
      have hl2 : preInfos.length = n := by
        rw [hl]
        simp [CGFunctionInfo.create, hn]
      have htake : infos.take n = preInfos := by
        rw [he, ← hl2, List.take_left]
      obtain ⟨VAn, hr, h1, h2, _⟩ :=
        readAll_computeInfoArgs _ 6 8 preInfos fi fs VA (by decide) (by decide)
          (by rw [hgp]) (by rw [hfp]) hp
      refine ⟨{ ret := { type := R, info := retInfo }, args := preInfos }, fi, fs, VAn,
        ?_, htake.symm, ?_, h1, h2⟩
      · unfold computeInfoRegs
        have hret2 : classifyReturnType (CGFunctionInfo.create R (Tys.take n)).ret.type =
            .ok retInfo := hret
        rw [hret2, hp]
        rfl
      · have hm : ∀ L : List QualType,
            List.map (fun it => it.type) (CGFunctionInfo.create R L).args = L := by
          intro L
          simp [CGFunctionInfo.create, Function.comp_def]
        rw [hm] at hr
        rw [hr]
        simp only [htake]

theorem C40_reader_agrees_with_budget_witness :
    ∃ VAn, readAll [Example.StructLongDouble, Example.LongTy, Example.DoubleTy]
        { gp_offset := 0, fp_offset := 48, overflow_arg_area := 1000,
          reg_save_area := 5000 } = .ok ([true, true, true], VAn) ∧
      VAn.gp_offset = 16 ∧ VAn.fp_offset = 80 := by
  obtain ⟨_, h⟩ := C40_reader_agrees_with_budget Example.VoidTy
    [Example.StructLongDouble, Example.LongTy, Example.DoubleTy]
    { ret := { type := Example.VoidTy, info := .Ignore },
      args := [{ type := Example.StructLongDouble,
                 info := .Coerce (.StructTy [.IntegerTy 64, .DoubleTy] false) },
               { type := Example.LongTy, info := .Direct },
               { type := Example.DoubleTy, info := .Direct }] }
    { gp_offset := 0, fp_offset := 48, overflow_arg_area := 1000, reg_save_area := 5000 }
    rfl rfl rfl
  obtain ⟨FIn, fi, fs, VAn, hc, _, hr, h1, h2⟩ := h 3 (by decide)
  have hc2 : (computeInfoRegs (CGFunctionInfo.create Example.VoidTy
      [Example.StructLongDouble, Example.LongTy, Example.DoubleTy])).map (fun r => r.2) =
      .ok (4, 6) := rfl
  have hc3 : computeInfoRegs (CGFunctionInfo.create Example.VoidTy
      [Example.StructLongDouble, Example.LongTy, Example.DoubleTy]) =
      .ok (FIn, fi, fs) := hc
  rw [hc3] at hc2
  simp only [Except.map, Except.ok.injEq, Prod.mk.injEq] at hc2
  obtain ⟨rfl, rfl⟩ := hc2
  exact ⟨VAn, hr, h1, h2⟩

end X86_64ABIInfo


/-! ## Bit-fields, totality and complex types -/

namespace X86_64ABIInfo

theorem classifyBitField_of_width (Offset Size : Nat) (hw : 1 ≤ Size)
    (h : Offset + Size ≤ 128) :
    classifyBitField Offset Size =
      .ok (if Offset < 64 then .Integer else .NoClass,
           if 64 < Offset + Size then .Integer else .NoClass) := by
  unfold classifyBitField u64
  by_cases ho : Offset < 64
  · have h0 : Offset / 64 = 0 := by omega
    by_cases hs : 64 < Offset + Size
    · have h2 : ((Offset + Size) % 18446744073709551616 + 18446744073709551615) %
          18446744073709551616 / 64 = 1 := by omega
      simp only [h0, h2, ho, hs, if_true]
      rfl
    · have h2 : ((Offset + Size) % 18446744073709551616 + 18446744073709551615) %
          18446744073709551616 / 64 = 0 := by omega
      simp only [h0, h2, ho, hs, if_true, if_false]
      rfl
  · have h1 : Offset / 64 = 1 := by omega
    have h2 : ((Offset + Size) % 18446744073709551616 + 18446744073709551615) %
        18446744073709551616 / 64 = 1 := by omega
    have hs : 64 < Offset + Size := by omega
    simp only [h1, h2, ho, hs, if_true, if_false]
    rfl

/-- C36 (x86-64 bit-field members), evaluated where the code departs from it: for the
zero-width bit-field of `struct { long a; int : 0; long b; }`, at bit offset 64, the
assertion "Invalid classification, type > 16 bytes." fails, so that `classify` and
`classifyArgumentType` abort on this 128-bit structure; and a zero-width bit-field at
bit offset 0, whose bit range is empty, contributes `Integer` to both eightbytes, so
that the 64-bit `struct { int : 0; long a; }` is classified `(Integer, Integer)` and
passed in two integer registers. -/
theorem C36_zero_width_bit_field_aborts :
    classifyBitField 64 0 = .error .typeOver16Bytes ∧
    classify Example.StructLongZeroWidthLong 0 = .error .typeOver16Bytes ∧
    classifyArgumentType Example.StructLongZeroWidthLong = .error .typeOver16Bytes ∧
    classifyBitField 0 0 = .ok (.Integer, .Integer) ∧
    classify Example.StructZeroWidthLong 0 = .ok (.Integer, .Integer) ∧
    classifyArgumentType Example.StructZeroWidthLong =
      .ok (.Coerce (.StructTy [.IntegerTy 64, .IntegerTy 64] false), 2, 0) :=
  ⟨rfl, rfl, rfl, rfl, rfl, rfl⟩

/-- C35 (totality of the classification), evaluated where the code returns no pair:
`classify` is a total function of the model (it terminates), but its result on
`struct { long a; int : 0; long b; }` at offset 0 is the failed assertion "Invalid
classification, type > 16 bytes." and not a pair `(Lo, Hi)`; `computeInfo` of the x86-64
classifier then assigns no disposition to a signature with that argument type or
that return type, nor to one with the argument type
`struct __attribute__((packed)) { float4 v; float8 w[0]; }`, where the assertion "Invalid
SSEUp classification." fails. -/
theorem C35_classification_aborts :
    (∀ p : Class × Class, classify Example.StructLongZeroWidthLong 0 ≠ .ok p) ∧
    classify Example.StructLongZeroWidthLong 0 = .error .typeOver16Bytes ∧
    computeInfo (CGFunctionInfo.create Example.VoidTy [Example.StructLongZeroWidthLong]) =
      .error .typeOver16Bytes ∧
    computeInfo (CGFunctionInfo.create Example.StructLongZeroWidthLong []) =
      .error .typeOver16Bytes ∧
    ABIInfo.computeInfo .X86_64
      (CGFunctionInfo.create Example.VoidTy [Example.StructLongZeroWidthLong]) =
      .error .typeOver16Bytes ∧
    ABIInfo.computeInfo .X86_64
      (CGFunctionInfo.create Example.VoidTy [Example.PackedVectorRecord]) =
      .error .invalidSSEUp :=
  ⟨(fun p h =>
      nomatch (show Except.error AssertFail.typeOver16Bytes = Except.ok p from h)),
    rfl, rfl, rfl, rfl, rfl⟩

/-- C37: classification of complex types. At offset 0 a complex float (element narrower
than 64 bits) is `(SSE, NoClass)`, a complex double `(SSE, SSE)`, a complex long double
(element of at least 64 bits) `(ComplexX87, ComplexX87)`, a complex integer of total
size at most 64 bits `(Integer, NoClass)` and one of 65 to 128 bits
`(Integer, Integer)`. In a layout where a complex type has twice the size of its element
and `double` has at least 64 bits, a complex type of at most 64 bits at a bit offset
below 64 has a low class other than `NoClass`, and its high class equals the low class
exactly when the imaginary part begins at or beyond bit 64; otherwise the high class is
`NoClass`. -/
theorem C37_complex_classification :
    (∀ s a Size A, s < 64 →
      classify (.complex (.builtin .Float s a) Size A) 0 = .ok (.SSE, .NoClass)) ∧
    (∀ s a Size A,
      classify (.complex (.builtin .Double s a) Size A) 0 = .ok (.SSE, .SSE)) ∧
    (∀ s a Size A, 64 ≤ s → s < 18446744073709551616 →
      classify (.complex (.builtin .LongDouble s a) Size A) 0 =
        .ok (.ComplexX87, .ComplexX87)) ∧
    (∀ ET Size A, isIntegralType ET = true → Size = 2 * getTypeSize ET →
      (Size ≤ 64 → classify (.complex ET Size A) 0 = .ok (.Integer, .NoClass)) ∧
      (64 < Size → Size ≤ 128 →
        classify (.complex ET Size A) 0 = .ok (.Integer, .Integer))) ∧
    (∀ ET Size A o, Size = 2 * getTypeSize ET →
      (isSpecificBuiltinType ET .Double = true → 64 ≤ getTypeSize ET) →
      Size ≤ 64 → o < 64 →
      ∃ Lo Hi, classify (.complex ET Size A) o = .ok (Lo, Hi) ∧ Lo ≠ .NoClass ∧
        (Hi = Lo ↔ 64 ≤ o + getTypeSize ET) ∧
        (o + getTypeSize ET < 64 → Hi = .NoClass)) := by
  refine ⟨?_, ?_, ?_, ?_, ?_⟩
  · intro s a Size A hs
    have h0 : s % 18446744073709551616 / 64 = 0 := by omega
    simp [classify, classifyComplex, isIntegralType, isSpecificBuiltinType, kindValue,
      setCurrent, initial, getTypeSize, u64, h0]
    rfl
  · intro s a Size A
    simp [classify, classifyComplex, isIntegralType, isSpecificBuiltinType, kindValue]
    rfl
  · intro s a Size A hs hs2
    have h0 : ¬ (0 = s % 18446744073709551616 / 64) := by omega
    simp [classify, classifyComplex, isIntegralType, isSpecificBuiltinType, kindValue,
      setCurrent, initial, getTypeSize, u64, h0]
    rfl
  · intro ET Size A hint hsize
    constructor
    · intro h64
      have h0 : getTypeSize ET % 18446744073709551616 / 64 = 0 := by omega
      simp [classify, classifyComplex, hint, setCurrent, initial, u64, h0, h64]
      rfl
    · intro h64 h128
      have hn : ¬ Size ≤ 64 := by omega
      simp [classify, classifyComplex, hint, hn, h128]
      rfl
  · intro ET Size A o hsize hdouble h64 ho
    have hnd : isSpecificBuiltinType ET .Double = false := by
      cases hd : isSpecificBuiltinType ET .Double with
      | false => rfl
      | true =>
        have := hdouble hd
        omega
    have hmod : (o + getTypeSize ET) % 18446744073709551616 = o + getTypeSize ET := by
      omega
    have ho0 : o / 64 = 0 := by omega
    by_cases hst : 64 ≤ o + getTypeSize ET
    · have hq : (o + getTypeSize ET) / 64 ≠ 0 := by omega
      have hq2 : ¬ (0 = (o + getTypeSize ET) / 64) := fun h => hq h.symm
      simp only [classify, classifyComplex, hnd, setCurrent, initial, u64, hmod, ho, ho0,
        h64, if_true, pure, Except.pure]
      split_ifs <;>
        simp_all [Except.ok.injEq]
    · have hq : (o + getTypeSize ET) / 64 = 0 := by omega
      simp only [classify, classifyComplex, hnd, setCurrent, initial, u64, hmod, ho, ho0,
        h64, if_true, pure, Except.pure, hq]
      split_ifs <;>
        simp_all [Except.ok.injEq] <;>
        exact ⟨_, _, ⟨rfl, rfl⟩, by decide,
          ⟨(fun h => by cases h), (fun h => absurd h (by omega))⟩, rfl⟩

theorem C37_complex_classification_witness :
    classify Example.ComplexFloatTy 0 = .ok (.SSE, .NoClass) ∧
    classify Example.ComplexLongDoubleTy 0 = .ok (.ComplexX87, .ComplexX87) ∧
    classify Example.ComplexIntTy 0 = .ok (.Integer, .NoClass) ∧
    classify Example.ComplexLongTy 0 = .ok (.Integer, .Integer) ∧
    (∃ Lo Hi, classify Example.ComplexFloatTy 32 = .ok (Lo, Hi) ∧ Lo ≠ .NoClass ∧
      (Hi = Lo ↔ 64 ≤ 32 + getTypeSize Example.FloatTy) ∧
      (32 + getTypeSize Example.FloatTy < 64 → Hi = .NoClass)) :=
  ⟨C37_complex_classification.1 32 32 64 32 (by decide),
   C37_complex_classification.2.2.1 128 128 256 128 (by decide) (by decide),
   (C37_complex_classification.2.2.2.1 Example.IntTy 64 32 rfl rfl).1 (by decide),
   (C37_complex_classification.2.2.2.1 Example.LongTy 128 64 rfl rfl).2 (by decide)
     (by decide),
   C37_complex_classification.2.2.2.2 Example.FloatTy 64 32 32 rfl (fun h => by cases h)
     (by decide) (by decide)⟩

end X86_64ABIInfo


/-! ## Signatures filled in by `computeInfo` -/

theorem X86_32ABIInfo.classifyArgumentType_expand (T : QualType)
    (h : X86_32ABIInfo.classifyArgumentType T = .Expand) : isExpandableStructure T = true := by
  cases T with
  | record isUnion hasFlexibleArrayMember fields size align =>
    cases isUnion with
    | true => simp [X86_32ABIInfo.classifyArgumentType_union] at h
    | false =>
      cases hasFlexibleArrayMember with
      | true => simp [X86_32ABIInfo.classifyArgumentType_flexible] at h
      | false =>
        rw [X86_32ABIInfo.classifyArgumentType_structure] at h
        by_cases h0 : size = 0
        · simp [h0] at h
        · by_cases h1 : size ≤ 128 <;> cases h2 : fieldsAre32Or64BitScalars fields <;>
            simp [h0, h1, h2, isExpandableStructure] at h ⊢
  | _ =>
    rw [X86_32ABIInfo.classifyArgumentType_not_record _ (by intros; simp)] at h
    split_ifs at h

theorem isExpandable_of_isExpandableStructure (T : QualType)
    (hs : isExpandableStructure T = true)
    (hp : noPlaceholderField (recordFields T) = true) : isExpandable T = true := by
  cases T with
  | record isUnion hasFlexibleArrayMember fields size align =>
    simp only [isExpandableStructure, Bool.and_eq_true, Bool.not_eq_true'] at hs
    obtain ⟨⟨⟨⟨h1, h2⟩, _⟩, _⟩, h5⟩ := hs
    subst h1 h2
    simp [isExpandable, isExpandableFields_of_scalars fields h5 hp]
  | _ => simp [isExpandableStructure] at hs

theorem X86_64ABIInfo.computeInfoArgs_not_expand :
    ∀ (args : List ArgInfo) (freeIntRegs freeSSERegs : Nat)
      (r : List ArgInfo × Nat × Nat),
      X86_64ABIInfo.computeInfoArgs args freeIntRegs freeSSERegs = .ok r →
        ∀ it ∈ r.1, it.info ≠ .Expand
  | [], _, _, r, h => by
    simp only [X86_64ABIInfo.computeInfoArgs, pure, Except.pure, Except.ok.injEq] at h
    subst h
    simp
  | a :: rest, fi, fs, r, h => by
    rw [X86_64ABIInfo.computeInfoArgs] at h
    cases hcl : X86_64ABIInfo.classifyArgumentType a.type with
    | error e => rw [hcl] at h; cases h
    | ok c =>
      rw [hcl] at h
      simp only [bind, Except.bind] at h
      have hc : c.1 ≠ .Expand := by
        rcases X86_64ABIInfo.classifyArgumentType_cases a.type c hcl with
          ⟨_, _, h3 | h3⟩ | ⟨_, _, h3 | ⟨P, h3⟩, _⟩ <;> rw [h3] <;> simp
      split_ifs at h
      · cases ht : X86_64ABIInfo.computeInfoArgs rest (fi - c.2.1) (fs - c.2.2) with
        | error e => rw [ht] at h; cases h
        | ok t =>
          rw [ht] at h
          simp only [pure, Except.pure, Except.ok.injEq] at h
          subst h
          intro it hit
          rcases List.mem_cons.1 hit with rfl | hit
          · exact hc
          · exact X86_64ABIInfo.computeInfoArgs_not_expand rest _ _ t ht it hit
      · cases ht : X86_64ABIInfo.computeInfoArgs rest fi fs with
        | error e => rw [ht] at h; cases h
        | ok t =>
          rw [ht] at h
          simp only [pure, Except.pure, Except.ok.injEq] at h
          subst h
          intro it hit
          rcases List.mem_cons.1 hit with rfl | hit
          · simp
          · exact X86_64ABIInfo.computeInfoArgs_not_expand rest _ _ t ht it hit

theorem computeInfo_args (TheABIInfo : ABIInfo) (FI FI2 : CGFunctionInfo)
    (h : TheABIInfo.computeInfo FI = .ok FI2)
    (hp : ∀ it ∈ FI.args, noPlaceholderField (recordFields it.type) = true) :
    expandedArgumentsExpandable FI2.args := by
  intro it hit hinfo
  cases TheABIInfo with
  | Default =>
    simp only [ABIInfo.computeInfo, pure, Except.pure, Except.ok.injEq] at h
    subst h
    simp only [DefaultABIInfo.computeInfo, List.mem_map] at hit
    obtain ⟨a, _, rfl⟩ := hit
    simp only [DefaultABIInfo.classifyArgumentType] at hinfo
    split_ifs at hinfo
  | X86_32 IsDarwin =>
    simp only [ABIInfo.computeInfo, pure, Except.pure, Except.ok.injEq] at h
    subst h
    simp only [X86_32ABIInfo.computeInfo, List.mem_map] at hit
    obtain ⟨a, ha, rfl⟩ := hit
    exact isExpandable_of_isExpandableStructure _
      (X86_32ABIInfo.classifyArgumentType_expand _ hinfo) (hp a ha)
  | ARM =>
    simp only [ABIInfo.computeInfo, pure, Except.pure, Except.ok.injEq] at h
    subst h
    simp only [ARMABIInfo.computeInfo, List.mem_map] at hit
    obtain ⟨a, _, rfl⟩ := hit
    simp only [ARMABIInfo.classifyArgumentType] at hinfo
    split_ifs at hinfo
  | X86_64 =>
    simp only [ABIInfo.computeInfo, X86_64ABIInfo.computeInfo,
      X86_64ABIInfo.computeInfoRegs, bind, Except.bind] at h
    cases hr : X86_64ABIInfo.classifyReturnType FI.ret.type with
    | error e => rw [hr] at h; cases h
    | ok retInfo =>
      rw [hr] at h
      simp only at h
      cases ha : X86_64ABIInfo.computeInfoArgs FI.args 6 8 with
      | error e => rw [ha] at h; cases h
      | ok r =>
        rw [ha] at h
        simp only [pure, Except.pure, Except.ok.injEq] at h
        subst h
        exact absurd hinfo (X86_64ABIInfo.computeInfoArgs_not_expand _ _ _ r ha it hit)

theorem GetFunctionType_eq (FI : CGFunctionInfo) (IsVariadic : Bool)
    (hret : isReturnDisposition FI.ret.info = true)
    (hexp : expandedArgumentsExpandable FI.args) :
    ∃ FT, GetFunctionType FI IsVariadic = .ok FT ∧ FT.ArgTys = parameterList FI ∧
      FT.IsVariadic = IsVariadic := by
  unfold parameterList
  cases hinfo : FI.ret.info with
  | Expand => rw [hinfo] at hret; cases hret
  | Direct =>
    refine ⟨_, by simp only [GetFunctionType, hinfo, bind, Except.bind, pure, Except.pure,
      GetFunctionTypeArgs_eq FI.args _ hexp]; rfl, ?_, rfl⟩
    simp [hiddenReturnPointer, hinfo]
  | Indirect align =>
    rw [hinfo] at hret
    have h0 : align = 0 := by simpa [isReturnDisposition] using hret
    subst h0
    refine ⟨_, by simp only [GetFunctionType, hinfo, assertThat, bind, Except.bind, pure,
      Except.pure, GetFunctionTypeArgs_eq FI.args _ hexp]; rfl, ?_, rfl⟩
    simp [hiddenReturnPointer, hinfo]
  | Ignore =>
    refine ⟨_, by simp only [GetFunctionType, hinfo, bind, Except.bind, pure, Except.pure,
      GetFunctionTypeArgs_eq FI.args _ hexp]; rfl, ?_, rfl⟩
    simp [hiddenReturnPointer, hinfo]
  | Coerce coerceToType =>
    refine ⟨_, by simp only [GetFunctionType, hinfo, bind, Except.bind, pure, Except.pure,
      GetFunctionTypeArgs_eq FI.args _ hexp]; rfl, ?_, rfl⟩
    simp [hiddenReturnPointer, hinfo]

theorem argumentEntries_pairwise :
    ∀ (args : List ArgInfo) (Index : Nat),
      List.Pairwise (fun a b : AttributeWithIndex => a.Index < b.Index)
        (argumentEntries args Index)
  | [], _ => by simp [argumentEntries]
  | it :: rest, Index => by
    rw [argumentEntries, List.pairwise_append]
    refine ⟨?_, argumentEntries_pairwise rest _, ?_⟩
    · unfold argumentEntry
      split_ifs <;> simp
    · intro a ha b hb
      obtain ⟨hnz, rfl⟩ := (mem_argumentEntry it Index a).1 ha
      have h1 := (argumentEntries_bounds rest _ b hb).1
      have h2 := slots_of_isNonZero it hnz
      simp only
      omega


/-! ## Attribute indices and physical positions -/

theorem returnEntries_bounds (ret : ArgInfo) (e : AttributeWithIndex)
    (h : e ∈ returnEntries ret) : e.Index ≤ (hiddenReturnPointer ret).length := by
  rcases (mem_returnEntries ret e).1 h with ⟨⟨align, ha⟩, rfl⟩ | ⟨_, _, rfl⟩
  · simp [hiddenReturnPointer, ha]
  · simp

theorem returnEntries_pairwise (ret : ArgInfo) :
    List.Pairwise (fun a b : AttributeWithIndex => a.Index < b.Index) (returnEntries ret) := by
  unfold returnEntries
  cases ret.info with
  | Direct => split_ifs <;> simp
  | _ => simp

theorem functionEntries_pairwise (FI : CGFunctionInfo) (TargetDecl : Option Decl) :
    List.Pairwise (fun a b : AttributeWithIndex => a.Index < b.Index)
      (functionEntries FI TargetDecl) := by
  unfold functionEntries
  split_ifs <;> simp

/-- C38: attribute indices agree with physical positions. For a signature `computeInfo`
has filled in (the argument types having no field of a placeholder kind, the parameter
count below the function-level index), `GetFunctionType` and `ConstructAttributeList`
return, and for every argument `it`, preceded by the arguments `pre`: the parameter list
is `before ++ slots ++ after`, where `before` is the hidden return pointer and the slots
of `pre`; the attribute list is `entriesBefore ++ entry ++ entriesAfter`, where `entry`
is the attribute word of `it` at the index `before.length + 1` of its first slot (no
entry for a zero word), the entries before have indices at most `before.length` and
the entries after have indices beyond the slots of `it`; an `Ignore` argument has no slot
and an `Expand` argument one slot per leaf `GetExpandedTypes` returns. Index 0 is used
only for the extension attribute of a `Direct` return value, the list is strictly
increasing in index, and an entry with the function-level index is the last one. -/
theorem C38_attribute_indices (TheABIInfo : ABIInfo) (FI0 FI : CGFunctionInfo)
    (TargetDecl : Option Decl) (IsVariadic : Bool)
    (h : TheABIInfo.computeInfo FI0 = .ok FI)
    (hp : ∀ it ∈ FI0.args, noPlaceholderField (recordFields it.type) = true)
    (hn : (parameterList FI).length + 1 < functionIndex) :
    ∃ FT PAL, GetFunctionType FI IsVariadic = .ok FT ∧
      ConstructAttributeList FI TargetDecl [] = .ok PAL ∧
      (∀ pre it post, FI.args = pre ++ it :: post →
        ∃ before slots after entriesBefore entriesAfter,
          before = hiddenReturnPointer FI.ret ++ pre.flatMap parameterSlots ∧
          slots = parameterSlots it ∧
          FT.ArgTys = before ++ slots ++ after ∧
          PAL = entriesBefore ++ argumentEntry it (before.length + 1) ++ entriesAfter ∧
          (∀ e ∈ entriesBefore, e.Index ≤ before.length) ∧
          (∀ e ∈ entriesAfter, before.length + slots.length < e.Index) ∧
          (it.info = .Ignore → slots = []) ∧
          (it.info = .Expand → GetExpandedTypes it.type [] = .ok slots)) ∧
      (∀ e ∈ PAL, e.Index = 0 →
        FI.ret.info = .Direct ∧ e.Attrs = setExtensionAttribute FI.ret.type Attributes.None) ∧
      List.Pairwise (fun a b : AttributeWithIndex => a.Index < b.Index) PAL ∧
      (∀ e ∈ PAL, e.Index = functionIndex →
        PAL.getLast? = some e ∧ e.Attrs = functionAttributes FI TargetDecl) := by
  have hret := computeInfo_ret TheABIInfo FI0 FI h
  have hexp := computeInfo_args TheABIInfo FI0 FI h hp
  have hne : FI.ret.info ≠ .Expand := by
    intro he
    rw [he] at hret
    cases hret
  obtain ⟨FT, hFT, hArgs, _⟩ := GetFunctionType_eq FI IsVariadic hret hexp
  have hPAL := ConstructAttributeList_eq FI TargetDecl [] hne hexp
  rw [List.nil_append] at hPAL
  have hlen : (parameterList FI).length =
      (hiddenReturnPointer FI.ret).length + (FI.args.flatMap parameterSlots).length := by
    simp [parameterList]
  have hidx : parameterIndex FI [] = (hiddenReturnPointer FI.ret).length + 1 := by
    simp [parameterIndex, Nat.add_comm]
  have hargsBound : ∀ e ∈ argumentEntries FI.args (parameterIndex FI []),
      1 ≤ e.Index ∧ e.Index < functionIndex := by
    intro e he
    obtain ⟨h1, h2, _⟩ := argumentEntries_bounds _ _ e he
    constructor <;> omega
  have hretBound : ∀ e ∈ returnEntries FI.ret, e.Index < functionIndex := by
    intro e he
    have := returnEntries_bounds _ e he
    omega
  refine ⟨FT, attributeList FI TargetDecl, hFT, hPAL, ?_, ?_, ?_, ?_⟩
  · intro pre it post hsplit
    refine ⟨_, _, post.flatMap parameterSlots,
      returnEntries FI.ret ++ argumentEntries pre (parameterIndex FI []),
      argumentEntries post
          (parameterIndex FI [] + (pre.flatMap parameterSlots).length +
            (parameterSlots it).length) ++ functionEntries FI TargetDecl,
      rfl, rfl, ?_, ?_, ?_, ?_, ?_, ?_⟩
    · rw [hArgs, parameterList, hsplit]
      simp [List.flatMap_append]
    · unfold attributeList
      rw [hsplit, argumentEntries_append, argumentEntries, hidx]
      simp only [List.length_append, List.append_assoc]
      have e1 : (hiddenReturnPointer FI.ret).length + 1 +
          (pre.flatMap parameterSlots).length =
          (hiddenReturnPointer FI.ret).length + (pre.flatMap parameterSlots).length + 1 := by
        omega
      rw [e1]
    · intro e he
      rcases List.mem_append.1 he with he | he
      · have := returnEntries_bounds _ e he
        simp only [List.length_append]
        omega
      · have := (argumentEntries_bounds _ _ e he).2.1
        simp only [List.length_append]
        omega
    · intro e he
      rcases List.mem_append.1 he with he | he
      · have := (argumentEntries_bounds _ _ e he).1
        simp only [List.length_append]
        omega
      · obtain ⟨_, rfl⟩ := (mem_functionEntries _ _ e).1 he
        rw [hlen, hsplit] at hn
        simp only [List.flatMap_append, List.flatMap_cons, List.length_append] at hn ⊢
        omega
    · intro hi
      simp [parameterSlots, hi]
    · intro hi
      have hx := hexp it (by rw [hsplit]; simp) hi
      have := GetExpandedTypes_of_isExpandable it.type [] hx
      simpa [parameterSlots, hi] using this
  · intro e he h0
    unfold attributeList at he
    rcases List.mem_append.1 he with he | he
    · rcases List.mem_append.1 he with he | he
      · rcases (mem_returnEntries _ e).1 he with ⟨_, rfl⟩ | ⟨hd, _, rfl⟩
        · cases h0
        · exact ⟨hd, rfl⟩
      · have := (hargsBound e he).1
        omega
    · obtain ⟨_, rfl⟩ := (mem_functionEntries _ _ e).1 he
      cases h0
  · unfold attributeList
    rw [List.pairwise_append]
    refine ⟨?_, functionEntries_pairwise _ _, ?_⟩
    · rw [List.pairwise_append]
      refine ⟨returnEntries_pairwise _, argumentEntries_pairwise _ _, ?_⟩
      intro a ha b hb
      have h1 := returnEntries_bounds _ a ha
      have h2 := (argumentEntries_bounds _ _ b hb).1
      omega
    · intro a ha b hb
      obtain ⟨_, rfl⟩ := (mem_functionEntries _ _ b).1 hb
      rcases List.mem_append.1 ha with ha | ha
      · exact hretBound a ha
      · exact (hargsBound a ha).2
  · intro e he hf
    unfold attributeList at he ⊢
    rcases List.mem_append.1 he with he | he
    · rcases List.mem_append.1 he with he | he
      · have := hretBound e he
        omega
      · have := (hargsBound e he).2
        omega
    · obtain ⟨hnz, rfl⟩ := (mem_functionEntries _ _ e).1 he
      refine ⟨?_, rfl⟩
      simp [functionEntries, hnz]


/-- C38 at the signature `short f(struct { }, struct { int a, b, c, d; }, unsigned char,
struct { int a, b, c, d, e; })` of 32-bit x86: the `unsigned char` argument follows four
physical parameters, and its extension attribute is at index 5. -/
theorem C38_attribute_indices_witness :
    ∃ FT PAL, GetFunctionType Example.MixedSignature false = .ok FT ∧
      ConstructAttributeList Example.MixedSignature (some Example.PureDecl) [] = .ok PAL ∧
      List.Pairwise (fun a b : AttributeWithIndex => a.Index < b.Index) PAL ∧
      ∃ after entriesBefore entriesAfter,
        FT.ArgTys =
          [.ConvertedTy Example.IntTy, .ConvertedTy Example.IntTy,
            .ConvertedTy Example.IntTy, .ConvertedTy Example.IntTy] ++
            [.ConvertedTy Example.UnsignedCharTy] ++ after ∧
        PAL = entriesBefore ++
          [{ Index := 5,
             Attrs := setExtensionAttribute Example.UnsignedCharTy Attributes.None }] ++
          entriesAfter := by
  obtain ⟨FT, PAL, h1, h2, hsplit, _, hpw, _⟩ :=
    C38_attribute_indices (.X86_32 false)
      (CGFunctionInfo.create Example.ShortTy
        [Example.EmptyStruct, Example.StructFourInt, Example.UnsignedCharTy,
          Example.StructFiveInt])
      Example.MixedSignature (some Example.PureDecl) false rfl
      (by
        intro it hit
        simp only [CGFunctionInfo.create, List.map, List.mem_cons, List.mem_singleton,
          List.not_mem_nil, or_false] at hit
        rcases hit with rfl | rfl | rfl | rfl <;> rfl)
      (by decide)
  obtain ⟨before, slots, after, entriesBefore, entriesAfter, rfl, rfl, hA, hP, _⟩ :=
    hsplit [{ type := Example.EmptyStruct, info := .Ignore },
        { type := Example.StructFourInt, info := .Expand }]
      { type := Example.UnsignedCharTy, info := .Direct }
      [{ type := Example.StructFiveInt, info := .Indirect 0 }] rfl
  exact ⟨FT, PAL, h1, h2, hpw, after, entriesBefore, entriesAfter, hA, hP⟩


/-! ## The marshallers and the lowered parameter list -/

theorem CreateCoercedLoad_replicate (n m : Nat) :
    CreateCoercedLoad (List.replicate n none) m =
      if n ≤ m then
        .ok (if n = m then List.replicate n none
          else List.replicate n none ++ List.replicate (m - n) none)
      else .error .coercionLosingSourceBits := by
  unfold CreateCoercedLoad
  simp only [List.length_replicate]
  by_cases h1 : n = m
  · simp [h1, pure, Except.pure]
  · by_cases h2 : n < m
    · have : n ≤ m := by omega
      simp [h1, h2, this, assertThat, bind, Except.bind, pure, Except.pure]
    · have : ¬ n ≤ m := by omega
      simp [h1, h2, this, assertThat, bind, Except.bind]

theorem CreateCoercedStore_replicate (n m : Nat) :
    CreateCoercedStore (List.replicate n none) m =
      if m ≤ n then
        .ok (if n = m then List.replicate n none else (List.replicate n none).take m)
      else .error .coercionMissingBits := by
  unfold CreateCoercedStore
  simp only [List.length_replicate]
  by_cases h1 : n = m
  · simp [h1, pure, Except.pure]
  · by_cases h2 : n > m
    · have : m ≤ n := by omega
      simp [h1, h2, this, assertThat, bind, Except.bind, pure, Except.pure]
    · have : ¬ m ≤ n := by omega
      simp [h1, h2, this, assertThat, bind, Except.bind]

theorem hasAggregateLLVMType_of_isExpandable (T : QualType) (h : isExpandable T = true) :
    hasAggregateLLVMType T = true := by
  cases T with
  | record isUnion hasFlexibleArrayMember fields size align =>
    exact hasAggregateLLVMType_record _ _ _ _ _
  | _ => simp [isExpandable] at h

mutual
theorem ExpandTypeToArgs_of_isExpandable :
    ∀ (T : QualType) (Args : List LLVMType), isExpandable T = true →
      ExpandTypeToArgs T .Aggregate Args =
        .ok (Args ++ (leafFieldTypes T).map fun FT => .ConvertedTy FT)
  | .record isUnion hasFlexibleArrayMember fields size align, Args, h => by
    simp only [isExpandable, Bool.and_eq_true, Bool.not_eq_true'] at h
    obtain ⟨⟨h1, h2⟩, h3⟩ := h
    subst h1 h2
    have ih := ExpandTypeToArgsFields_of_isExpandable fields Args h3
    simp only [ExpandTypeToArgs, leafFieldTypes, assertThat, bind, Except.bind, ih]
    rfl
  | .builtin _ _ _, _, h => by simp [isExpandable] at h
  | .enumTy _, _, h => by simp [isExpandable] at h
  | .pointer _ _, _, h => by simp [isExpandable] at h
  | .pointerLike _ _, _, h => by simp [isExpandable] at h
  | .vector _ _ _, _, h => by simp [isExpandable] at h
  | .complex _ _ _, _, h => by simp [isExpandable] at h
  | .constantArray _ _ _ _, _, h => by simp [isExpandable] at h
  | .other _ _, _, h => by simp [isExpandable] at h
theorem ExpandTypeToArgsFields_of_isExpandable :
    ∀ (fields : FieldList) (Args : List LLVMType), isExpandableFields fields = true →
      ExpandTypeToArgsFields fields Args =
        .ok (Args ++ (leafFieldTypesOfFields fields).map fun FT => .ConvertedTy FT)
  | .nil, Args, _ => by
    simp [ExpandTypeToArgsFields, leafFieldTypesOfFields, pure, Except.pure]
  | .cons FT fieldOffset bitWidth rest, Args, h => by
    simp only [isExpandableFields, Bool.and_eq_true, Bool.or_eq_true, Bool.not_eq_true',
      Option.isNone_iff_eq_none] at h
    obtain ⟨⟨h1, h2⟩, h3⟩ := h
    subst h1
    cases hagg : hasAggregateLLVMType FT with
    | false =>
      have ih := ExpandTypeToArgsFields_of_isExpandable rest
        (Args ++ [.ConvertedTy FT]) h3
      simp [ExpandTypeToArgsFields, leafFieldTypesOfFields, bind, Except.bind, hagg, ih]
    | true =>
      have hT : isExpandable FT = true := by
        rcases h2 with h2 | h2
        · rw [hagg] at h2; cases h2
        · exact h2
      have ih1 := ExpandTypeToArgs_of_isExpandable FT Args hT
      have ih2 := ExpandTypeToArgsFields_of_isExpandable rest
        (Args ++ (leafFieldTypes FT).map fun FT => .ConvertedTy FT) h3
      simp [ExpandTypeToArgsFields, leafFieldTypesOfFields, bind, Except.bind, hagg, ih1,
        ih2]
end

mutual
theorem ExpandTypeFromArgs_of_isExpandable :
    ∀ (T : QualType) (AI : Nat), isExpandable T = true →
      ExpandTypeFromArgs T AI = .ok (AI + (leafFieldTypes T).length)
  | .record isUnion hasFlexibleArrayMember fields size align, AI, h => by
    simp only [isExpandable, Bool.and_eq_true, Bool.not_eq_true'] at h
    obtain ⟨⟨h1, h2⟩, h3⟩ := h
    subst h1 h2
    have ih := ExpandTypeFromArgsFields_of_isExpandable fields AI h3
    simp only [ExpandTypeFromArgs, leafFieldTypes, assertThat, bind, Except.bind, ih]
    rfl
  | .builtin _ _ _, _, h => by simp [isExpandable] at h
  | .enumTy _, _, h => by simp [isExpandable] at h
  | .pointer _ _, _, h => by simp [isExpandable] at h
  | .pointerLike _ _, _, h => by simp [isExpandable] at h
  | .vector _ _ _, _, h => by simp [isExpandable] at h
  | .complex _ _ _, _, h => by simp [isExpandable] at h
  | .constantArray _ _ _ _, _, h => by simp [isExpandable] at h
  | .other _ _, _, h => by simp [isExpandable] at h
theorem ExpandTypeFromArgsFields_of_isExpandable :
    ∀ (fields : FieldList) (AI : Nat), isExpandableFields fields = true →
      ExpandTypeFromArgsFields fields AI = .ok (AI + (leafFieldTypesOfFields fields).length)
  | .nil, AI, _ => by
    simp [ExpandTypeFromArgsFields, leafFieldTypesOfFields, pure, Except.pure]
  | .cons FT fieldOffset bitWidth rest, AI, h => by
    simp only [isExpandableFields, Bool.and_eq_true, Bool.or_eq_true, Bool.not_eq_true',
      Option.isNone_iff_eq_none] at h
    obtain ⟨⟨h1, h2⟩, h3⟩ := h
    subst h1
    cases hagg : hasAggregateLLVMType FT with
    | false =>
      have ih := ExpandTypeFromArgsFields_of_isExpandable rest (AI + 1) h3
      simp [ExpandTypeFromArgsFields, leafFieldTypesOfFields, bind, Except.bind, hagg, ih]
      omega
    | true =>
      have hT : isExpandable FT = true := by
        rcases h2 with h2 | h2
        · rw [hagg] at h2; cases h2
        · exact h2
      have ih1 := ExpandTypeFromArgs_of_isExpandable FT AI hT
      have ih2 := ExpandTypeFromArgsFields_of_isExpandable rest
        (AI + (leafFieldTypes FT).length) h3
      simp [ExpandTypeFromArgsFields, leafFieldTypesOfFields, bind, Except.bind, hagg, ih1,
        ih2]
      omega
end


theorem expandedArgumentsExpandable_tail (it : ArgInfo) (rest : List ArgInfo)
    (h : expandedArgumentsExpandable (it :: rest)) : expandedArgumentsExpandable rest :=
  fun a ha hinfo => h a (List.mem_cons_of_mem _ ha) hinfo

theorem EmitCallArgs_spec (paddedSize : LLVMType → Nat) :
    ∀ (infos : List ArgInfo) (CallArgs : List CallArg) (Args0 : List LLVMType),
      CallArgs.map (fun I => I.type) = infos.map (fun it => it.type) →
      (∀ I ∈ CallArgs, hasAggregateLLVMType I.type = true → I.RV = .Aggregate) →
      expandedArgumentsExpandable infos →
      (∃ Args, EmitCallArgs paddedSize infos CallArgs Args0 = .ok Args ∧
        Args.length = Args0.length + (infos.flatMap parameterSlots).length) ∨
      (∃ e, EmitCallArgs paddedSize infos CallArgs Args0 = .error e ∧
        isCoercionError e = true ∧ infos.all (coercionFits paddedSize) = false)
  | [], [], Args0, _, _, _ => by
    left
    exact ⟨Args0, rfl, by simp⟩
  | [], _ :: _, _, hty, _, _ => by simp at hty
  | _ :: _, [], _, hty, _, _ => by simp at hty
  | it :: infos, I :: rest, Args0, hty, hRV, hexp => by
    simp only [List.map_cons, List.cons.injEq] at hty
    obtain ⟨hI, hty⟩ := hty
    have hRV2 : ∀ J ∈ rest, hasAggregateLLVMType J.type = true → J.RV = .Aggregate :=
      fun J hJ => hRV J (List.mem_cons_of_mem _ hJ)
    have hexp2 := expandedArgumentsExpandable_tail it infos hexp
    cases hinfo : it.info with
    | Indirect align =>
      rcases EmitCallArgs_spec paddedSize infos rest
          (Args0 ++ [.PointerTy (.ConvertedForMemTy I.type)]) hty hRV2 hexp2 with
        ⟨Args, h1, h2⟩ | ⟨e, h1, h2, h3⟩
      · left
        refine ⟨Args, by rw [EmitCallArgs, hinfo]; exact h1, ?_⟩
        simp [h2, parameterSlots, hinfo]
        omega
      · right
        refine ⟨e, by rw [EmitCallArgs, hinfo]; exact h1, h2, ?_⟩
        simp only [List.all_cons, h3, Bool.and_false]
    | Direct =>
      by_cases hk : I.RV = .Scalar ∨ I.RV = .Complex
      · rcases EmitCallArgs_spec paddedSize infos rest
            (Args0 ++ [.ConvertedTy I.type]) hty hRV2 hexp2 with
          ⟨Args, h1, h2⟩ | ⟨e, h1, h2, h3⟩
        · left
          refine ⟨Args, by rw [EmitCallArgs, hinfo]; simp only [hk, if_true]; exact h1, ?_⟩
          simp [h2, parameterSlots, hinfo]
          omega
        · right
          refine ⟨e, by rw [EmitCallArgs, hinfo]; simp only [hk, if_true]; exact h1, h2, ?_⟩
          simp only [List.all_cons, h3, Bool.and_false]
      · rcases EmitCallArgs_spec paddedSize infos rest
            (Args0 ++ [.ConvertedForMemTy I.type]) hty hRV2 hexp2 with
          ⟨Args, h1, h2⟩ | ⟨e, h1, h2, h3⟩
        · left
          refine ⟨Args, by rw [EmitCallArgs, hinfo]; simp only [hk, if_false]; exact h1, ?_⟩
          simp [h2, parameterSlots, hinfo]
          omega
        · right
          refine ⟨e, by rw [EmitCallArgs, hinfo]; simp only [hk, if_false]; exact h1, h2,
            ?_⟩
          simp only [List.all_cons, h3, Bool.and_false]
    | Ignore =>
      rcases EmitCallArgs_spec paddedSize infos rest Args0 hty hRV2 hexp2 with
        ⟨Args, h1, h2⟩ | ⟨e, h1, h2, h3⟩
      · left
        refine ⟨Args, by rw [EmitCallArgs, hinfo]; exact h1, ?_⟩
        simp [h2, parameterSlots, hinfo]
      · right
        refine ⟨e, by rw [EmitCallArgs, hinfo]; exact h1, h2, ?_⟩
        simp only [List.all_cons, h3, Bool.and_false]
    | Coerce P =>
      by_cases hfit : paddedSize (.ConvertedForMemTy I.type) ≤ paddedSize P
      · rcases EmitCallArgs_spec paddedSize infos rest (Args0 ++ [P]) hty hRV2 hexp2 with
          ⟨Args, h1, h2⟩ | ⟨e, h1, h2, h3⟩
        · left
          refine ⟨Args, ?_, ?_⟩
          · rw [EmitCallArgs, hinfo]
            simp only [CreateCoercedLoad_replicate, hfit, if_true, bind, Except.bind]
            exact h1
          · simp [h2, parameterSlots, hinfo]
            omega
        · right
          refine ⟨e, ?_, h2, ?_⟩
          · rw [EmitCallArgs, hinfo]
            simp only [CreateCoercedLoad_replicate, hfit, if_true, bind, Except.bind]
            exact h1
          · simp only [List.all_cons, h3, Bool.and_false]
      · right
        refine ⟨.coercionLosingSourceBits, ?_, rfl, ?_⟩
        · rw [EmitCallArgs, hinfo]
          simp only [CreateCoercedLoad_replicate, hfit, if_false, bind, Except.bind]
        · rw [hI] at hfit
          simp [List.all_cons, coercionFits, hinfo, hfit]
    | Expand =>
      have hx := hexp it (List.mem_cons_self _ _) hinfo
      have hagg := hasAggregateLLVMType_of_isExpandable _ hx
      rw [← hI] at hx hagg
      have hrv := hRV I (List.mem_cons_self _ _) hagg
      have hE := ExpandTypeToArgs_of_isExpandable I.type Args0 hx
      rcases EmitCallArgs_spec paddedSize infos rest
          (Args0 ++ (leafFieldTypes I.type).map fun FT => .ConvertedTy FT) hty hRV2 hexp2
        with ⟨Args, h1, h2⟩ | ⟨e, h1, h2, h3⟩
      · left
        refine ⟨Args, ?_, ?_⟩
        · rw [EmitCallArgs, hinfo]
          simp only [hrv, hE, bind, Except.bind]
          exact h1
        · simp [h2, parameterSlots, hinfo, hI]
          omega
      · right
        refine ⟨e, ?_, h2, ?_⟩
        · rw [EmitCallArgs, hinfo]
          simp only [hrv, hE, bind, Except.bind]
          exact h1
        · simp only [List.all_cons, h3, Bool.and_false]


theorem EmitCall_spec (paddedSize : LLVMType → Nat) (CallInfo : CGFunctionInfo)
    (CalleeDoesNotReturn : Bool) (CallArgs : List CallArg) (TargetDecl : Option Decl)
    (hret : isReturnDisposition CallInfo.ret.info = true)
    (hexp : expandedArgumentsExpandable CallInfo.args)
    (hty : CallArgs.map (fun I => I.type) = CallInfo.args.map (fun it => it.type))
    (hRV : ∀ I ∈ CallArgs, hasAggregateLLVMType I.type = true → I.RV = .Aggregate) :
    (∃ Args, EmitCall paddedSize CallInfo CalleeDoesNotReturn CallArgs TargetDecl = .ok Args ∧
      Args.length = (parameterList CallInfo).length) ∨
    (∃ e, EmitCall paddedSize CallInfo CalleeDoesNotReturn CallArgs TargetDecl = .error e ∧
      isCoercionError e = true ∧ coercionsFit paddedSize CallInfo = false) := by
  have hne : CallInfo.ret.info ≠ .Expand := by
    intro he
    rw [he] at hret
    cases hret
  have hlen : CallInfo.args.length = CallArgs.length := by
    have := congrArg List.length hty
    simpa using this.symm
  have hPAL := ConstructAttributeList_eq CallInfo TargetDecl [] hne hexp
  have hsret : (if ReturnTypeUsesSret CallInfo = true
      then [LLVMType.PointerTy (.ConvertedForMemTy CallInfo.ret.type)] else []).length =
      (hiddenReturnPointer CallInfo.ret).length := by
    unfold ReturnTypeUsesSret hiddenReturnPointer
    cases CallInfo.ret.info <;> rfl
  have hassert : assertThat (CallInfo.args.length = CallArgs.length)
      .signatureArgumentsMismatch = .ok () := by
    simp [assertThat, hlen]
  unfold EmitCall
  rw [hassert]
  simp only [bind, Except.bind]
  rcases EmitCallArgs_spec paddedSize CallInfo.args CallArgs
      (if ReturnTypeUsesSret CallInfo = true
        then [LLVMType.PointerTy (.ConvertedForMemTy CallInfo.ret.type)] else [])
      hty hRV hexp with ⟨Args, h1, h2⟩ | ⟨e, h1, h2, h3⟩
  · rw [h1, hPAL]
    simp only
    have hcount : Args.length = (parameterList CallInfo).length := by
      rw [h2, hsret]
      simp [parameterList]
    split_ifs with hd
    · exact Or.inl ⟨Args, rfl, hcount⟩
    · cases hinfo : CallInfo.ret.info with
      | Expand => exact absurd hinfo hne
      | Direct => exact Or.inl ⟨Args, rfl, hcount⟩
      | Indirect align => exact Or.inl ⟨Args, rfl, hcount⟩
      | Ignore => exact Or.inl ⟨Args, rfl, hcount⟩
      | Coerce P =>
        simp only [CreateCoercedStore_replicate]
        by_cases hfit : paddedSize (.ConvertedForMemTy CallInfo.ret.type) ≤ paddedSize P
        · simp only [hfit, if_true]
          exact Or.inl ⟨Args, rfl, hcount⟩
        · simp only [hfit, if_false]
          refine Or.inr ⟨_, rfl, rfl, ?_⟩
          simp [coercionsFit, coercionFits, hinfo, hfit]
  · rw [h1]
    refine Or.inr ⟨e, rfl, h2, ?_⟩
    simp [coercionsFit, h3]

theorem range'_split (s a n : Nat) (h : s + a ≤ n) :
    List.range' s a ++ List.range' (s + a) (n - (s + a)) = List.range' s (n - s) := by
  rw [List.range'_append_1]
  congr 1
  omega

theorem getElem?_append_cons_length {α : Type} (pre : List α) (x : α) (post : List α) :
    (pre ++ x :: post)[pre.length]? = some x := by
  induction pre with
  | nil => simp
  | cons a pre ih => simpa using ih

theorem EmitFunctionPrologArgs_spec (paddedSize : LLVMType → Nat) (Fn : List LLVMType) :
    ∀ (infos : List ArgInfo) (pre : List LLVMType) (used : List Nat),
      Fn = pre ++ infos.flatMap parameterSlots →
      expandedArgumentsExpandable infos →
      EmitFunctionPrologArgs paddedSize Fn infos pre.length used =
        .ok (Fn.length, used ++ List.range' pre.length (Fn.length - pre.length)) ∨
      (∃ e, EmitFunctionPrologArgs paddedSize Fn infos pre.length used = .error e ∧
        isCoercionError e = true ∧ infos.all (coercionFits paddedSize) = false)
  | [], pre, used, hFn, _ => by
    left
    have : Fn.length = pre.length := by rw [hFn]; simp
    rw [EmitFunctionPrologArgs, this]
    simp [pure, Except.pure]
  | it :: rest, pre, used, hFn, hexp => by
    have hexp2 := expandedArgumentsExpandable_tail it rest hexp
    have hFn2 : Fn = (pre ++ parameterSlots it) ++ rest.flatMap parameterSlots := by
      rw [hFn]
      simp [List.flatMap_cons]
    have hle : pre.length + (parameterSlots it).length ≤ Fn.length := by
      rw [hFn2]
      simp only [List.length_append]
      omega
    have ih := EmitFunctionPrologArgs_spec paddedSize Fn rest (pre ++ parameterSlots it)
      (used ++ List.range' pre.length (parameterSlots it).length) hFn2 hexp2
    rw [List.length_append, List.append_assoc, range'_split _ _ _ hle] at ih
    cases hinfo : it.info with
    | Indirect align =>
      have hs : parameterSlots it = [.PointerTy (.ConvertedForMemTy it.type)] := by
        simp [parameterSlots, hinfo]
      rw [hs] at ih
      simp only [List.length_singleton, List.range'_one] at ih
      rw [EmitFunctionPrologArgs, hinfo]
      simp only
      rcases ih with ih | ⟨e, h1, h2, h3⟩
      · exact Or.inl ih
      · exact Or.inr ⟨e, h1, h2, by simp only [List.all_cons, h3, Bool.and_false]⟩
    | Direct =>
      have hs : parameterSlots it = [.ConvertedTy it.type] := by
        simp [parameterSlots, hinfo]
      have hget : Fn[pre.length]? = some (.ConvertedTy it.type) := by
        rw [hFn2, hs, List.append_assoc]
        exact getElem?_append_cons_length _ _ _
      rw [hs] at ih
      simp only [List.length_singleton, List.range'_one] at ih
      rw [EmitFunctionPrologArgs, hinfo]
      simp only [hget]
      rcases ih with ih | ⟨e, h1, h2, h3⟩
      · exact Or.inl ih
      · exact Or.inr ⟨e, h1, h2, by simp only [List.all_cons, h3, Bool.and_false]⟩
    | Ignore =>
      have hs : parameterSlots it = [] := by
        simp [parameterSlots, hinfo]
      rw [hs] at ih
      simp only [List.length_nil, Nat.add_zero, List.range'_zero, List.append_nil] at ih
      rw [EmitFunctionPrologArgs, hinfo]
      simp only
      rcases ih with ih | ⟨e, h1, h2, h3⟩
      · exact Or.inl ih
      · exact Or.inr ⟨e, h1, h2, by simp only [List.all_cons, h3, Bool.and_false]⟩
    | Coerce P =>
      have hs : parameterSlots it = [P] := by
        simp [parameterSlots, hinfo]
      have hget : Fn[pre.length]? = some P := by
        rw [hFn2, hs, List.append_assoc]
        exact getElem?_append_cons_length _ _ _
      rw [hs] at ih
      simp only [List.length_singleton, List.range'_one] at ih
      rw [EmitFunctionPrologArgs, hinfo]
      simp only [hget, CreateCoercedStore_replicate, bind, Except.bind]
      by_cases hfit : paddedSize (.ConvertedForMemTy it.type) ≤ paddedSize P
      · simp only [hfit, if_true]
        rcases ih with ih | ⟨e, h1, h2, h3⟩
        · exact Or.inl ih
        · exact Or.inr ⟨e, h1, h2, by simp only [List.all_cons, h3, Bool.and_false]⟩
      · simp only [hfit, if_false]
        refine Or.inr ⟨_, rfl, rfl, ?_⟩
        simp [List.all_cons, coercionFits, hinfo, hfit]
    | Expand =>
      have hx := hexp it (List.mem_cons_self _ _) hinfo
      have hE := ExpandTypeFromArgs_of_isExpandable it.type pre.length hx
      have hs : (parameterSlots it).length = (leafFieldTypes it.type).length := by
        simp [parameterSlots, hinfo]
      rw [hs] at ih
      rw [EmitFunctionPrologArgs, hinfo]
      simp only [hE, bind, Except.bind, Nat.add_sub_cancel_left]
      rcases ih with ih | ⟨e, h1, h2, h3⟩
      · exact Or.inl ih
      · exact Or.inr ⟨e, h1, h2, by simp only [List.all_cons, h3, Bool.and_false]⟩

theorem EmitFunctionProlog_spec (paddedSize : LLVMType → Nat) (FI : CGFunctionInfo)
    (Tys : List QualType) (hexp : expandedArgumentsExpandable FI.args)
    (hTys : Tys.length = FI.args.length) :
    EmitFunctionProlog paddedSize FI (parameterList FI) Tys =
      .ok (List.range (parameterList FI).length) ∨
    (∃ e, EmitFunctionProlog paddedSize FI (parameterList FI) Tys = .error e ∧
      isCoercionError e = true ∧ coercionsFit paddedSize FI = false) := by
  have hassert : assertThat (FI.args.length = Tys.length)
      .signatureArgumentsMismatch = .ok () := by
    simp [assertThat, hTys]
  unfold EmitFunctionProlog
  rw [hassert]
  simp only [bind, Except.bind]
  have hstart : (if ReturnTypeUsesSret FI = true then ((1, [0]) : Nat × List Nat)
      else (0, [])) =
      ((hiddenReturnPointer FI.ret).length,
        List.range' 0 (hiddenReturnPointer FI.ret).length) := by
    unfold ReturnTypeUsesSret hiddenReturnPointer
    cases FI.ret.info <;> rfl
  rw [hstart]
  simp only
  rcases EmitFunctionPrologArgs_spec paddedSize (parameterList FI) FI.args
      (hiddenReturnPointer FI.ret) (List.range' 0 (hiddenReturnPointer FI.ret).length) rfl
      hexp with h | ⟨e, h1, h2, h3⟩
  · left
    rw [h]
    simp only [if_true, pure, Except.pure]
    have hle : 0 + (hiddenReturnPointer FI.ret).length ≤ (parameterList FI).length := by
      simp [parameterList]
    have := range'_split 0 (hiddenReturnPointer FI.ret).length _ hle
    simp only [Nat.zero_add, Nat.sub_zero] at this
    rw [this, List.range_eq_range']
    rfl
  · right
    rw [h1]
    exact ⟨e, rfl, h2, by simp [coercionsFit, h3]⟩


/-- The marshallers agree with the lowered parameter list. For a signature
`computeInfo` has filled in (the argument types having no field of a placeholder kind)
and a list of call arguments of the types of the signature, aggregates being aggregate
values, `GetFunctionType` returns a function type and: `EmitCall` either builds as many
physical argument values, the hidden return temporary included, as the function type
has parameters, or stops on a size assertion of the coercion through memory;
`EmitFunctionProlog` on a function of that type either binds the physical parameters
`0, 1, ..., n - 1`, each once and in order, passing its final assertion "Argument
mismatch!", or stops on a size assertion of the coercion. A size assertion fails only
for a signature with a coerced type smaller than the type it stands for; when every
coerced type fits, both marshallers return. -/
theorem marshallers_agree (TheABIInfo : ABIInfo) (FI0 FI : CGFunctionInfo)
    (paddedSize : LLVMType → Nat) (CalleeDoesNotReturn IsVariadic : Bool)
    (CallArgs : List CallArg) (Tys : List QualType) (TargetDecl : Option Decl)
    (h : TheABIInfo.computeInfo FI0 = .ok FI)
    (hp : ∀ it ∈ FI0.args, noPlaceholderField (recordFields it.type) = true)
    (hty : CallArgs.map (fun I => I.type) = FI.args.map (fun it => it.type))
    (hRV : ∀ I ∈ CallArgs, hasAggregateLLVMType I.type = true → I.RV = .Aggregate)
    (hTys : Tys.length = FI.args.length) :
    ∃ FT, GetFunctionType FI IsVariadic = .ok FT ∧
      ((∃ Args, EmitCall paddedSize FI CalleeDoesNotReturn CallArgs TargetDecl = .ok Args ∧
          Args.length = FT.ArgTys.length) ∨
        (∃ e, EmitCall paddedSize FI CalleeDoesNotReturn CallArgs TargetDecl = .error e ∧
          isCoercionError e = true ∧ coercionsFit paddedSize FI = false)) ∧
      (EmitFunctionProlog paddedSize FI FT.ArgTys Tys = .ok (List.range FT.ArgTys.length) ∨
        (∃ e, EmitFunctionProlog paddedSize FI FT.ArgTys Tys = .error e ∧
          isCoercionError e = true ∧ coercionsFit paddedSize FI = false)) ∧
      (coercionsFit paddedSize FI = true →
        (∃ Args, EmitCall paddedSize FI CalleeDoesNotReturn CallArgs TargetDecl = .ok Args ∧
          Args.length = FT.ArgTys.length) ∧
        EmitFunctionProlog paddedSize FI FT.ArgTys Tys =
          .ok (List.range FT.ArgTys.length)) := by
  have hret := computeInfo_ret TheABIInfo FI0 FI h
  have hexp := computeInfo_args TheABIInfo FI0 FI h hp
  obtain ⟨FT, hFT, hArgs, _⟩ := GetFunctionType_eq FI IsVariadic hret hexp
  have hcall := EmitCall_spec paddedSize FI CalleeDoesNotReturn CallArgs TargetDecl hret hexp
    hty hRV
  have hprolog := EmitFunctionProlog_spec paddedSize FI Tys hexp hTys
  rw [← hArgs] at hcall hprolog
  refine ⟨FT, hFT, hcall, hprolog, ?_⟩
  intro hfit
  constructor
  · rcases hcall with hc | ⟨e, _, _, hf⟩
    · exact hc
    · rw [hfit] at hf
      cases hf
  · rcases hprolog with hc | ⟨e, _, _, hf⟩
    · exact hc
    · rw [hfit] at hf
      cases hf

/-- The marshallers at the signature `short f(struct { }, struct { int a, b, c, d; },
unsigned char, struct { int a, b, c, d, e; })` of 32-bit x86, with six physical
parameters. -/
theorem marshallers_agree_MixedSignature :
    ∃ FT, GetFunctionType Example.MixedSignature false = .ok FT ∧
      FT.ArgTys.length = 6 ∧
      (∃ Args, EmitCall (fun _ => 4) Example.MixedSignature false
          [{ RV := .Aggregate, type := Example.EmptyStruct },
            { RV := .Aggregate, type := Example.StructFourInt },
            { RV := .Scalar, type := Example.UnsignedCharTy },
            { RV := .Aggregate, type := Example.StructFiveInt }] none = .ok Args ∧
        Args.length = FT.ArgTys.length) ∧
      EmitFunctionProlog (fun _ => 4) Example.MixedSignature FT.ArgTys
        [Example.EmptyStruct, Example.StructFourInt, Example.UnsignedCharTy,
          Example.StructFiveInt] = .ok (List.range FT.ArgTys.length) := by
  obtain ⟨FT, h1, _, _, h4⟩ :=
    marshallers_agree (.X86_32 false)
      (CGFunctionInfo.create Example.ShortTy
        [Example.EmptyStruct, Example.StructFourInt, Example.UnsignedCharTy,
          Example.StructFiveInt])
      Example.MixedSignature (fun _ => 4) false false
      [{ RV := .Aggregate, type := Example.EmptyStruct },
        { RV := .Aggregate, type := Example.StructFourInt },
        { RV := .Scalar, type := Example.UnsignedCharTy },
        { RV := .Aggregate, type := Example.StructFiveInt }]
      [Example.EmptyStruct, Example.StructFourInt, Example.UnsignedCharTy,
        Example.StructFiveInt] none rfl
      (by
        intro it hit
        simp only [CGFunctionInfo.create, List.map, List.mem_cons, List.mem_singleton,
          List.not_mem_nil, or_false] at hit
        rcases hit with rfl | rfl | rfl | rfl <;> rfl)
      rfl
      (by
        intro I hI
        simp only [List.mem_cons, List.mem_singleton, List.not_mem_nil, or_false] at hI
        rcases hI with rfl | rfl | rfl | rfl <;>
          first
          | exact fun _ => rfl
          | exact fun hagg => nomatch hagg)
      rfl
  have h6 : (GetFunctionType Example.MixedSignature false).map
      (fun FT => FT.ArgTys.length) = .ok 6 := rfl
  rw [h1] at h6
  simp only [Except.map, Except.ok.injEq] at h6
  exact ⟨FT, h1, h6, (h4 rfl).1, (h4 rfl).2⟩


/-- C39 (the marshallers agree with the lowered parameter list), evaluated at a signature
`computeInfo` fills in for which the marshallers build and bind nothing: for
`void f(struct { long a; } __attribute__((aligned(16))))` on x86-64 the argument (16
bytes) is coerced to a 64-bit integer (8 bytes) and `GetFunctionType` gives one
parameter; `EmitCall` stops on "Coercion is losing source bits!" before any argument
value is pushed, and `EmitFunctionProlog` on a function of that type stops on "Coercion
is missing bits!" before its final assertion. -/
theorem C39_marshallers_abort_on_small_coercion :
    ABIInfo.computeInfo .X86_64
      (CGFunctionInfo.create Example.VoidTy [Example.OverAlignedLong]) =
      .ok Example.OverAlignedArgumentSignature ∧
    (∃ FT, GetFunctionType Example.OverAlignedArgumentSignature false = .ok FT ∧
      FT.ArgTys = [.IntegerTy 64]) ∧
    Example.storageSize (.ConvertedForMemTy Example.OverAlignedLong) = 16 ∧
    Example.storageSize (.IntegerTy 64) = 8 ∧
    EmitCall Example.storageSize Example.OverAlignedArgumentSignature false
      [{ RV := .Aggregate, type := Example.OverAlignedLong }] none =
      .error .coercionLosingSourceBits ∧
    EmitFunctionProlog Example.storageSize Example.OverAlignedArgumentSignature
      [.IntegerTy 64] [Example.OverAlignedLong] = .error .coercionMissingBits :=
  ⟨rfl, ⟨_, rfl, rfl⟩, rfl, rfl, rfl, rfl⟩

end CGCall
